import Mathlib

/-! # go-imstm: IMS Connect client, protocol engine

A shallow embedding of the request framer (`request.go`), the request-message
prefix codec (`irm.go`), the response parser (`response.go`), the context with
its mode facades (`context.go`, `ctx_send_recv.go`, `ctx_send_only.go`,
`ctx_recv_only.go`) and the error catalog (`error.go`), followed by the
properties proved about them.

Conventions of the embedding

* a Go `byte` is a natural number (a value below 256 on every real input);
  wider machine integers are natural numbers reduced `% 2^w` wherever the Go
  arithmetic can wrap;
* a Go array `[n]byte` is `Bytes n`, a list together with its length;
* a Go slice `[]byte` is a `List Byte`;
* a function that can fail at run time (slice bounds, negative `make`) returns
  an `Option`, `none` standing for the run-time panic; the functions built on the
  loop of `readAllSegments` return a `Run`, which also records spent fuel;
* the EBCDIC tables are a parameter, the `CodePage`;
* deadlines on the connection are not modelled.
-/

namespace Imstm

/-! ## Bytes, slices and `encoding/binary` -/

/-- One octet. -/
abbrev Byte := Nat

/-- The Go array type `[n]byte`. -/
abbrev Bytes (n : Nat) := { l : List Byte // l.length = n }

/-- The zero value of `[n]byte`. -/
def Bytes.zero (n : Nat) : Bytes n := ⟨List.replicate n 0, List.length_replicate n 0⟩

instance (n : Nat) : Inhabited (Bytes n) := ⟨Bytes.zero n⟩

/-- Go's builtin `copy(dst, src)`: the first `min (len dst) (len src)` elements of
`src` overwrite the head of `dst`; the result is the new content of `dst`. -/
def copy (dst src : List Byte) : List Byte :=
  src.take dst.length ++ dst.drop src.length

/-- The statement `copy(arr[:], src)` on an array `arr`. -/
def Bytes.copy {n : Nat} (dst : Bytes n) (src : List Byte) : Bytes n :=
  ⟨Imstm.copy dst.val src, by
    have h := dst.property
    simp only [Imstm.copy, List.length_append, List.length_take, List.length_drop]
    omega⟩

/-- The statement `copy(out[a:b], src)` on a slice `out` with `a ≤ b ≤ len out`. -/
def copyAt (out : List Byte) (a b : Nat) (src : List Byte) : List Byte :=
  out.take a ++ copy ((out.take b).drop a) src ++ out.drop b

/-- The slice expression `l[a:b]` with `a ≤ b ≤ len l`. -/
def slice (l : List Byte) (a b : Nat) : List Byte := (l.take b).drop a

/-- `binary.BigEndian.PutUint16`: the two bytes written for `v`. -/
def PutUint16 (v : Nat) : List Byte := [v / 256 % 256, v % 256]

/-- `binary.BigEndian.Uint16` of a slice of at least two bytes. -/
def Uint16 (b : List Byte) : Nat := b.getD 0 0 * 256 + b.getD 1 0

/-- `binary.BigEndian.PutUint32`: the four bytes written for `v`. -/
def PutUint32 (v : Nat) : List Byte :=
  [v / 16777216 % 256, v / 65536 % 256, v / 256 % 256, v % 256]

/-- `binary.BigEndian.Uint32` of a slice of at least four bytes. -/
def Uint32 (b : List Byte) : Nat :=
  b.getD 0 0 * 16777216 + b.getD 1 0 * 65536 + b.getD 2 0 * 256 + b.getD 3 0

/-- The bytes of a Go string literal made of ASCII characters. -/
def ascii (s : String) : List Byte := s.toList.map Char.toNat

/-! ## EBCDIC conversion -/

/-- Modelled from the spec: the EBCDIC conversion tables behind `A2E` and `E2A`
are not among the sources; section 4.A describes both functions as pure,
byte-by-byte, never failing and length preserving. A code page is the pair of
byte tables. -/
structure CodePage where
  a2e : Byte → Byte
  e2a : Byte → Byte

/-- Modelled from the spec: `A2E`, ASCII to EBCDIC, byte by byte. -/
def A2E (cp : CodePage) (a : List Byte) : List Byte := a.map cp.a2e

/-- Modelled from the spec: `E2A`, EBCDIC to ASCII, byte by byte. -/
def E2A (cp : CodePage) (e : List Byte) : List Byte := e.map cp.e2a

/-- A code page that agrees with code page 37 on the capital letters, the
digits, the asterisk and the space, and leaves every other byte alone. It is
used to instantiate the general theorems. -/
def samplePage : CodePage where
  a2e := fun b =>
    if b = 32 then 64 else if b = 42 then 92
    else if 48 ≤ b ∧ b ≤ 57 then b + 192
    else if 65 ≤ b ∧ b ≤ 73 then b + 128
    else if 74 ≤ b ∧ b ≤ 82 then b + 135
    else if 83 ≤ b ∧ b ≤ 90 then b + 143
    else b
  e2a := fun b =>
    if b = 64 then 32 else if b = 92 then 42
    else if 240 ≤ b ∧ b ≤ 249 then b - 192
    else if 193 ≤ b ∧ b ≤ 201 then b - 128
    else if 209 ≤ b ∧ b ≤ 217 then b - 135
    else if 226 ≤ b ∧ b ≤ 233 then b - 143
    else b

/-! ## The request-message prefix (`irm.go`) -/

/-- The struct `IRMHeader`, field for field. -/
structure IRMHeader where
  TotLength : Bytes 4
  Length : Bytes 2
  Arch : Byte
  F0 : Byte
  IrmID : Bytes 8
  NakRsn : Bytes 2
  res1 : Bytes 2
  F5 : Byte
  Timeout : Byte
  ConnType : Byte
  EncodingScheme : Byte
  ClientID : Bytes 8
  F1 : Byte
  F2 : Byte
  F3 : Byte
  F4 : Byte
  TranCode : Bytes 8
  DestID : Bytes 8
  Lterm : Bytes 8
  Userid : Bytes 8
  Grpid : Bytes 8
  Passwd : Bytes 8
  AppName : Bytes 8
  RerouteName : Bytes 8
  TagAdapt : Bytes 8
  TagMap : Bytes 8
  ModName : Bytes 8
  ctLen : Bytes 2
  ctRes1 : Bytes 2
  imsID : Bytes 4
  memTk : Bytes 8
  aweTk : Bytes 8
  ctTpipe : Bytes 8
  ctUser : Bytes 8
  sesTkn : Bytes 8
  extnOff : Bytes 2
  ctRes2 : Bytes 2

/-- The zero value `IRMHeader{}`. -/
def IRMHeader.zero : IRMHeader where
  TotLength := Bytes.zero 4
  Length := Bytes.zero 2
  Arch := 0
  F0 := 0
  IrmID := Bytes.zero 8
  NakRsn := Bytes.zero 2
  res1 := Bytes.zero 2
  F5 := 0
  Timeout := 0
  ConnType := 0
  EncodingScheme := 0
  ClientID := Bytes.zero 8
  F1 := 0
  F2 := 0
  F3 := 0
  F4 := 0
  TranCode := Bytes.zero 8
  DestID := Bytes.zero 8
  Lterm := Bytes.zero 8
  Userid := Bytes.zero 8
  Grpid := Bytes.zero 8
  Passwd := Bytes.zero 8
  AppName := Bytes.zero 8
  RerouteName := Bytes.zero 8
  TagAdapt := Bytes.zero 8
  TagMap := Bytes.zero 8
  ModName := Bytes.zero 8
  ctLen := Bytes.zero 2
  ctRes1 := Bytes.zero 2
  imsID := Bytes.zero 4
  memTk := Bytes.zero 8
  aweTk := Bytes.zero 8
  ctTpipe := Bytes.zero 8
  ctUser := Bytes.zero 8
  sesTkn := Bytes.zero 8
  extnOff := Bytes.zero 2
  ctRes2 := Bytes.zero 2

/-- Architecture levels `IRMARCH0` .. `IRMARCH5`. -/
def IRMARCH0 : Byte := 0
def IRMARCH1 : Byte := 1
def IRMARCH2 : Byte := 2
def IRMARCH3 : Byte := 3
def IRMARCH4 : Byte := 4
def IRMARCH5 : Byte := 5

/-- Flags of `F0`. -/
def IRMF0XMLTD : Byte := 0x01
def IRMF0XMLD : Byte := 0x02
def IRMF0EXTENS : Byte := 0x04
def IRMF0NAKRSN : Byte := 0x10
def IRMF0SYNCNAK : Byte := 0x20
def IRMF0SYNASYN : Byte := 0x40
def IRMF0SYNONLY : Byte := 0x80

/-- Flags of `F5`, the input message type. -/
def IRMF5SNGLNWT : Byte := 0x01
def IRMF5AUTOFLOW : Byte := 0x02
def IRMF5NAUTFLOW : Byte := 0x04
def IRMF5XID : Byte := 0x08
def IRMF5SNGLWT : Byte := 0x10
def IRMF5NTRNSL : Byte := 0x40
def IRMF5NOTMA : Byte := 0x80

/-- Socket connection types. -/
def IRMSOCKTX : Byte := 0x00
def IRMSOCKP : Byte := 0x10
def IRMSOCKNP : Byte := 0x40

/-- Encoding schemes. -/
def IRMESUTF8 : Byte := 0x01
def IRMESUTF16 : Byte := 0x02

/-- Flags of `F1`. -/
def IRMF1TRNEXP : Byte := 0x01
def IRMF1NOWAIT : Byte := 0x02
def IRMF1SOARSP : Byte := 0x04
def IRMF1UCTC : Byte := 0x08
def IRMF1UC : Byte := 0x10
def IRMF1CIDREQ : Byte := 0x20
def IRMF1MFSREQ : Byte := 0x40

/-- Flags of `F2`, the commit mode. -/
def IRMF2UNIQCID : Byte := 0x01
def IRMF2CM1 : Byte := 0x20
def IRMF2CM0 : Byte := 0x40

/-- Flags of `F3`: sync level, routing and delivery options. -/
def IRMF3SYNCNF : Byte := 0x01
def IRMF3SYNCPT : Byte := 0x02
def IRMF3PURGE : Byte := 0x04
def IRMF3REROUT : Byte := 0x08
def IRMF3ORDER : Byte := 0x10
def IRMF3IPURG : Byte := 0x20
def IRMF3DFS2082 : Byte := 0x40
def IRMF3CANCID : Byte := 0x80

/-- Message types carried in `F4`. -/
def IRMF4SENDRECV : Byte := 0x40
def IRMF4ACK : Byte := 0xC1
def IRMF4CANTIMER : Byte := 0xC3
def IRMF4DEALLOC : Byte := 0xC4
def IRMF4SNDONLYA : Byte := 0xD2
def IRMF4SYNRESPA : Byte := 0xD3
def IRMF4SYNRESP : Byte := 0xD4
def IRMF4NACK : Byte := 0xD5
def IRMF4RESTPIPE : Byte := 0xD9
def IRMF4SENDONLY : Byte := 0xE2

/-- The local `len` of `MarshalBinary`: a `uint16` sum, so it wraps at 65536. -/
def IRMHeader.marshalLen (irm : IRMHeader) : Nat :=
  (Uint16 irm.Length.val + 4) % 65536

/-- The 124-byte buffer `out` that `MarshalBinary` fills, statement by
statement. -/
def IRMHeader.marshalBuf (irm : IRMHeader) : List Byte :=
  let out := List.replicate 124 0
  -- fixed header
  let out := copyAt out 4 6 irm.Length.val
  let out := out.set 6 irm.Arch
  let out := out.set 7 irm.F0
  let out := copyAt out 8 (8 + 8) irm.IrmID.val
  let out := copyAt out 16 (16 + 2) irm.NakRsn.val
  let out := copyAt out 18 (18 + 2) irm.res1.val
  let out := out.set 20 irm.F5
  let out := out.set 21 irm.Timeout
  let out := out.set 22 irm.ConnType
  let out := out.set 23 irm.EncodingScheme
  let out := copyAt out 24 (24 + 8) irm.ClientID.val
  -- user portion
  let out := out.set 32 irm.F1
  let out := out.set 33 irm.F2
  let out := out.set 34 irm.F3
  let out := out.set 35 irm.F4
  let out := copyAt out 36 (36 + 8) irm.TranCode.val
  let out := copyAt out 44 (44 + 8) irm.DestID.val
  let out := copyAt out 52 (52 + 8) irm.Lterm.val
  let out := copyAt out 60 (60 + 8) irm.Userid.val
  let out := copyAt out 68 (68 + 8) irm.Grpid.val
  let out := copyAt out 76 (76 + 8) irm.Passwd.val
  let out := copyAt out 84 (84 + 8) irm.AppName.val
  let out := copyAt out 92 (92 + 8) irm.RerouteName.val
  let out := copyAt out 100 (100 + 8) irm.TagAdapt.val
  let out := copyAt out 108 (108 + 8) irm.TagMap.val
  let out := copyAt out 116 (116 + 8) irm.ModName.val
  out

/-- The error values the package can return. -/
inductive Err where
  /-- `io.EOF` -/
  | EOF
  /-- `io.ErrUnexpectedEOF` -/
  | ErrUnexpectedEOF
  /-- an error returned by the connection's `Write` -/
  | ErrWrite
  /-- `ErrInvalidUnmarshal` -/
  | ErrInvalidUnmarshal
  /-- `ErrSegmentNotPresent` -/
  | ErrSegmentNotPresent
  /-- the error built by `fmt.Errorf("ErrIMSConnect: ReturnCode: %d, ReasonCode: %d", ..)` -/
  | ErrIMSConnect (retCode rsnCode : Nat)
  deriving DecidableEq

/-- `IRMHeader.MarshalBinary`: the slice returned (`out[:len]` when `len` is below
124, the whole buffer otherwise) and the error, which is always nil. -/
def IRMHeader.MarshalBinary (irm : IRMHeader) : List Byte × Option Err :=
  let len := irm.marshalLen
  let maxLen := 124
  let out := irm.marshalBuf
  if len < maxLen then (out.take len, none) else (out, none)

/-- `IRMHeader.init`: the defaults written over the receiver. -/
def IRMHeader.init (cp : CodePage) (irm : IRMHeader) : IRMHeader :=
  { irm with
    Arch := IRMARCH0
    Length := ⟨[0x00, 0x50], rfl⟩
    IrmID := irm.IrmID.copy (A2E cp (ascii "*SAMPL1*"))
    F5 := IRMF5NTRNSL
    F3 := IRMF3CANCID
    ConnType := IRMSOCKP
    Timeout := 0xE9 }

/-- `IRMHeader.setReroute`; `id` holds the bytes of the Go string. -/
def IRMHeader.setReroute (cp : CodePage) (irm : IRMHeader) (id : List Byte) : IRMHeader :=
  let length := 96
  { irm with
    Length := irm.Length.copy (PutUint16 length)
    F3 := irm.F3 ||| IRMF3REROUT
    RerouteName := irm.RerouteName.copy (A2E cp id)
    Arch := IRMARCH2 }

/-! ## The connection -/

/-- The `net.Conn` of a session, seen from the client: the bytes written to the
peer so far, the outcome of the coming `Write` calls (`none`: the whole slice
is written; `some k`: the call fails after `k` bytes; no entry: the call
succeeds) and the bytes the peer has sent that are still unread. -/
structure Conn where
  sent : List Byte
  faults : List (Option Nat)
  unread : List Byte

/-- One call of `Write` on the connection: the new state and the error. -/
def Conn.Write (c : Conn) (p : List Byte) : Conn × Option Err :=
  match c.faults with
  | [] => ({ c with sent := c.sent ++ p }, none)
  | none :: fs => ({ c with sent := c.sent ++ p, faults := fs }, none)
  | some k :: fs => ({ c with sent := c.sent ++ p.take k, faults := fs }, some Err.ErrWrite)

/-- `io.ReadFull(conn, buf)` for a buffer of `n` bytes: the bytes placed in the
buffer, the error and the new state. A buffer of length zero reads nothing and
succeeds; a stream that ends early gives `io.EOF` when nothing was read and
`io.ErrUnexpectedEOF` otherwise. -/
def Conn.ReadFull (c : Conn) (n : Nat) : List Byte × Option Err × Conn :=
  if n = 0 then ([], none, c)
  else if n ≤ c.unread.length then
    (c.unread.take n, none, { c with unread := c.unread.drop n })
  else if c.unread = [] then ([], some Err.EOF, c)
  else (c.unread, some Err.ErrUnexpectedEOF, { c with unread := [] })

/-! ## The request framer (`request.go`) -/

/-- The struct `Request`; the writer is the connection handed to `Write`. -/
structure Request where
  length : Nat
  irmHeader : IRMHeader
  segments : List (List Byte)

def maxSegLen : Nat := 32 * 1024

/-- `RequestTrailer`. -/
def RequestTrailer : List Byte := [0x00, 0x04, 0x00, 0x00]

/-- The segment `seg` that `AddSegment` builds for a payload. -/
def mkSegment (segment : List Byte) : List Byte :=
  let segLen := segment.length
  let segLen := if segLen > maxSegLen - 4 then maxSegLen - 4 else segLen
  let seg := List.replicate (segLen + 4) 0
  let seg := copyAt seg 0 2 (PutUint16 ((segLen + 4) % 65536))
  copyAt seg 4 seg.length segment

/-- `Request.AddSegment`; the `uint32` length wraps at `2^32`. -/
def Request.AddSegment (r : Request) (segment : List Byte) : Request :=
  let seg := mkSegment segment
  { r with
    segments := r.segments ++ [seg]
    length := (r.length + seg.length % 4294967296) % 4294967296 }

/-- `NewRequest`. -/
def NewRequest (irmHeader : IRMHeader) : Request where
  irmHeader := irmHeader
  length := (4 + Uint16 irmHeader.Length.val % 4294967296 + 4) % 4294967296
  segments := []

/-- The loop `for _, seg := range r.segments` of `Write`, which returns at the
first failing call. -/
def writeSegments (c : Conn) : List (List Byte) → Conn × Option Err
  | [] => (c, none)
  | seg :: rest =>
    match c.Write seg with
    | (c1, some err) => (c1, some err)
    | (c1, none) => writeSegments c1 rest

/-- The slice `header` of `Write` once `PutUint32(header[:4], r.length)` has
run: `header[:4]` reslices the 124-byte backing array, so the four bytes land in
the buffer whatever the length of `header`, and `header` keeps its length. -/
def Request.header (r : Request) : List Byte :=
  let header := r.irmHeader.MarshalBinary.1
  let backing := copyAt r.irmHeader.marshalBuf 0 4 (PutUint32 r.length)
  backing.take header.length

/-- `Request.Write` on the connection `c`. -/
def Request.Write (r : Request) (c : Conn) : Conn × Option Err :=
  match c.Write r.header with
  | (c1, some err) => (c1, some err)
  | (c1, none) =>
    match writeSegments c1 r.segments with
    | (c2, some err) => (c2, some err)
    | (c2, none) => c2.Write RequestTrailer

/-! ## The response parser (`response.go`) -/

/-- The result of running code that may fail at run time: it returns, it
panics, or the fuel given to a loop of the embedding runs out. -/
inductive Run (α : Type) where
  | ret (a : α)
  | panic
  | fuelOut

/-- The struct `RespRMM`. -/
structure RespRMM where
  LL : Bytes 2
  ZZ : Bytes 2
  ID : Bytes 8
  MOD : Bytes 8

/-- `RespRMM.UnmarshalBinary`. -/
def RespRMM.UnmarshalBinary (rmm : RespRMM) (data : List Byte) : RespRMM × Option Err :=
  if data.length ≥ 20 then
    ({ LL := rmm.LL.copy (slice data 0 2)
       ZZ := rmm.ZZ.copy (slice data 2 (2 + 2))
       ID := rmm.ID.copy (slice data 4 (4 + 8))
       MOD := rmm.MOD.copy (slice data 12 (12 + 8)) }, none)
  else (rmm, some Err.ErrInvalidUnmarshal)

/-- The struct `RespCID`. -/
structure RespCID where
  LL : Bytes 2
  ZZ : Bytes 2
  ID : Bytes 8
  ClientID : Bytes 8

/-- `RespCID.UnmarshalBinary`. -/
def RespCID.UnmarshalBinary (cid : RespCID) (data : List Byte) : RespCID × Option Err :=
  if data.length ≥ 20 then
    ({ LL := cid.LL.copy (slice data 0 2)
       ZZ := cid.ZZ.copy (slice data 2 (2 + 2))
       ID := cid.ID.copy (slice data 4 (4 + 8))
       ClientID := cid.ClientID.copy (slice data 12 (12 + 8)) }, none)
  else (cid, some Err.ErrInvalidUnmarshal)

/-- The struct `RespCSM`. -/
structure RespCSM where
  LL : Bytes 2
  MsgFlag : Byte
  ProtoFlag : Byte
  ID : Bytes 8

/-- `RespCSM.UnmarshalBinary`. -/
def RespCSM.UnmarshalBinary (csm : RespCSM) (data : List Byte) : RespCSM × Option Err :=
  if data.length ≥ 12 then
    ({ LL := csm.LL.copy (slice data 0 2)
       MsgFlag := data.getD 2 0
       ProtoFlag := data.getD 3 0
       ID := csm.ID.copy (slice data 4 (4 + 8)) }, none)
  else (csm, some Err.ErrInvalidUnmarshal)

/-- The struct `RespRSM`. -/
structure RespRSM where
  LL : Bytes 2
  StatusFlag : Byte
  RacfRc : Byte
  ID : Bytes 8
  RetCode : Bytes 4
  RsnCode : Bytes 4

/-- The zero value `RespRSM{}`. -/
def RespRSM.zero : RespRSM where
  LL := Bytes.zero 2
  StatusFlag := 0
  RacfRc := 0
  ID := Bytes.zero 8
  RetCode := Bytes.zero 4
  RsnCode := Bytes.zero 4

/-- `RespRSM.UnmarshalBinary`. -/
def RespRSM.UnmarshalBinary (rsm : RespRSM) (data : List Byte) : RespRSM × Option Err :=
  if data.length ≥ 20 then
    ({ LL := rsm.LL.copy (slice data 0 2)
       StatusFlag := data.getD 2 0
       RacfRc := data.getD 3 0
       ID := rsm.ID.copy (slice data 4 (4 + 8))
       RetCode := rsm.RetCode.copy (slice data 12 (12 + 4))
       RsnCode := rsm.RsnCode.copy (slice data 16 (16 + 4)) }, none)
  else (rsm, some Err.ErrInvalidUnmarshal)

/-- The struct `Response`. A nil slice in one of the five segment slots is
`none`; the nil list of data segments is `[]`. -/
structure Response where
  length : Nat
  reader : Conn
  initial : Bool
  retCode : Nat
  rsnCode : Nat
  rmm : Option (List Byte)
  cid : Option (List Byte)
  csm : Option (List Byte)
  rsm : Option (List Byte)
  cortok : Option (List Byte)
  data : List (List Byte)

/-- The type `RespSegType`, a byte. -/
abbrev RespSegType := Byte

/-- The segment types, with the character codes the source gives them. -/
def RESPSEGINV : RespSegType := 0
def RESPSEGERR : RespSegType := 69
def RESPSEGRMM : RespSegType := 77
def RESPSEGCID : RespSegType := 67
def RESPSEGCT : RespSegType := 84
def RESPSEGDATA : RespSegType := 68
def RESPSEGCSM : RespSegType := 83

/-- `NewResponse`. -/
def NewResponse (reader : Conn) : Response where
  length := 0
  reader := reader
  initial := true
  retCode := 0
  rsnCode := 0
  rmm := none
  cid := none
  csm := none
  rsm := none
  cortok := none
  data := []

/-- The classification at the end of `ReadNextSegment`: the `switch` on
`string(E2A(segData[4:12]))`, entered when `segLen >= 12`. -/
def segTypeOf (cp : CodePage) (segData : List Byte) (segLen : Nat) : RespSegType :=
  if segLen ≥ 12 then
    let id := E2A cp (slice segData 4 12)
    if id = ascii "*REQSTS*" then RESPSEGERR
    else if id = ascii "*REQMOD*" then RESPSEGERR
    else if id = ascii "*GENCID*" then RESPSEGCID
    else if id = ascii "*CSMOKY*" then RESPSEGCSM
    else if id = ascii "*CORTOKN" then RESPSEGCT
    else RESPSEGDATA
  else RESPSEGDATA

/-- The block `if r.initial { .. }` of `ReadNextSegment`, which reads the total
length on the first call. -/
def Response.readTotal (r : Response) : Response × Option Err :=
  if r.initial then
    match r.reader.ReadFull 4 with
    | (_, some err, c) => ({ r with initial := false, reader := c }, some err)
    | (length, none, c) =>
      ({ r with initial := false, reader := c, length := Uint32 (slice length 0 4) }, none)
  else (r, none)

/-- `Response.ReadNextSegment`: the triple returned and the new state of the
response, or `none` when `segData[:2]` is out of range (a length below 2). -/
def Response.ReadNextSegment (cp : CodePage) (r : Response) :
    Option ((RespSegType × List Byte × Option Err) × Response) :=
  match r.readTotal with
  | (r1, some err) => some ((RESPSEGINV, [], some err), r1)
  | (r1, none) =>
    -- read each segment
    match r1.reader.ReadFull 2 with
    | (_, some err, c) => some ((RESPSEGINV, [], some err), { r1 with reader := c })
    | (length, none, c) =>
      let segLen := Uint16 (slice length 0 2)
      if segLen < 2 then none
      else
        let segData := copyAt (List.replicate segLen 0) 0 2 (slice length 0 2)
        match c.ReadFull (segLen - 2) with
        | (got, some err, c2) =>
          some ((RESPSEGINV, copyAt segData 2 segLen got, some err), { r1 with reader := c2 })
        | (got, none, c2) =>
          let segData := copyAt segData 2 segLen got
          some ((segTypeOf cp segData segLen, segData, none), { r1 with reader := c2 })

/-- The body of the `switch segType` of `readAllSegments`: the new state and the
flag `end`. -/
def Response.route (r : Response) (segType : RespSegType) (segData : List Byte) :
    Response × Bool :=
  if segType = RESPSEGERR then
    let rsm := (RespRSM.zero.UnmarshalBinary segData).1
    ({ r with rsm := some segData, retCode := Uint32 rsm.RetCode.val,
              rsnCode := Uint32 rsm.RsnCode.val }, true)
  else if segType = RESPSEGCT then ({ r with cortok := some segData }, false)
  else if segType = RESPSEGRMM then ({ r with rmm := some segData }, false)
  else if segType = RESPSEGCID then ({ r with cid := some segData }, false)
  else if segType = RESPSEGDATA then ({ r with data := r.data ++ [segData] }, false)
  else if segType = RESPSEGCSM then ({ r with csm := some segData }, true)
  else (r, false)

/-- The loop of `readAllSegments`, run for at most `fuel` iterations. -/
def Response.readLoop (cp : CodePage) : Nat → Response → Run (Option Err × Response)
  | 0, _ => Run.fuelOut
  | fuel + 1, r =>
    match r.ReadNextSegment cp with
    | none => Run.panic
    | some ((_, _, some err), r1) => Run.ret (some err, r1)
    | some ((segType, segData, none), r1) =>
      match r1.route segType segData with
      | (r2, true) => Run.ret (none, r2)
      | (r2, false) => Response.readLoop cp fuel r2

/-- `Response.readAllSegments`. Every iteration that goes on consumes at least
the two length bytes, so one more iteration than there are unread bytes is
enough fuel. -/
def Response.readAllSegments (cp : CodePage) (r : Response) : Run (Option Err × Response) :=
  Response.readLoop cp (r.reader.unread.length + 1) r

/-- The loop `for _, seg := range r.data` of `Out`; `none` when a slice
expression or `make` panics. -/
def outLoop (cp : CodePage) (ascii : Bool) : List (List Byte) → Option (List (List Byte))
  | [] => some []
  | seg :: rest =>
    let item : Option (List Byte) :=
      if ascii then
        if seg.length < 4 then none else some (E2A cp (seg.drop 4))
      else
        if seg.length < 4 then none
        else
          let segCopy := List.replicate (seg.length - 4) 0
          if segCopy.length < 4 then none else some (segCopy.drop 4)
    match item with
    | none => none
    | some x =>
      match outLoop cp ascii rest with
      | none => none
      | some out => some (x :: out)

/-- `Response.Out`: the pair returned and the new state of the response. -/
def Response.Out (cp : CodePage) (r : Response) (ascii : Bool) :
    Run ((List (List Byte) × Option Err) × Response) :=
  match r.readAllSegments cp with
  | Run.fuelOut => Run.fuelOut
  | Run.panic => Run.panic
  | Run.ret (some err, r1) => Run.ret (([], some err), r1)
  | Run.ret (none, r1) =>
    if r1.rsm ≠ none then
      Run.ret (([], some (Err.ErrIMSConnect r1.retCode r1.rsnCode)), r1)
    else if r1.csm ≠ none then
      if r1.data = [] then Run.ret (([], none), r1)
      else
        match outLoop cp ascii r1.data with
        | none => Run.panic
        | some out => Run.ret ((out, none), r1)
    else Run.ret (([], some Err.ErrSegmentNotPresent), r1)

/-- The zero value `RespRMM{}`. -/
def RespRMM.zero : RespRMM where
  LL := Bytes.zero 2
  ZZ := Bytes.zero 2
  ID := Bytes.zero 8
  MOD := Bytes.zero 8

/-- The zero value `RespCID{}`. -/
def RespCID.zero : RespCID where
  LL := Bytes.zero 2
  ZZ := Bytes.zero 2
  ID := Bytes.zero 8
  ClientID := Bytes.zero 8

/-- `Response.ModName`: the string, as bytes, and the error. The error of
`UnmarshalBinary` is dropped, as in the source. -/
def Response.ModName (cp : CodePage) (r : Response) : List Byte × Option Err :=
  match r.rmm with
  | none => ([], some Err.ErrSegmentNotPresent)
  | some data =>
    let rmm := (RespRMM.zero.UnmarshalBinary data).1
    (E2A cp rmm.MOD.val, none)

/-- `Response.ClientID`: the string, as bytes, and the error. The error of
`UnmarshalBinary` is dropped, as in the source. -/
def Response.ClientID (cp : CodePage) (r : Response) : List Byte × Option Err :=
  match r.cid with
  | none => ([], some Err.ErrSegmentNotPresent)
  | some data =>
    let cid := (RespCID.zero.UnmarshalBinary data).1
    (E2A cp cid.ClientID.val, none)

/-! ## Session and context (`session.go`, `context.go`) -/

/-- The struct `Session`. Strings are their bytes; `conn` is `none` until
`Start` has dialled; the TLS configuration is not modelled. -/
structure Session where
  Addr : List Byte
  DataStore : List Byte
  ReadTimeout : Nat
  WriteTimeout : Nat
  conn : Option Conn

/-- The struct `Context`. The pointer `session` is taken to be non-nil; the
pointer `irm` is `none` while it is nil, that is until a mode is selected. -/
structure Context where
  session : Session
  irm : Option IRMHeader
  active : Bool

/-- `NewContext`. -/
def NewContext (session : Session) : Context where
  session := session
  irm := none
  active := false

/-- `Context.SetReroute`; `none` when `ctx.irm` is nil. -/
def Context.SetReroute (cp : CodePage) (ctx : Context) (clientID : List Byte) :
    Option Context :=
  match ctx.irm with
  | none => none
  | some irm => some { ctx with irm := some (irm.setReroute cp clientID) }

/-- `Context.SetClientID`; `none` when `ctx.irm` is nil. -/
def Context.SetClientID (cp : CodePage) (ctx : Context) (clientID : List Byte) :
    Option Context :=
  match ctx.irm with
  | none => none
  | some irm =>
    some { ctx with irm := some { irm with ClientID := irm.ClientID.copy (A2E cp clientID) } }

/-- `Context.SetTranCode`; `none` when `ctx.irm` is nil. -/
def Context.SetTranCode (cp : CodePage) (ctx : Context) (tranCode : List Byte) :
    Option Context :=
  match ctx.irm with
  | none => none
  | some irm =>
    some { ctx with irm := some { irm with TranCode := irm.TranCode.copy (A2E cp tranCode) } }

/-- `Context.SetLterm`; `none` when `ctx.irm` is nil. -/
def Context.SetLterm (cp : CodePage) (ctx : Context) (lterm : List Byte) : Option Context :=
  match ctx.irm with
  | none => none
  | some irm =>
    some { ctx with irm := some { irm with Lterm := irm.Lterm.copy (A2E cp lterm) } }

/-- `Context.SetModName`; `none` when `ctx.irm` is nil. -/
def Context.SetModName (cp : CodePage) (ctx : Context) (modName : List Byte) :
    Option Context :=
  match ctx.irm with
  | none => none
  | some irm =>
    some { ctx with irm := some { irm with ModName := irm.ModName.copy (A2E cp modName) } }

/-- `Context.SetCredentials`; `none` when `ctx.irm` is nil. -/
def Context.SetCredentials (cp : CodePage) (ctx : Context) (userid grpid passwd : List Byte) :
    Option Context :=
  match ctx.irm with
  | none => none
  | some irm =>
    some { ctx with irm := some { irm with
      Userid := irm.Userid.copy (A2E cp userid)
      Grpid := irm.Grpid.copy (A2E cp grpid)
      Passwd := irm.Passwd.copy (A2E cp passwd) } }

/-- The loop of `send`: a segment is added, translated, when `ascii` is set,
and the loop body does nothing otherwise. -/
def sendSegments (cp : CodePage) (ascii : Bool) (request : Request) :
    List (List Byte) → Request
  | [] => request
  | segment :: rest =>
    sendSegments cp ascii (if ascii then request.AddSegment (A2E cp segment) else request) rest

/-- The function `send`: the context with the connection after the write, and
the error of `Write`; `none` when `ctx.irm` is nil or the session has no
connection (the type assertion in `Write` panics). -/
def send (cp : CodePage) (ctx : Context) (segments : List (List Byte)) (ascii : Bool) :
    Option (Context × Option Err) :=
  match ctx.irm, ctx.session.conn with
  | some irm, some conn =>
    let request := sendSegments cp ascii (NewRequest irm) segments
    match request.Write conn with
    | (conn1, err) => some ({ ctx with session := { ctx.session with conn := some conn1 } }, err)
  | _, _ => none

/-- The function `recv`: a fresh response on the connection of the session.
A response of this embedding holds its connection by value, so a session without
connection has no response here and the result is `none`; in the source the
response then holds a nil reader and its first read fails at run time. -/
def recv (ctx : Context) : Option Response :=
  match ctx.session.conn with
  | none => none
  | some conn => some (NewResponse conn)

/-- The function `ack`; the deferred function restores `F4` after `send`. -/
def ack (cp : CodePage) (ctx : Context) : Option (Context × Option Err) :=
  match ctx.irm with
  | none => none
  | some irm =>
    let oldF4 := irm.F4
    match send cp { ctx with irm := some { irm with F4 := IRMF4ACK } } [] false with
    | none => none
    | some (ctx1, err) =>
      let restored := ctx1.irm.map (fun i => { i with F4 := oldF4 })
      some ({ ctx1 with irm := restored }, err)

/-- The function `nak`; `reason` is a `uint16`. The deferred function restores
`F0`, `NakRsn` and `F4` after `send`. -/
def nak (cp : CodePage) (ctx : Context) (reason : Nat) (retainMsg : Bool) :
    Option (Context × Option Err) :=
  match ctx.irm with
  | none => none
  | some irm =>
    let oldF0 := irm.F0
    let oldNakRsn := irm.NakRsn
    let oldF4 := irm.F4
    let irm := { irm with F4 := IRMF4NACK }
    let irm := if retainMsg then { irm with F0 := IRMF0SYNCNAK } else irm
    let irm :=
      if reason ≠ 0 then
        { irm with F0 := irm.F0 ||| IRMF0NAKRSN, NakRsn := irm.NakRsn.copy (PutUint16 reason) }
      else irm
    match send cp { ctx with irm := some irm } [] false with
    | none => none
    | some (ctx1, err) =>
      let restored := ctx1.irm.map
        (fun i => { i with F0 := oldF0, NakRsn := oldNakRsn, F4 := oldF4 })
      some ({ ctx1 with irm := restored }, err)

/-! ## The mode facades (`ctx_send_recv.go`, `ctx_send_only.go`, `ctx_recv_only.go`) -/

/-- The struct `ctxSendRecv`; the pointer `ctx` is the context it holds. -/
structure ctxSendRecv where
  ctx : Context
  ackReq : Bool

/-- `ctxSendRecv.Send`. -/
def ctxSendRecv.Send (cp : CodePage) (s : ctxSendRecv) (segments : List (List Byte))
    (ascii : Bool) : Option (ctxSendRecv × Option Err) :=
  match send cp s.ctx segments ascii with
  | none => none
  | some (ctx1, err) => some ({ s with ctx := ctx1 }, err)

/-- `ctxSendRecv.Recv`: the response and the error, which is always nil. -/
def ctxSendRecv.Recv (s : ctxSendRecv) : Option (Response × Option Err) :=
  match recv s.ctx with
  | none => none
  | some resp => some (resp, none)

/-- `ctxSendRecv.Ack`. -/
def ctxSendRecv.Ack (cp : CodePage) (s : ctxSendRecv) : Option (ctxSendRecv × Option Err) :=
  match ack cp s.ctx with
  | none => none
  | some (ctx1, err) => some ({ s with ctx := ctx1 }, err)

/-- `ctxSendRecv.Nak`. -/
def ctxSendRecv.Nak (cp : CodePage) (s : ctxSendRecv) (reason : Nat) (retainMsg : Bool) :
    Option (ctxSendRecv × Option Err) :=
  match nak cp s.ctx reason retainMsg with
  | none => none
  | some (ctx1, err) => some ({ s with ctx := ctx1 }, err)

/-- The header that the three `With..` functions start from: `init` on the zero
header, then the datastore name copied into `DestID`. -/
def modeHeader (cp : CodePage) (ctx : Context) : IRMHeader :=
  let irm := IRMHeader.zero.init cp
  { irm with DestID := irm.DestID.copy (A2E cp ctx.session.DataStore) }

/-- `Context.WithSendRecv`. -/
def Context.WithSendRecv (cp : CodePage) (ctx : Context)
    (checkAck withTpipe purgeUndelivered : Bool) : ctxSendRecv :=
  let irm := modeHeader cp ctx
  -- user portion of the irm header
  let irm := { irm with F1 := IRMF1CIDREQ ||| IRMF1MFSREQ }
  let irm := { irm with F2 := IRMF2CM1 }
  -- applies to CM0
  let irm :=
    if withTpipe then
      { irm with F2 := IRMF2CM0, F3 := irm.F3 ||| IRMF3IPURG ||| IRMF3SYNCNF }
    else irm
  -- applies to both CM0 and CM1
  let irm := if checkAck then { irm with F3 := irm.F3 ||| IRMF3SYNCNF } else irm
  let irm := if purgeUndelivered then { irm with F3 := irm.F3 ||| IRMF3PURGE } else irm
  let irm := { irm with F4 := IRMF4SENDRECV }
  { ctx := { ctx with irm := some irm }, ackReq := false }

/-- The struct `ctxSendOnly`; the embedded `Sender` is never set. -/
structure ctxSendOnly where
  ctx : Context
  ackRequired : Bool

/-- `ctxSendOnly.Send`; the block under `if s.ackRequired` is empty. -/
def ctxSendOnly.Send (cp : CodePage) (s : ctxSendOnly) (segments : List (List Byte))
    (ascii : Bool) : Option (ctxSendOnly × Option Err) :=
  match send cp s.ctx segments ascii with
  | none => none
  | some (ctx1, some err) => some ({ s with ctx := ctx1 }, some err)
  | some (ctx1, none) => some ({ s with ctx := ctx1 }, none)

/-- `Context.WithSendOnly`. -/
def Context.WithSendOnly (cp : CodePage) (ctx : Context) (ackRequired serialDelivery : Bool) :
    ctxSendOnly :=
  let irm := modeHeader cp ctx
  -- send only has to be CM0
  let irm := { irm with F2 := IRMF2CM0 }
  -- when transaction schedule type is serial
  let irm := if serialDelivery then { irm with F3 := irm.F3 ||| IRMF3ORDER } else irm
  let irm := { irm with F4 := IRMF4SENDONLY }
  if ackRequired then
    { ctx := { ctx with irm := some { irm with F4 := irm.F4 ||| IRMF4SNDONLYA } },
      ackRequired := true }
  else
    { ctx := { ctx with irm := some irm }, ackRequired := false }

/-- The struct `ctxRecvOnly`; the embedded `Receiver` is never set. -/
structure ctxRecvOnly where
  ctx : Context
  initial : Bool

/-- `ctxRecvOnly.Recv`: the response (`none` for the nil pointer), the error and
the new state of the receiver; `none` when `send` or `recv` has no result. The
first call sends a request without segments and sets the latch `initial` once
the write has succeeded. -/
def ctxRecvOnly.Recv (cp : CodePage) (r : ctxRecvOnly) :
    Option ((Option Response × Option Err) × ctxRecvOnly) :=
  if !r.initial then
    match send cp r.ctx [] false with
    | none => none
    | some (ctx1, some err) => some ((none, some err), { r with ctx := ctx1 })
    | some (ctx1, none) =>
      match recv ctx1 with
      | none => none
      | some resp => some ((some resp, none), { ctx := ctx1, initial := true })
  else
    match recv r.ctx with
    | none => none
    | some resp => some ((some resp, none), r)

/-- `ctxRecvOnly.Ack`. -/
def ctxRecvOnly.Ack (cp : CodePage) (r : ctxRecvOnly) : Option (ctxRecvOnly × Option Err) :=
  match ack cp r.ctx with
  | none => none
  | some (ctx1, err) => some ({ r with ctx := ctx1 }, err)

/-- `ctxRecvOnly.Nak`. -/
def ctxRecvOnly.Nak (cp : CodePage) (r : ctxRecvOnly) (reason : Nat) (retainMsg : Bool) :
    Option (ctxRecvOnly × Option Err) :=
  match nak cp r.ctx reason retainMsg with
  | none => none
  | some (ctx1, err) => some ({ r with ctx := ctx1 }, err)

/-- `Context.WithRecvOnly`. -/
def Context.WithRecvOnly (cp : CodePage) (ctx : Context) (singleMsg flow wait : Bool) :
    ctxRecvOnly :=
  let irm := modeHeader cp ctx
  -- for recv only
  let irm := { irm with F2 := IRMF2CM0 }
  -- resume tpipe
  let irm := { irm with F4 := irm.F4 ||| IRMF4RESTPIPE }
  let irm :=
    if singleMsg && wait then { irm with F5 := irm.F5 ||| IRMF5SNGLWT }
    else if singleMsg && !wait then { irm with F5 := irm.F5 ||| IRMF5SNGLNWT }
    else if flow && wait then { irm with F5 := irm.F5 ||| IRMF5AUTOFLOW }
    else if flow && !wait then { irm with F5 := irm.F5 ||| IRMF5NAUTFLOW }
    else irm
  { ctx := { ctx with irm := some irm }, initial := false }

/-! ## The error catalog (`error.go`) -/

/-- The function `strconv.Itoa` of the standard library: the decimal rendering
of an integer, with a minus sign when it is negative. -/
def Itoa (i : Int) : String := toString i

/-- The map `returnCodes`, as its list of entries; the keys of a map literal are
distinct. -/
def returnCodes : List (Int × String) :=
  [ (4, "Exit request error message sent to client before socket termination"),
    (8, "Error detected by IMS Connect and the socket is disconnected for IMS"),
    (12, "Error returned by IMS OTMA and the socket is disconnected for IMS"),
    (16, "Error returned by IMS OTMA when an OTMA sense code is returned in RSM"),
    (20, "Exit requests response message to HWSPWCH/PING request to be returned to client"),
    (24, "SCI error detected, socket is disconnected for IMS"),
    (28, "OM error detected, socket is disconnected for IMS"),
    (32, "IRM_TIMER value expired and socket is disconnected by IMS Connect"),
    (36, "A default IRM_TIMER value expired and socket is disconnected by IMS Connect"),
    (40, "IRM_TIMER value expired but the socket remains connected"),
    (44, "Datastore is no longer available") ]

/-- The type `ReturnCode`, a Go `int`. -/
abbrev ReturnCode := Int

/-- `ReturnCode.String`. -/
def ReturnCode.String (rc : ReturnCode) : String :=
  match returnCodes.lookup rc with
  | some str => str
  | none => "Unknown: " ++ Itoa rc

/-- The map `reasonCodes`, as its list of entries. -/
def reasonCodes : List (Int × String) :=
  [ (4, "Input data exceeds buffer size"),
    (5, "Negative length value"),
    (6, "IRM- IMS request message length invalid"),
    (7, "Total message length invalid"),
    (8, "OTMA NAK with no sense code or RC"),
    (9, "Contents of buffer invalid"),
    (10, "Output data exceeds buffer size"),
    (11, "Invalid unicode definition"),
    (12, "Invalid message, no data"),
    (16, "Do not know who client is"),
    (20, "OTMA segment length error"),
    (24, "FIC missing"),
    (28, "LIC missing"),
    (32, "Sequence number error"),
    (34, "Unable to locate context token"),
    (36, "Protocol error"),
    (40, "Security violation"),
    (44, "Message incomplete"),
    (48, "Incorrect message length"),
    (51, "Security failure: no OTMA security header"),
    (52, "Security failure: no security data in OTMA security header"),
    (53, "Security failure: no password in OTMA user data header"),
    (54, "Security failure: no user ID in OTMA security header"),
    (55, "Security failure: no password in OTMA user data and no user ID in OTMA security header"),
    (56, "Duplicate Client ID used; the client ID is currently in use"),
    (57, "Invalid token is being used: internal error"),
    (58, "Invalid client status: internal error"),
    (59, "Cancel Timer completed successfully"),
    (70, "Component not found"),
    (71, "Function not found"),
    (72, "The data store was not found, or communication with the data store was stopped using an IMS Connect command"),
    (73, "IMS Connect in shutdown"),
    (74, "The data store or IMSplex was in a stop or close process, or the IMS data store has shut down or disconnected"),
    (75, "Data store communication error"),
    (76, "The data store or IMSplex was stopped by command"),
    (77, "A data store or IMSplex communication error was sent to the pending client"),
    (78, "Security failure. RACF call failed, IMS Connect call failed. See IMS Connect error message on system console"),
    (79, "IMS Connect protocol error"),
    (80, "The IMSplex connection is not active"),
    (81, "IMS cancelled the Resume Tpipe request as a result of an ACKTO timeout"),
    (93, "Invalid commit mode of 1 specified on the RESUME TPIPE request"),
    (94, "Request"),
    (95, "Conversation"),
    (96, "Request and conversation"),
    (97, "Deallocate confirmed"),
    (98, "Deallocate abnormal termination"),
    (99, "Default reason code") ]

/-- The type `ReasonCode`, a Go `int`. -/
abbrev ReasonCode := Int

/-- `ReasonCode.String`; the map it consults is `returnCodes`, as in the source. -/
def ReasonCode.String (rc : ReasonCode) : String :=
  match returnCodes.lookup rc with
  | some str => str
  | none => "Unknown: " ++ Itoa rc

/-! ## Sequences of public operations -/

/-- The public operations that act on a context: the three mode selections, the
setters, and the methods of the facades. Every facade holds the pointer to the
context it was made from, so each method can be called at any time after its
facade was made; the latches `ackRequired` and `initial` of the facade a method
is called on are arguments of the operation. The last operation stands for
everything that changes the session from outside the context: `Start` and `End`,
the caller writing its exported fields, the peer and the reads of a response. -/
inductive Op where
  | WithSendRecv (checkAck withTpipe purgeUndelivered : Bool)
  | WithSendOnly (ackRequired serialDelivery : Bool)
  | WithRecvOnly (singleMsg flow wait : Bool)
  | SetReroute (clientID : List Byte)
  | SetClientID (clientID : List Byte)
  | SetTranCode (tranCode : List Byte)
  | SetLterm (lterm : List Byte)
  | SetModName (modName : List Byte)
  | SetCredentials (userid grpid passwd : List Byte)
  | sendRecvSend (segments : List (List Byte)) (ascii : Bool)
  | sendRecvRecv
  | sendRecvAck
  | sendRecvNak (reason : Nat) (retainMsg : Bool)
  | sendOnlySend (ackRequired : Bool) (segments : List (List Byte)) (ascii : Bool)
  | recvOnlyRecv (initial : Bool)
  | recvOnlyAck
  | recvOnlyNak (reason : Nat) (retainMsg : Bool)
  | session (s : Session)

/-- The operations that select a mode. -/
def Op.isMode : Op → Bool
  | Op.WithSendRecv _ _ _ => true
  | Op.WithSendOnly _ _ => true
  | Op.WithRecvOnly _ _ _ => true
  | _ => false

/-- The context after one operation; `none` when the operation fails at run
time. `Recv` on the send-receive facade, and on a receiver whose latch is set,
only builds a response and leaves the context as it is. -/
def Context.step (cp : CodePage) (ctx : Context) : Op → Option Context
  | Op.WithSendRecv a b c => some (ctx.WithSendRecv cp a b c).ctx
  | Op.WithSendOnly a b => some (ctx.WithSendOnly cp a b).ctx
  | Op.WithRecvOnly a b c => some (ctx.WithRecvOnly cp a b c).ctx
  | Op.SetReroute v => ctx.SetReroute cp v
  | Op.SetClientID v => ctx.SetClientID cp v
  | Op.SetTranCode v => ctx.SetTranCode cp v
  | Op.SetLterm v => ctx.SetLterm cp v
  | Op.SetModName v => ctx.SetModName cp v
  | Op.SetCredentials u g w => ctx.SetCredentials cp u g w
  | Op.sendRecvSend segments ascii =>
    (ctxSendRecv.Send cp ⟨ctx, false⟩ segments ascii).map (fun x => x.1.ctx)
  | Op.sendRecvRecv => some ctx
  | Op.sendRecvAck => (ctxSendRecv.Ack cp ⟨ctx, false⟩).map (fun x => x.1.ctx)
  | Op.sendRecvNak reason retainMsg =>
    (ctxSendRecv.Nak cp ⟨ctx, false⟩ reason retainMsg).map (fun x => x.1.ctx)
  | Op.sendOnlySend ackRequired segments ascii =>
    (ctxSendOnly.Send cp ⟨ctx, ackRequired⟩ segments ascii).map (fun x => x.1.ctx)
  | Op.recvOnlyRecv true => some ctx
  | Op.recvOnlyRecv false => (ctxRecvOnly.Recv cp ⟨ctx, false⟩).map (fun x => x.2.ctx)
  | Op.recvOnlyAck => (ctxRecvOnly.Ack cp ⟨ctx, false⟩).map (fun x => x.1.ctx)
  | Op.recvOnlyNak reason retainMsg =>
    (ctxRecvOnly.Nak cp ⟨ctx, false⟩ reason retainMsg).map (fun x => x.1.ctx)
  | Op.session s => some { ctx with session := s }

/-- The context after a sequence of operations, run from left to right; `none`
when one of them fails at run time. -/
def Context.run (cp : CodePage) : Context → List Op → Option Context
  | ctx, [] => some ctx
  | ctx, op :: ops =>
    match ctx.step cp op with
    | none => none
    | some ctx1 => Context.run cp ctx1 ops

/-! ## The layout table of the prefix (section 6 of the specification) -/

/-- The layout table of the 124-byte buffer: offset and content of every field,
as the specification lists them. -/
def IRMHeader.layout (irm : IRMHeader) : List (Nat × List Byte) :=
  [ (0, [0, 0, 0, 0]), (4, irm.Length.val), (6, [irm.Arch]), (7, [irm.F0]),
    (8, irm.IrmID.val), (16, irm.NakRsn.val), (18, irm.res1.val), (20, [irm.F5]),
    (21, [irm.Timeout]), (22, [irm.ConnType]), (23, [irm.EncodingScheme]),
    (24, irm.ClientID.val), (32, [irm.F1]), (33, [irm.F2]), (34, [irm.F3]),
    (35, [irm.F4]), (36, irm.TranCode.val), (44, irm.DestID.val), (52, irm.Lterm.val),
    (60, irm.Userid.val), (68, irm.Grpid.val), (76, irm.Passwd.val),
    (84, irm.AppName.val), (92, irm.RerouteName.val), (100, irm.TagAdapt.val),
    (108, irm.TagMap.val), (116, irm.ModName.val) ]

/-- The bytes of a layout table, in table order. -/
def tableBytes : List (Nat × List Byte) → List Byte
  | [] => []
  | e :: t => e.2 ++ tableBytes t

/-- Every entry of the table starts where the previous one ends, the first at `s`. -/
def Placed : Nat → List (Nat × List Byte) → Prop
  | _, [] => True
  | s, e :: t => e.1 = s ∧ Placed (s + e.2.length) t

/-! ## Scenarios named by the properties -/

/-- The request of a send: `NewRequest` on the header, then one `AddSegment`
per payload, in order. -/
def Request.build (irmHeader : IRMHeader) (payloads : List (List Byte)) : Request :=
  payloads.foldl Request.AddSegment (NewRequest irmHeader)

/-- The number of bytes of a message, as the specification counts it: the
four bytes of the total length and the `L` bytes of the prefix body, four bytes
and the payload for every segment, and the four bytes of the trailer. -/
def frameTotal (L : Nat) (payloads : List (List Byte)) : Nat :=
  (4 + L) + (payloads.map (fun p => 4 + p.length)).sum + 4

/-- The wire layout of a segment as the specification gives it: `LL` (two
bytes, big-endian, counting `LL` and `ZZ`), `ZZ` (two zero bytes), payload. -/
def wireSegment (p : List Byte) : List Byte := PutUint16 (p.length + 4) ++ [0, 0] ++ p

/-- The header of a freshly selected mode, on the sample code page. -/
def sampleHeader : IRMHeader := IRMHeader.zero.init samplePage

/-- A connection on which nothing was written, no write fails and nothing is
left to read. -/
def Conn.idle : Conn := ⟨[], [], []⟩

/-- A payload of 32764 zero bytes, the largest that `AddSegment` does not cut. -/
def fullPayload : List Byte := List.replicate 32764 0

/-! ## Response streams named by the properties -/

/-- What a returning run returned; `none` for a panic or for spent fuel. -/
def Run.get? {α : Type} : Run α → Option α
  | Run.ret a => some a
  | Run.panic => none
  | Run.fuelOut => none

/-- A segment as it travels: it holds at least `LL` and `ZZ`, and `LL` is its
length. -/
def IsSegment (s : List Byte) : Prop := 4 ≤ s.length ∧ Uint16 s = s.length

/-- The identifier of a segment of at least 12 bytes: its bytes 4..12, read
through `E2A`. -/
def segToken (cp : CodePage) (s : List Byte) : List Byte := E2A cp (slice s 4 12)

/-- The five identifier tokens of the specification. -/
def identifierTokens : List (List Byte) :=
  [ascii "*REQSTS*", ascii "*REQMOD*", ascii "*GENCID*", ascii "*CSMOKY*", ascii "*CORTOKN"]

/-- A segment that carries the identifier `tok`. -/
def IsTokenSegment (cp : CodePage) (tok s : List Byte) : Prop :=
  IsSegment s ∧ 12 ≤ s.length ∧ segToken cp s = tok

/-- A data segment: a segment that does not start with an identifier token. -/
def IsDataSegment (cp : CodePage) (s : List Byte) : Prop :=
  IsSegment s ∧ ¬ (12 ≤ s.length ∧ segToken cp s ∈ identifierTokens)

instance (s : List Byte) : Decidable (IsSegment s) := by
  unfold IsSegment; infer_instance

instance (cp : CodePage) (tok s : List Byte) : Decidable (IsTokenSegment cp tok s) := by
  unfold IsTokenSegment; infer_instance

instance (cp : CodePage) (s : List Byte) : Decidable (IsDataSegment cp s) := by
  unfold IsDataSegment; infer_instance

/-- The data segment `00 08 00 00 D7 D6 D5 C7`, "PONG" in EBCDIC. -/
def pongSegment : List Byte := [0x00, 0x08, 0x00, 0x00, 0xD7, 0xD6, 0xD5, 0xC7]

/-- A complete-status segment, `*CSMOKY*` in EBCDIC. -/
def csmSegment : List Byte :=
  [0x00, 0x0C, 0x00, 0x00, 0x5C, 0xC3, 0xE2, 0xD4, 0xD6, 0xD2, 0xE8, 0x5C]

/-- A request-status segment, `*REQSTS*` in EBCDIC, with return code 8 and
reason code 36. -/
def rsmSegment : List Byte :=
  [0x00, 0x14, 0x00, 0x00, 0x5C, 0xD9, 0xC5, 0xD8, 0xE2, 0xE3, 0xE2, 0x5C,
   0x00, 0x00, 0x00, 0x08, 0x00, 0x00, 0x00, 0x24]

/-- A request-mod segment, `*REQMOD*` in EBCDIC, with the mod name "MODNAME1". -/
def rmmSegment : List Byte :=
  [0x00, 0x14, 0x00, 0x00, 0x5C, 0xD9, 0xC5, 0xD8, 0xD4, 0xD6, 0xC4, 0x5C,
   0xD4, 0xD6, 0xC4, 0xD5, 0xC1, 0xD4, 0xC5, 0xF1]

/-- A connection whose peer has sent the bytes `bs`. -/
def Conn.receiving (bs : List Byte) : Conn := ⟨[], [], bs⟩

/-- The response after the reader has moved on to the unread bytes `rest`. -/
def Response.advance (r : Response) (rest : List Byte) : Response :=
  { r with reader := { r.reader with unread := rest } }

/-- The state of a response once the segments `segs` have gone through the
`switch` of `readAllSegments`, one after the other. -/
def Response.absorb (cp : CodePage) (r : Response) (segs : List (List Byte)) : Response :=
  segs.foldl (fun q s => (q.route (segTypeOf cp s s.length) s).1) r

/-- A client-id segment, `*GENCID*` in EBCDIC, with the client id "CLIENT01". -/
def cidSegment : List Byte :=
  [0x00, 0x14, 0x00, 0x00, 0x5C, 0xC7, 0xC5, 0xD5, 0xC3, 0xC9, 0xC4, 0x5C,
   0xC3, 0xD3, 0xC9, 0xC5, 0xD5, 0xE3, 0xF0, 0xF1]

/-- A request-status segment cut short: `*REQSTS*` in EBCDIC with `LL` = 12 and
no codes. -/
def rsmShort : List Byte :=
  [0x00, 0x0C, 0x00, 0x00, 0x5C, 0xD9, 0xC5, 0xD8, 0xE2, 0xE3, 0xE2, 0x5C]

/-- A client-id segment cut short: `*GENCID*` in EBCDIC with `LL` = 12 and no
client id. -/
def cidShort : List Byte :=
  [0x00, 0x0C, 0x00, 0x00, 0x5C, 0xC7, 0xC5, 0xD5, 0xC3, 0xC9, 0xC4, 0x5C]

/-! ## Sessions and contexts named by the properties -/

/-- A started session with the datastore name `name` on the connection `c`. -/
def Session.started (name : List Byte) (c : Conn) : Session where
  Addr := []
  DataStore := name
  ReadTimeout := 0
  WriteTimeout := 0
  conn := some c

/-- A context of a started session whose prefix is `P`. -/
def Context.holding (P : IRMHeader) (c : Conn) : Context where
  session := Session.started (ascii "IMSA") c
  irm := some P
  active := false

/-- A connection on which the next call of `Write` fails at once. -/
def Conn.failing : Conn := ⟨[], [some 0], []⟩

/-- The header that `nak` hands to `send`, read off the source: `F4` is NACK,
`F0` is replaced by SYNCNAK when `retainMsg` is set and then OR-ed with NAKRSN
when the reason is not zero, in which case `NakRsn` holds the reason. -/
def nakHeader (P : IRMHeader) (reason : Nat) (retainMsg : Bool) : IRMHeader :=
  { P with
    F4 := IRMF4NACK
    F0 := if reason ≠ 0 then (if retainMsg then IRMF0SYNCNAK else P.F0) ||| IRMF0NAKRSN
          else (if retainMsg then IRMF0SYNCNAK else P.F0)
    NakRsn := if reason ≠ 0 then P.NakRsn.copy (PutUint16 reason) else P.NakRsn }

/-- The shape of a prefix that the specification requires at all times: F5 has
the client-translates bit, IrmID is `*SAMPL1*` in EBCDIC, and Length, Arch and the
reroute bit of F3 are those of the base architecture (80, 0, clear) or those of a
reroute (96, 2, set). -/
def IRMHeader.Shaped (cp : CodePage) (H : IRMHeader) : Prop :=
  H.F5 &&& 0x40 = 0x40 ∧ H.IrmID.val = A2E cp (ascii "*SAMPL1*") ∧
  ((H.Length.val = [0x00, 0x50] ∧ H.Arch = 0 ∧ H.F3 &&& IRMF3REROUT = 0) ∨
   (H.Length.val = [0x00, 0x60] ∧ H.Arch = 2 ∧ H.F3 &&& IRMF3REROUT = IRMF3REROUT))

/-! # Properties -/

/-! ## Helper lemmas on slices -/

theorem length_copy (dst src : List Byte) : (copy dst src).length = dst.length := by
  simp only [copy, List.length_append, List.length_take, List.length_drop]
  omega

theorem copyAt_fill (pre src : List Byte) (m a b : Nat) (ha : pre.length = a)
    (hb : b = a + src.length) (hm : src.length ≤ m) :
    copyAt (pre ++ List.replicate m 0) a b src
      = (pre ++ src) ++ List.replicate (m - src.length) 0 := by
  subst ha hb
  have hsplit : List.replicate m (0 : Byte)
      = List.replicate src.length 0 ++ List.replicate (m - src.length) 0 := by
    rw [← List.replicate_add]; congr 1; omega
  rw [hsplit]
  simp [copyAt, copy, List.take_append_eq_append_take, List.drop_append_eq_append_drop,
    List.take_replicate, List.drop_replicate]

theorem set_fill (pre : List Byte) (m a : Nat) (x : Byte) (ha : pre.length = a)
    (hm : 1 ≤ m) :
    (pre ++ List.replicate m 0).set a x = (pre ++ [x]) ++ List.replicate (m - 1) 0 := by
  subst ha
  obtain ⟨k, rfl⟩ : ∃ k, m = k + 1 := ⟨m - 1, by omega⟩
  simp [List.replicate_succ, List.set_append]

theorem Uint16_PutUint16 (v : Nat) (hv : v < 65536) : Uint16 (PutUint16 v) = v := by
  simp only [Uint16, PutUint16, List.getD_cons_zero, List.getD_cons_succ]
  omega

theorem Uint32_PutUint32 (v : Nat) : Uint32 (PutUint32 v) = v % 4294967296 := by
  simp only [Uint32, PutUint32, List.getD_cons_zero, List.getD_cons_succ]
  omega

/-! ## The prefix codec -/

theorem marshalBuf_eq (irm : IRMHeader) : irm.marshalBuf = tableBytes irm.layout := by
  have h2 := irm.Length.property
  have h3 := irm.IrmID.property
  have h4 := irm.NakRsn.property
  have h5 := irm.res1.property
  have h6 := irm.ClientID.property
  have h7 := irm.TranCode.property
  have h8 := irm.DestID.property
  have h9 := irm.Lterm.property
  have h10 := irm.Userid.property
  have h11 := irm.Grpid.property
  have h12 := irm.Passwd.property
  have h13 := irm.AppName.property
  have h14 := irm.RerouteName.property
  have h15 := irm.TagAdapt.property
  have h16 := irm.TagMap.property
  have h17 := irm.ModName.property
  have h0 : List.replicate 124 (0 : Byte) = [0, 0, 0, 0] ++ List.replicate 120 0 := by
    decide
  simp only [IRMHeader.marshalBuf, h0]
  repeat
    first
    | rw [copyAt_fill _ _ _ _ _ (by simp [*]) (by simp [*]) (by simp [*])]
    | rw [set_fill _ _ _ _ (by simp [*]) (by simp [*])]
  simp [tableBytes, IRMHeader.layout, *]

theorem placed_layout (irm : IRMHeader) : Placed 0 irm.layout := by
  simp [Placed, IRMHeader.layout, irm.Length.property, irm.IrmID.property,
    irm.NakRsn.property, irm.res1.property, irm.ClientID.property, irm.TranCode.property,
    irm.DestID.property, irm.Lterm.property, irm.Userid.property, irm.Grpid.property,
    irm.Passwd.property, irm.AppName.property, irm.RerouteName.property,
    irm.TagAdapt.property, irm.TagMap.property]

theorem length_tableBytes_layout (irm : IRMHeader) :
    (tableBytes irm.layout).length = 124 := by
  simp [tableBytes, IRMHeader.layout, irm.Length.property, irm.IrmID.property,
    irm.NakRsn.property, irm.res1.property, irm.ClientID.property, irm.TranCode.property,
    irm.DestID.property, irm.Lterm.property, irm.Userid.property, irm.Grpid.property,
    irm.Passwd.property, irm.AppName.property, irm.RerouteName.property,
    irm.TagAdapt.property, irm.TagMap.property, irm.ModName.property]

theorem placed_le (e : Nat × List Byte) (u : List (Nat × List Byte)) (q : Nat)
    (hq : Placed q u) (hin : e ∈ u) : q ≤ e.1 := by
  induction u generalizing q with
  | nil => simp at hin
  | cons c u ihu =>
    obtain ⟨hc, hu⟩ := hq
    rcases List.mem_cons.mp hin with rfl | hin2
    · omega
    · have := ihu _ hu hin2
      omega

theorem getElem?_tableBytes (t : List (Nat × List Byte)) (s : Nat) (hp : Placed s t)
    (e : Nat × List Byte) (he : e ∈ t) (i : Nat) (hi : i < e.2.length) :
    (tableBytes t)[e.1 - s + i]? = e.2[i]? := by
  induction t generalizing s with
  | nil => simp at he
  | cons d t ih =>
    obtain ⟨hd, ht⟩ := hp
    rcases List.mem_cons.mp he with rfl | hmem
    · simp only [tableBytes, hd, Nat.sub_self, Nat.zero_add]
      exact List.getElem?_append_left hi
    · have hle := placed_le e t _ ht hmem
      have := ih (s + d.2.length) ht hmem
      simp only [tableBytes]
      rw [List.getElem?_append_right (by omega)]
      rw [← this]
      congr 1
      omega

theorem MarshalBinary_eq (irm : IRMHeader) (hL : Uint16 irm.Length.val ≤ 120) :
    irm.MarshalBinary = ((tableBytes irm.layout).take (Uint16 irm.Length.val + 4), none) := by
  have hlen := length_tableBytes_layout irm
  have hm : irm.marshalLen = Uint16 irm.Length.val + 4 := by
    unfold IRMHeader.marshalLen
    omega
  unfold IRMHeader.MarshalBinary
  simp only [hm, marshalBuf_eq]
  split
  · rfl
  · have h124 : Uint16 irm.Length.val + 4 = 124 := by omega
    rw [h124, List.take_of_length_le (by omega)]

/-- C2. For every header whose Length field holds `L ≤ 120`, `MarshalBinary`
returns no error and exactly `L + 4` bytes: the first `L + 4` bytes of the
layout table read in table order, so that every byte at an offset below `L + 4`
is the byte the table assigns to that offset (bytes 0..3 zero, 4..5 Length,
6 Arch, 7 F0, 8..15 IrmID, .., 116..123 ModName). The output has 84 bytes for
Length 0x50 and 100 bytes for Length 0x60. -/
theorem MarshalBinary_layout (irm : IRMHeader) (hL : Uint16 irm.Length.val ≤ 120) :
    irm.MarshalBinary.2 = none ∧
    irm.MarshalBinary.1.length = Uint16 irm.Length.val + 4 ∧
    irm.MarshalBinary.1 = (tableBytes irm.layout).take (Uint16 irm.Length.val + 4) ∧
    Placed 0 irm.layout ∧
    (∀ e ∈ irm.layout, ∀ i, i < e.2.length → e.1 + i < Uint16 irm.Length.val + 4 →
      irm.MarshalBinary.1[e.1 + i]? = e.2[i]?) ∧
    (Uint16 irm.Length.val = 0x50 → irm.MarshalBinary.1.length = 84) ∧
    (Uint16 irm.Length.val = 0x60 → irm.MarshalBinary.1.length = 100) := by
  have hlen := length_tableBytes_layout irm
  have hlen2 : irm.MarshalBinary.1.length = Uint16 irm.Length.val + 4 := by
    rw [MarshalBinary_eq irm hL]
    simp only [List.length_take, hlen]
    omega
  refine ⟨by rw [MarshalBinary_eq irm hL], hlen2, by rw [MarshalBinary_eq irm hL],
    placed_layout irm, ?_, ?_, ?_⟩
  · intro e he i hi hlt
    rw [MarshalBinary_eq irm hL]
    simp only
    rw [List.getElem?_take_of_lt hlt]
    have := getElem?_tableBytes irm.layout 0 (placed_layout irm) e he i hi
    simpa using this
  · intro h; rw [hlen2, h]
  · intro h; rw [hlen2, h]

/-- C2, instantiated at the header that `init` builds. -/
theorem MarshalBinary_layout_witness :
    Uint16 (IRMHeader.zero.init samplePage).Length.val ≤ 120 ∧
    (IRMHeader.zero.init samplePage).MarshalBinary.1.length
      = Uint16 (IRMHeader.zero.init samplePage).Length.val + 4 :=
  ⟨by decide, (MarshalBinary_layout (IRMHeader.zero.init samplePage) (by decide)).2.1⟩


theorem ascii_SAMPL1 : ascii "*SAMPL1*" = [42, 83, 65, 77, 80, 76, 49, 42] := by decide

theorem init_Length (cp : CodePage) (irm : IRMHeader) :
    Uint16 (irm.init cp).Length.val = 80 := by
  simp [IRMHeader.init, Uint16]

theorem init_bytes (cp : CodePage) :
    (IRMHeader.zero.init cp).MarshalBinary.1
      = [0, 0, 0, 0, 0x00, 0x50, 0, 0] ++ A2E cp (ascii "*SAMPL1*")
        ++ [0, 0, 0, 0, 0x40, 0xE9, 0x10, 0] ++ List.replicate 10 0 ++ [0x80, 0]
        ++ List.replicate 48 0 := by
  rw [MarshalBinary_eq _ (by rw [init_Length]; decide), init_Length]
  simp [IRMHeader.init, IRMHeader.zero, IRMHeader.layout, tableBytes, Bytes.copy, Bytes.zero,
    copy, A2E, ascii_SAMPL1, IRMARCH0, IRMF5NTRNSL, IRMF3CANCID, IRMSOCKP,
    List.replicate]

/-- C3. The header that `init` builds from the zero header marshals to a buffer
whose bytes 4..6 are `00 50`, whose bytes 8..16 are `A2E("*SAMPL1*")`, whose
byte 20 has the client-translates bit 0x40, whose byte 21 is 0xE9, whose byte
22 is 0x10, whose Arch byte 6 is 0 and whose F3 byte 34 has the bit 0x80. -/
theorem init_MarshalBinary (cp : CodePage) :
    slice (IRMHeader.zero.init cp).MarshalBinary.1 4 6 = [0x00, 0x50] ∧
    slice (IRMHeader.zero.init cp).MarshalBinary.1 8 16 = A2E cp (ascii "*SAMPL1*") ∧
    (∃ b, (IRMHeader.zero.init cp).MarshalBinary.1[20]? = some b ∧
      b &&& IRMF5NTRNSL = IRMF5NTRNSL ∧ IRMF5NTRNSL = 0x40) ∧
    (IRMHeader.zero.init cp).MarshalBinary.1[21]? = some 0xE9 ∧
    (IRMHeader.zero.init cp).MarshalBinary.1[22]? = some 0x10 ∧
    (IRMHeader.zero.init cp).MarshalBinary.1[6]? = some 0 ∧
    (∃ b, (IRMHeader.zero.init cp).MarshalBinary.1[34]? = some b ∧
      b &&& IRMF3CANCID = IRMF3CANCID ∧ IRMF3CANCID = 0x80) := by
  rw [init_bytes]
  refine ⟨?_, ?_, ⟨0x40, ?_, by decide, by decide⟩, ?_, ?_, ?_, ⟨0x80, ?_, by decide, by decide⟩⟩ <;>
    simp [slice, A2E, ascii_SAMPL1]

theorem ascii_X : ascii "X" = [88] := by decide

theorem setReroute_Length (cp : CodePage) (irm : IRMHeader) (id : List Byte) :
    Uint16 (irm.setReroute cp id).Length.val = 96 := by
  have h := irm.Length.property
  simp [IRMHeader.setReroute, Bytes.copy, copy, PutUint16, Uint16, h]

theorem setReroute_bytes (cp : CodePage) :
    ((IRMHeader.zero.init cp).setReroute cp (ascii "X")).MarshalBinary.1
      = [0, 0, 0, 0, 0x00, 0x60, 2, 0] ++ A2E cp (ascii "*SAMPL1*")
        ++ [0, 0, 0, 0, 0x40, 0xE9, 0x10, 0] ++ List.replicate 10 0 ++ [0x88, 0]
        ++ List.replicate 56 0 ++ A2E cp (ascii "X") ++ List.replicate 7 0 := by
  rw [MarshalBinary_eq _ (by rw [setReroute_Length]; decide), setReroute_Length]
  have h88 : (128 : Nat) ||| 8 = 136 := by decide
  simp [IRMHeader.setReroute, IRMHeader.init, IRMHeader.zero, IRMHeader.layout, tableBytes,
    Bytes.copy, Bytes.zero, copy, A2E, ascii_SAMPL1, ascii_X, IRMARCH0, IRMARCH2, IRMF5NTRNSL,
    IRMF3CANCID, IRMF3REROUT, IRMSOCKP, PutUint16, List.replicate, h88]

/-- C4. After `setReroute("X")` on a header fresh from `init`, the encoded prefix
is 100 bytes long, its bytes 4..6 are `00 60`, its Arch byte 6 is 2, its F3 byte
34 has the reroute bit 0x08, its byte 92 is `A2E('X')` and its bytes 93..99 are
zero. -/
theorem setReroute_MarshalBinary (cp : CodePage) :
    ((IRMHeader.zero.init cp).setReroute cp (ascii "X")).MarshalBinary.1.length = 100 ∧
    slice ((IRMHeader.zero.init cp).setReroute cp (ascii "X")).MarshalBinary.1 4 6
      = [0x00, 0x60] ∧
    ((IRMHeader.zero.init cp).setReroute cp (ascii "X")).MarshalBinary.1[6]? = some 2 ∧
    (∃ b, ((IRMHeader.zero.init cp).setReroute cp (ascii "X")).MarshalBinary.1[34]? = some b ∧
      b &&& IRMF3REROUT = IRMF3REROUT ∧ IRMF3REROUT = 0x08) ∧
    slice ((IRMHeader.zero.init cp).setReroute cp (ascii "X")).MarshalBinary.1 92 93
      = A2E cp (ascii "X") ∧
    slice ((IRMHeader.zero.init cp).setReroute cp (ascii "X")).MarshalBinary.1 93 100
      = [0, 0, 0, 0, 0, 0, 0] := by
  rw [setReroute_bytes]
  refine ⟨?_, ?_, ?_, ⟨0x88, ?_, by decide, by decide⟩, ?_, ?_⟩ <;>
    simp [slice, A2E, ascii_SAMPL1, ascii_X]

/-! ## The request framer -/

theorem length_mkSegment (p : List Byte) :
    (mkSegment p).length = min p.length 32764 + 4 := by
  simp only [mkSegment, maxSegLen, copyAt, length_copy, List.length_append, List.length_take,
    List.length_drop, List.length_replicate, PutUint16, List.length_cons, List.length_nil]
  split <;> omega

theorem mkSegment_eq (p : List Byte) :
    mkSegment p = PutUint16 (min p.length 32764 + 4) ++ [0, 0] ++ p.take (min p.length 32764) := by
  have hn : (if p.length > maxSegLen - 4 then maxSegLen - 4 else p.length) = min p.length 32764 := by
    simp only [maxSegLen]; split <;> omega
  have hmod : (min p.length 32764 + 4) % 65536 = min p.length 32764 + 4 := by omega
  simp only [mkSegment, hn, hmod]
  generalize hk : min p.length 32764 = k
  have hkp : k ≤ p.length := by omega
  have h1 : copyAt (List.replicate (k + 4) 0) 0 2 (PutUint16 (k + 4))
      = PutUint16 (k + 4) ++ List.replicate (k + 2) 0 := by
    have := copyAt_fill [] (PutUint16 (k + 4)) (k + 4) 0 2 rfl (by simp [PutUint16])
      (by simp [PutUint16])
    simpa [PutUint16] using this
  rw [h1]
  have h2 : PutUint16 (k + 4) ++ List.replicate (k + 2) 0
      = (PutUint16 (k + 4) ++ [0, 0]) ++ List.replicate k 0 := by
    simp [List.replicate_succ]
  rw [h2]
  simp [copyAt, copy, PutUint16, List.take_append_eq_append_take,
    List.drop_append_eq_append_drop, List.take_replicate, List.drop_replicate, hkp]

theorem AddSegment_length (r : Request) (p : List Byte) :
    (r.AddSegment p).length = (r.length + (mkSegment p).length) % 4294967296 := by
  simp only [Request.AddSegment]
  omega

theorem foldl_AddSegment (ps : List (List Byte)) (r : Request) :
    (ps.foldl Request.AddSegment r).segments = r.segments ++ ps.map mkSegment ∧
    (ps.foldl Request.AddSegment r).irmHeader = r.irmHeader ∧
    (ps.foldl Request.AddSegment r).length % 4294967296
      = (r.length + (ps.map (fun p => (mkSegment p).length)).sum) % 4294967296 := by
  induction ps generalizing r with
  | nil => simp
  | cons p ps ih =>
    obtain ⟨h1, h2, h3⟩ := ih (r.AddSegment p)
    refine ⟨?_, ?_, ?_⟩
    · simp only [List.foldl_cons, h1, List.map_cons]
      simp [Request.AddSegment]
    · simp only [List.foldl_cons, h2]
      simp [Request.AddSegment]
    · simp only [List.foldl_cons, h3, List.map_cons, List.sum_cons, AddSegment_length]
      omega

theorem foldl_AddSegment_lt (ps : List (List Byte)) (r : Request)
    (hr : r.length < 4294967296) :
    (ps.foldl Request.AddSegment r).length < 4294967296 := by
  induction ps generalizing r with
  | nil => simpa using hr
  | cons p ps ih =>
    simp only [List.foldl_cons]
    apply ih
    rw [AddSegment_length]
    omega

theorem build_length (hdr : IRMHeader) (ps : List (List Byte))
    (hL : Uint16 hdr.Length.val ≤ 120) :
    (Request.build hdr ps).length
      = (4 + Uint16 hdr.Length.val + (ps.map (fun p => (mkSegment p).length)).sum + 4)
          % 4294967296 := by
  have h0 : (NewRequest hdr).length = 4 + Uint16 hdr.Length.val + 4 := by
    simp only [NewRequest]
    omega
  have hlt := foldl_AddSegment_lt ps (NewRequest hdr) (by omega)
  have h := (foldl_AddSegment ps (NewRequest hdr)).2.2
  rw [Nat.mod_eq_of_lt hlt, h0] at h
  unfold Request.build
  rw [h]
  congr 1
  omega

theorem sum_mkSegment_length (ps : List (List Byte)) (hps : ∀ p ∈ ps, p.length ≤ 32764) :
    (ps.map (fun p => (mkSegment p).length)).sum = (ps.map (fun p => 4 + p.length)).sum := by
  induction ps with
  | nil => rfl
  | cons p ps ih =>
    have hp := hps p (List.mem_cons_self _ _)
    simp only [List.map_cons, List.sum_cons]
    rw [ih (fun q hq => hps q (List.mem_cons_of_mem _ hq)), length_mkSegment]
    omega

theorem map_mkSegment (ps : List (List Byte)) (hps : ∀ p ∈ ps, p.length ≤ 32764) :
    ps.map mkSegment = ps.map wireSegment := by
  apply List.map_congr_left
  intro p hp
  have h := hps p hp
  rw [mkSegment_eq, Nat.min_eq_left h, List.take_length, wireSegment]

theorem connWrite_ok (c : Conn) (p : List Byte) (h : (c.Write p).2 = none) :
    (c.Write p).1.sent = c.sent ++ p := by
  unfold Conn.Write at h ⊢
  split <;> simp_all

theorem writeSegments_ok (segs : List (List Byte)) (c : Conn)
    (h : (writeSegments c segs).2 = none) :
    (writeSegments c segs).1.sent = c.sent ++ segs.flatten := by
  induction segs generalizing c with
  | nil => simp [writeSegments]
  | cons seg rest ih =>
    unfold writeSegments at h ⊢
    split
    · rename_i c1 err heq
      rw [heq] at h
      simp at h
    · rename_i c1 heq
      rw [heq] at h
      simp only at h ⊢
      have h1 := connWrite_ok c seg (by rw [heq])
      rw [heq] at h1
      rw [ih c1 h, h1]
      simp

theorem requestWrite_ok (r : Request) (c : Conn) (h : (r.Write c).2 = none) :
    (r.Write c).1.sent = c.sent ++ (r.header ++ r.segments.flatten ++ RequestTrailer) := by
  unfold Request.Write at h ⊢
  split
  · rename_i c1 err heq
    rw [heq] at h
    simp at h
  · rename_i c1 heq
    rw [heq] at h
    simp only at h ⊢
    have h1 := connWrite_ok c r.header (by rw [heq])
    rw [heq] at h1
    split
    · rename_i c2 err heq2
      rw [heq2] at h
      simp at h
    · rename_i c2 heq2
      rw [heq2] at h
      simp only at h ⊢
      have h2 := writeSegments_ok r.segments c1 (by rw [heq2])
      rw [heq2] at h2
      rw [connWrite_ok c2 _ h, h2, h1]
      simp


theorem header_eq (r : Request) (hL : Uint16 r.irmHeader.Length.val ≤ 120) :
    r.header = PutUint32 r.length ++ r.irmHeader.MarshalBinary.1.drop 4 ∧
    r.header.length = 4 + Uint16 r.irmHeader.Length.val := by
  have hlen := length_tableBytes_layout r.irmHeader
  obtain ⟨rest, hrest⟩ : ∃ rest, tableBytes r.irmHeader.layout = [0, 0, 0, 0] ++ rest :=
    ⟨_, rfl⟩
  have hrl : rest.length = 120 := by
    rw [hrest] at hlen
    simp only [List.length_append, List.length_cons, List.length_nil] at hlen
    omega
  have hcopy : copyAt ([0, 0, 0, 0] ++ rest) 0 4 (PutUint32 r.length)
      = PutUint32 r.length ++ rest := by
    simp [copyAt, copy, PutUint32]
  have hP : (PutUint32 r.length).length = 4 := rfl
  unfold Request.header
  simp only [MarshalBinary_eq _ hL, marshalBuf_eq, hrest, hcopy]
  have e1 : (List.take (Uint16 r.irmHeader.Length.val + 4) ([0, 0, 0, 0] ++ rest)).length
      = 4 + Uint16 r.irmHeader.Length.val := by
    simp only [List.length_take, List.length_append, List.length_cons, List.length_nil]
    omega
  have e2 : List.take (4 + Uint16 r.irmHeader.Length.val) (PutUint32 r.length ++ rest)
      = PutUint32 r.length ++ rest.take (Uint16 r.irmHeader.Length.val) := by
    rw [← hP, List.take_append]
  have e3 : List.drop 4 (List.take (Uint16 r.irmHeader.Length.val + 4) ([0, 0, 0, 0] ++ rest))
      = rest.take (Uint16 r.irmHeader.Length.val) := by
    rw [Nat.add_comm]
    have : ([0, 0, 0, 0] : List Byte).length = 4 := rfl
    rw [← this, List.take_append]
    simp
  rw [e1, e2, e3]
  refine ⟨rfl, ?_⟩
  simp only [List.length_append, hP, List.length_take, hrl]
  omega

theorem writeSegments_noFaults (segs : List (List Byte)) (c : Conn) (hc : c.faults = []) :
    (writeSegments c segs).2 = none ∧ (writeSegments c segs).1.faults = [] := by
  induction segs generalizing c with
  | nil => simp [writeSegments, hc]
  | cons seg rest ih =>
    have h1 : c.Write seg = ({ c with sent := c.sent ++ seg }, none) := by
      simp [Conn.Write, hc]
    simp only [writeSegments, h1]
    exact ih _ hc

theorem requestWrite_noFaults (r : Request) (c : Conn) (hc : c.faults = []) :
    (r.Write c).2 = none := by
  have h1 : c.Write r.header = ({ c with sent := c.sent ++ r.header }, none) := by
    simp [Conn.Write, hc]
  have h2 := writeSegments_noFaults r.segments { c with sent := c.sent ++ r.header } hc
  unfold Request.Write
  simp only [h1]
  split
  · rename_i c2 err heq
    rw [heq] at h2
    simp at h2
  · rename_i c2 heq
    rw [heq] at h2
    have h3 : c2.faults = [] := h2.2
    simp [Conn.Write, h3]

theorem PutUint32_mod (v : Nat) : PutUint32 (v % 4294967296) = PutUint32 v := by
  have a : v % 4294967296 / 16777216 % 256 = v / 16777216 % 256 := by omega
  have b : v % 4294967296 / 65536 % 256 = v / 65536 % 256 := by omega
  have d : v % 4294967296 / 256 % 256 = v / 256 % 256 := by omega
  have e : v % 4294967296 % 256 = v % 256 := by omega
  simp only [PutUint32, a, b, d, e]

theorem length_flatten_wireSegment (ps : List (List Byte)) :
    ((ps.map wireSegment).flatten).length = (ps.map (fun p => 4 + p.length)).sum := by
  induction ps with
  | nil => rfl
  | cons p ps ih =>
    simp only [List.map_cons, List.flatten_cons, List.length_append, ih, List.sum_cons,
      wireSegment, PutUint16, List.length_cons, List.length_nil]

/-- The bytes a successful `Write` sends for the request built from `hdr` and
payloads of at most 32764 bytes, and what its first four bytes say. -/
theorem build_Write (hdr : IRMHeader) (ps : List (List Byte)) (c : Conn)
    (hL : Uint16 hdr.Length.val ≤ 120) (hps : ∀ p ∈ ps, p.length ≤ 32764)
    (hok : ((Request.build hdr ps).Write c).2 = none) :
    ((Request.build hdr ps).Write c).1.sent
      = c.sent ++ ((PutUint32 (frameTotal (Uint16 hdr.Length.val) ps)
            ++ hdr.MarshalBinary.1.drop 4)
          ++ (ps.map wireSegment).flatten
          ++ [0x00, 0x04, 0x00, 0x00]) ∧
    (PutUint32 (frameTotal (Uint16 hdr.Length.val) ps) ++ hdr.MarshalBinary.1.drop 4).length
      = 4 + Uint16 hdr.Length.val ∧
    ((PutUint32 (frameTotal (Uint16 hdr.Length.val) ps) ++ hdr.MarshalBinary.1.drop 4)
          ++ (ps.map wireSegment).flatten
          ++ [0x00, 0x04, 0x00, 0x00]).length = frameTotal (Uint16 hdr.Length.val) ps := by
  have hseg := (foldl_AddSegment ps (NewRequest hdr)).1
  have hhdr := (foldl_AddSegment ps (NewRequest hdr)).2.1
  have hlen := build_length hdr ps hL
  rw [sum_mkSegment_length ps hps] at hlen
  have hh := header_eq (Request.build hdr ps) (by unfold Request.build; rw [hhdr]; exact hL)
  have hirm : (Request.build hdr ps).irmHeader = hdr := by
    unfold Request.build; rw [hhdr]; rfl
  have hsegs : (Request.build hdr ps).segments
      = ps.map wireSegment := by
    unfold Request.build; rw [hseg, map_mkSegment ps hps]; rfl
  have htot : 4 + Uint16 hdr.Length.val + (ps.map (fun p => 4 + p.length)).sum + 4
      = frameTotal (Uint16 hdr.Length.val) ps := rfl
  rw [htot] at hlen
  rw [hirm, hlen, PutUint32_mod] at hh
  have hflat := length_flatten_wireSegment ps
  refine ⟨?_, ?_, ?_⟩
  · rw [requestWrite_ok _ _ hok, hh.1, hsegs]
    rfl
  · rw [← hh.1, hh.2]
  · rw [List.length_append, List.length_append, ← hh.1, hh.2, hflat]
    simp only [frameTotal, List.length_cons, List.length_nil]

theorem take4_written (v : Nat) (a b d : List Byte) :
    (((PutUint32 v ++ a) ++ b) ++ d).take 4 = PutUint32 v := by
  simp [PutUint32]

theorem fullPayload_length : fullPayload.length = 32764 := List.length_replicate 32764 0

/-- C1 (amended). For a request built by `NewRequest` from a header whose Length
field is 80 or 96, with payloads of at most 32764 bytes added by `AddSegment`, a
successful `Write` writes exactly the `(4 + Length)`-byte prefix, then the
segments in the order added, then the trailer `00 04 00 00`; the total number of
bytes written is `(4 + Length) + sum (4 + |si|) + 4`, and the big-endian value in
bytes 0..3 is that total modulo `2^32`, hence the total itself whenever the total
is below `2^32`. -/
theorem Write_frame (hdr : IRMHeader) (ps : List (List Byte)) (c : Conn)
    (hL : Uint16 hdr.Length.val = 80 ∨ Uint16 hdr.Length.val = 96)
    (hps : ∀ p ∈ ps, p.length ≤ 32764)
    (hok : ((Request.build hdr ps).Write c).2 = none) :
    ∃ written : List Byte,
      ((Request.build hdr ps).Write c).1.sent = c.sent ++ written ∧
      written = (PutUint32 (frameTotal (Uint16 hdr.Length.val) ps)
            ++ hdr.MarshalBinary.1.drop 4)
          ++ (ps.map wireSegment).flatten ++ [0x00, 0x04, 0x00, 0x00] ∧
      (PutUint32 (frameTotal (Uint16 hdr.Length.val) ps)
            ++ hdr.MarshalBinary.1.drop 4).length = 4 + Uint16 hdr.Length.val ∧
      (Request.build hdr ps).segments = ps.map wireSegment ∧
      written.length = frameTotal (Uint16 hdr.Length.val) ps ∧
      Uint32 (written.take 4) = frameTotal (Uint16 hdr.Length.val) ps % 4294967296 ∧
      (frameTotal (Uint16 hdr.Length.val) ps < 4294967296 →
        Uint32 (written.take 4) = frameTotal (Uint16 hdr.Length.val) ps) := by
  have hL2 : Uint16 hdr.Length.val ≤ 120 := by omega
  obtain ⟨h1, h2, h3⟩ := build_Write hdr ps c hL2 hps hok
  have hsegs : (Request.build hdr ps).segments = ps.map wireSegment := by
    unfold Request.build
    rw [(foldl_AddSegment ps (NewRequest hdr)).1, map_mkSegment ps hps]
    rfl
  refine ⟨_, h1, rfl, h2, hsegs, h3, ?_, ?_⟩
  · rw [take4_written, Uint32_PutUint32]
  · intro hlt
    rw [take4_written, Uint32_PutUint32, Nat.mod_eq_of_lt hlt]

/-- C1, instantiated: the sample header, the payload "PING" in EBCDIC, an idle
connection. -/
theorem Write_frame_witness :
    (Uint16 sampleHeader.Length.val = 80 ∨ Uint16 sampleHeader.Length.val = 96) ∧
    (∀ p ∈ [A2E samplePage (ascii "PING")], p.length ≤ 32764) ∧
    ((Request.build sampleHeader [A2E samplePage (ascii "PING")]).Write Conn.idle).2 = none ∧
    ∃ written : List Byte,
      ((Request.build sampleHeader [A2E samplePage (ascii "PING")]).Write Conn.idle).1.sent
        = Conn.idle.sent ++ written ∧
      written.length
        = frameTotal (Uint16 sampleHeader.Length.val) [A2E samplePage (ascii "PING")] := by
  have hL : Uint16 sampleHeader.Length.val = 80 ∨ Uint16 sampleHeader.Length.val = 96 :=
    Or.inl (init_Length samplePage IRMHeader.zero)
  have hps : ∀ p ∈ [A2E samplePage (ascii "PING")], p.length ≤ 32764 := by decide
  have hok := requestWrite_noFaults
    (Request.build sampleHeader [A2E samplePage (ascii "PING")]) Conn.idle rfl
  obtain ⟨w, h1, _, _, _, h5, _⟩ := Write_frame sampleHeader _ Conn.idle hL hps hok
  exact ⟨hL, hps, hok, w, h1, h5⟩

theorem frameTotal_replicate (L n : Nat) :
    frameTotal L (List.replicate n fullPayload) = 4 + L + n * 32768 + 4 := by
  simp [frameTotal, fullPayload_length, List.map_replicate, List.sum_replicate]

theorem fullPayload_le : ∀ p ∈ List.replicate 131072 fullPayload, p.length ≤ 32764 := by
  intro p hp
  rw [List.eq_of_mem_replicate hp, fullPayload_length]

theorem build_Write_fresh (hdr : IRMHeader) (ps : List (List Byte)) (c : Conn) (L T : Nat)
    (hL : Uint16 hdr.Length.val = L) (hL2 : L ≤ 120) (hps : ∀ p ∈ ps, p.length ≤ 32764)
    (hok : ((Request.build hdr ps).Write c).2 = none) (hc : c.sent = [])
    (ht : frameTotal L ps = T) :
    ((Request.build hdr ps).Write c).1.sent.length = T ∧
    Uint32 (((Request.build hdr ps).Write c).1.sent.take 4) = T % 4294967296 ∧
    (4294967296 ≤ T →
      Uint32 (((Request.build hdr ps).Write c).1.sent.take 4) ≠ frameTotal L ps) := by
  subst hL
  obtain ⟨h1, _, h3⟩ := build_Write hdr ps c hL2 hps hok
  rw [hc, List.nil_append] at h1
  rw [h1, h3, take4_written, Uint32_PutUint32, ht]
  refine ⟨rfl, rfl, ?_⟩
  intro hT
  omega

/-- C1 fails as stated: with the sample header and 131072 payloads of 32764
bytes, `Write` succeeds and sends 4294967384 bytes, the count the claim gives,
but bytes 0..3 hold the value 88. -/
theorem Write_frame_wraps :
    Uint16 sampleHeader.Length.val = 80 ∧
    (∀ p ∈ List.replicate 131072 fullPayload, p.length ≤ 32764) ∧
    ((Request.build sampleHeader (List.replicate 131072 fullPayload)).Write Conn.idle).2
      = none ∧
    ((Request.build sampleHeader (List.replicate 131072 fullPayload)).Write
      Conn.idle).1.sent.length = 4294967384 ∧
    frameTotal 80 (List.replicate 131072 fullPayload) = 4294967384 ∧
    Uint32 (((Request.build sampleHeader (List.replicate 131072 fullPayload)).Write
      Conn.idle).1.sent.take 4) = 88 ∧
    Uint32 (((Request.build sampleHeader (List.replicate 131072 fullPayload)).Write
      Conn.idle).1.sent.take 4) ≠ frameTotal 80 (List.replicate 131072 fullPayload) :=
  ⟨init_Length samplePage IRMHeader.zero, fullPayload_le,
    requestWrite_noFaults _ Conn.idle rfl,
    (build_Write_fresh sampleHeader _ Conn.idle 80 4294967384
      (init_Length samplePage IRMHeader.zero) (by decide) fullPayload_le
      (requestWrite_noFaults _ Conn.idle rfl) rfl (frameTotal_replicate 80 131072)).1,
    frameTotal_replicate 80 131072,
    (build_Write_fresh sampleHeader _ Conn.idle 80 4294967384
      (init_Length samplePage IRMHeader.zero) (by decide) fullPayload_le
      (requestWrite_noFaults _ Conn.idle rfl) rfl (frameTotal_replicate 80 131072)).2.1,
    (build_Write_fresh sampleHeader _ Conn.idle 80 4294967384
      (init_Length samplePage IRMHeader.zero) (by decide) fullPayload_le
      (requestWrite_noFaults _ Conn.idle rfl) rfl (frameTotal_replicate 80 131072)).2.2
      (by decide)⟩

/-- C5 (amended). For every payload `p`, `AddSegment(p)` appends exactly one segment,
of length `min (|p| + 4) 32768`, whose first two bytes are that length big-endian,
whose bytes 2..3 are zero and whose bytes 4.. are the first `min |p| 32764` bytes of
`p`; the request's total length becomes the old one plus the segment's length,
modulo `2^32`, hence exactly that sum whenever the sum is below `2^32`. For a
payload of 40000 bytes the segment has LL = 0x8000 and carries the first 32764
payload bytes. -/
theorem AddSegment_segment (r : Request) (p : List Byte) :
    (r.AddSegment p).segments = r.segments ++ [mkSegment p] ∧
    (r.AddSegment p).irmHeader = r.irmHeader ∧
    (mkSegment p).length = min (p.length + 4) 32768 ∧
    (mkSegment p).take 2 = PutUint16 (mkSegment p).length ∧
    Uint16 (mkSegment p) = (mkSegment p).length ∧
    slice (mkSegment p) 2 4 = [0, 0] ∧
    (mkSegment p).drop 4 = p.take (min p.length 32764) ∧
    (r.AddSegment p).length = (r.length + (mkSegment p).length) % 4294967296 ∧
    (r.length + (mkSegment p).length < 4294967296 →
      (r.AddSegment p).length = r.length + (mkSegment p).length) ∧
    (p.length = 40000 →
      (mkSegment p).take 2 = [0x80, 0x00] ∧ Uint16 (mkSegment p) = 0x8000 ∧
      (mkSegment p).length = 32768 ∧ (mkSegment p).drop 4 = p.take 32764) := by
  have hlen := length_mkSegment p
  have heq := mkSegment_eq p
  have hU : Uint16 (mkSegment p) = (mkSegment p).length := by
    rw [hlen, heq]
    simp only [PutUint16, Uint16, List.cons_append, List.nil_append, List.getD_cons_zero,
      List.getD_cons_succ]
    omega
  have htake : (mkSegment p).take 2 = PutUint16 (mkSegment p).length := by
    rw [hlen, heq]
    simp [PutUint16]
  have hdrop : (mkSegment p).drop 4 = p.take (min p.length 32764) := by
    rw [heq]
    simp [PutUint16]
  refine ⟨by simp [Request.AddSegment], by simp [Request.AddSegment], by omega, htake, hU, ?_,
    hdrop, AddSegment_length r p, ?_, ?_⟩
  · rw [heq]
    simp [slice, PutUint16]
  · intro hlt
    rw [AddSegment_length, Nat.mod_eq_of_lt hlt]
  · intro h4
    have hl : (mkSegment p).length = 32768 := by omega
    refine ⟨?_, ?_, hl, ?_⟩
    · rw [htake, hl]
      decide
    · rw [hU, hl]
    · rw [hdrop, h4]
      rfl

/-- C5, instantiated at a payload of 40000 bytes added to a fresh request. -/
theorem AddSegment_segment_witness :
    (List.replicate 40000 (0 : Byte)).length = 40000 ∧
    Uint16 (mkSegment (List.replicate 40000 0)) = 0x8000 ∧
    (mkSegment (List.replicate 40000 0)).drop 4 = (List.replicate 40000 0).take 32764 :=
  ⟨List.length_replicate 40000 0,
    ((AddSegment_segment (NewRequest sampleHeader) (List.replicate 40000 0)).2.2.2.2.2.2.2.2.2
      (List.length_replicate 40000 0)).2.1,
    ((AddSegment_segment (NewRequest sampleHeader) (List.replicate 40000 0)).2.2.2.2.2.2.2.2.2
      (List.length_replicate 40000 0)).2.2.2⟩

theorem build_length_replicate (hdr : IRMHeader) (n : Nat)
    (hL : Uint16 hdr.Length.val = 80) :
    (Request.build hdr (List.replicate n fullPayload)).length
      = (88 + n * 32768) % 4294967296 := by
  rw [build_length hdr _ (by omega), hL]
  have hs : (mkSegment fullPayload).length = 32768 := by
    rw [length_mkSegment, fullPayload_length]
    omega
  have hm : (List.replicate n fullPayload).map (fun p => (mkSegment p).length)
      = List.replicate n 32768 := by
    rw [List.map_replicate, hs]
  have hsum : ((List.replicate n fullPayload).map (fun p => (mkSegment p).length)).sum
      = n * 32768 := by
    rw [hm, List.sum_replicate, smul_eq_mul]
  rw [hsum]
  have e : 4 + 80 + n * 32768 + 4 = 88 + n * 32768 := by omega
  rw [e]

/-- C5 fails as stated: on the request built from the sample header and 131071
payloads of 32764 bytes, whose total length is 4294934616, adding one more such
payload (a segment of 32768 bytes) leaves the total length at 88. -/
theorem AddSegment_length_wraps :
    (Request.build sampleHeader (List.replicate 131071 fullPayload)).length = 4294934616 ∧
    (mkSegment fullPayload).length = 32768 ∧
    ((Request.build sampleHeader (List.replicate 131071 fullPayload)).AddSegment
      fullPayload).length = 88 ∧
    ((Request.build sampleHeader (List.replicate 131071 fullPayload)).AddSegment
      fullPayload).length
      ≠ (Request.build sampleHeader (List.replicate 131071 fullPayload)).length
        + (mkSegment fullPayload).length := by
  have h1 := build_length_replicate sampleHeader 131071 (init_Length samplePage IRMHeader.zero)
  have h2 : (mkSegment fullPayload).length = 32768 := by
    rw [length_mkSegment, fullPayload_length]
    omega
  have h3 := AddSegment_length (Request.build sampleHeader (List.replicate 131071 fullPayload))
    fullPayload
  rw [h1, h2] at h3
  rw [h3, h1, h2]
  decide

/-! ## The response parser -/

theorem ReadFull_enough (c : Conn) (a rest : List Byte) (h : c.unread = a ++ rest) :
    c.ReadFull a.length = (a, none, { c with unread := rest }) := by
  unfold Conn.ReadFull
  by_cases h0 : a.length = 0
  · have ha : a = [] := List.length_eq_zero.mp h0
    subst ha
    simp only [List.nil_append] at h
    simp [← h]
  · have hle : a.length ≤ c.unread.length := by rw [h]; simp
    simp [h0, hle, h]

theorem ReadNextSegment_initial (cp : CodePage) (r : Response) (tl u : List Byte)
    (hi : r.initial = true) (htl : tl.length = 4) (hrd : r.reader.unread = tl ++ u) :
    r.ReadNextSegment cp
      = ({ r with initial := false, length := Uint32 tl,
                  reader := { r.reader with unread := u } } : Response).ReadNextSegment cp := by
  have h4 := ReadFull_enough r.reader tl u hrd
  rw [htl] at h4
  have hs : slice tl 0 4 = tl := by
    simp [slice, ← htl]
  unfold Response.ReadNextSegment Response.readTotal
  simp only [hi, h4, hs, if_true]
  simp

theorem ReadNextSegment_segment (cp : CodePage) (r : Response) (s rest : List Byte)
    (hs : 2 ≤ s.length) (hU : Uint16 s = s.length) (hi : r.initial = false)
    (hrd : r.reader.unread = s ++ rest) :
    r.ReadNextSegment cp = some ((segTypeOf cp s s.length, s, none), r.advance rest) := by
  obtain ⟨a, b, tl, rfl⟩ : ∃ a b tl, s = a :: b :: tl := by
    match s, hs with
    | a :: b :: tl, _ => exact ⟨a, b, tl, rfl⟩
  have hlen : a * 256 + b = tl.length + 2 := by
    simpa [Uint16] using hU
  have h2 : r.reader.ReadFull 2 = ([a, b], none, { r.reader with unread := tl ++ rest }) :=
    ReadFull_enough r.reader [a, b] (tl ++ rest) (by simpa using hrd)
  have h3 : ({ r.reader with unread := tl ++ rest } : Conn).ReadFull tl.length
      = (tl, none, { r.reader with unread := rest }) :=
    ReadFull_enough { r.reader with unread := tl ++ rest } tl rest rfl
  have hsl : slice [a, b] 0 2 = [a, b] := rfl
  have hU2 : Uint16 [a, b] = tl.length + 2 := by
    simpa [Uint16] using hlen
  have hc1 : copyAt (List.replicate (tl.length + 2) 0) 0 2 [a, b]
      = [a, b] ++ List.replicate tl.length 0 := by
    have := copyAt_fill [] [a, b] (tl.length + 2) 0 2 rfl rfl (by simp)
    simpa using this
  have hc2 : copyAt ([a, b] ++ List.replicate tl.length 0) 2 (tl.length + 2) tl
      = a :: b :: tl := by
    have := copyAt_fill [a, b] tl tl.length 2 (tl.length + 2) rfl (by omega) (le_refl _)
    simpa using this
  unfold Response.ReadNextSegment Response.readTotal
  have hn : ¬ (tl.length + 2 < 2) := by omega
  simp only [hi, Bool.false_eq_true, if_false, h2, hsl, hU2, hn, Nat.add_sub_cancel, h3, hc1,
    hc2, Response.advance, List.length_cons]

theorem tokens_distinct :
    ascii "*REQMOD*" ≠ ascii "*REQSTS*" ∧ ascii "*GENCID*" ≠ ascii "*REQSTS*" ∧
    ascii "*GENCID*" ≠ ascii "*REQMOD*" ∧ ascii "*CSMOKY*" ≠ ascii "*REQSTS*" ∧
    ascii "*CSMOKY*" ≠ ascii "*REQMOD*" ∧ ascii "*CSMOKY*" ≠ ascii "*GENCID*" ∧
    ascii "*CORTOKN" ≠ ascii "*REQSTS*" ∧ ascii "*CORTOKN" ≠ ascii "*REQMOD*" ∧
    ascii "*CORTOKN" ≠ ascii "*GENCID*" ∧ ascii "*CORTOKN" ≠ ascii "*CSMOKY*" := by
  decide

theorem segTypeOf_data (cp : CodePage) (s : List Byte) (h : IsDataSegment cp s) :
    segTypeOf cp s s.length = RESPSEGDATA := by
  obtain ⟨_, hn⟩ := h
  unfold segTypeOf
  by_cases h12 : s.length ≥ 12
  · have hm : segToken cp s ∉ identifierTokens := fun hin => hn ⟨h12, hin⟩
    simp only [identifierTokens, List.mem_cons, List.mem_singleton, not_or] at hm
    obtain ⟨m1, m2, m3, m4, m5⟩ := hm
    simp only [segToken] at m1 m2 m3 m4 m5
    simp [h12, m1, m2, m3, m4, m5]
  · simp [h12]

theorem segTypeOf_token (cp : CodePage) (tok s : List Byte) (h : IsTokenSegment cp tok s) :
    segTypeOf cp s s.length =
      if tok = ascii "*REQSTS*" then RESPSEGERR
      else if tok = ascii "*REQMOD*" then RESPSEGERR
      else if tok = ascii "*GENCID*" then RESPSEGCID
      else if tok = ascii "*CSMOKY*" then RESPSEGCSM
      else if tok = ascii "*CORTOKN" then RESPSEGCT
      else RESPSEGDATA := by
  obtain ⟨_, h12, ht⟩ := h
  unfold segTypeOf
  simp only [segToken] at ht
  simp only [ge_iff_le, h12, if_true, ht]

theorem segTypeOf_CSM (cp : CodePage) (s : List Byte)
    (h : IsTokenSegment cp (ascii "*CSMOKY*") s) : segTypeOf cp s s.length = RESPSEGCSM := by
  rw [segTypeOf_token cp _ s h]
  obtain ⟨_, _, _, h4, h5, h6, _⟩ := tokens_distinct
  simp [h4, h5, h6]

theorem segTypeOf_REQSTS (cp : CodePage) (s : List Byte)
    (h : IsTokenSegment cp (ascii "*REQSTS*") s) : segTypeOf cp s s.length = RESPSEGERR := by
  rw [segTypeOf_token cp _ s h]
  simp

theorem segTypeOf_REQMOD (cp : CodePage) (s : List Byte)
    (h : IsTokenSegment cp (ascii "*REQMOD*") s) : segTypeOf cp s s.length = RESPSEGERR := by
  rw [segTypeOf_token cp _ s h]
  obtain ⟨h1, _⟩ := tokens_distinct
  simp [h1]

theorem route_data (r : Response) (d : List Byte) :
    r.route RESPSEGDATA d = ({ r with data := r.data ++ [d] }, false) := by
  simp [Response.route, RESPSEGDATA, RESPSEGERR, RESPSEGCT, RESPSEGRMM, RESPSEGCID]

theorem route_CSM (r : Response) (d : List Byte) :
    r.route RESPSEGCSM d = ({ r with csm := some d }, true) := by
  simp [Response.route, RESPSEGDATA, RESPSEGERR, RESPSEGCT, RESPSEGRMM, RESPSEGCID, RESPSEGCSM]

theorem route_ERR (r : Response) (d : List Byte) :
    r.route RESPSEGERR d
      = ({ r with rsm := some d,
                  retCode := Uint32 (RespRSM.zero.UnmarshalBinary d).1.RetCode.val,
                  rsnCode := Uint32 (RespRSM.zero.UnmarshalBinary d).1.RsnCode.val }, true) := by
  simp [Response.route]

/-- The loop of `readAllSegments` on a stream of data segments closed by a
segment of a terminating type: the data segments are appended in order and the
closing segment is routed. -/
theorem readLoop_stream (cp : CodePage) (ds : List (List Byte)) :
    ∀ (r : Response) (term rest : List Byte) (fuel : Nat),
      (∀ s ∈ ds, IsDataSegment cp s) → IsSegment term →
      (∀ q : Response, (q.route (segTypeOf cp term term.length) term).2 = true) →
      r.initial = false → r.reader.unread = ds.flatten ++ term ++ rest → ds.length < fuel →
      Response.readLoop cp fuel r
        = Run.ret (none,
            ((({ r with data := r.data ++ ds } : Response).advance rest).route
              (segTypeOf cp term term.length) term).1) := by
  induction ds with
  | nil =>
    intro r term rest fuel _ hterm hend hi hrd hfuel
    obtain ⟨f, rfl⟩ : ∃ f, fuel = f + 1 := ⟨fuel - 1, by omega⟩
    have hstep := ReadNextSegment_segment cp r term rest (by have := hterm.1; omega) hterm.2 hi
      (by simpa using hrd)
    have hq := hend (r.advance rest)
    unfold Response.readLoop
    rw [hstep]
    simp only
    split
    · rename_i r2 heq
      simp only [List.append_nil]
      rw [heq]
    · rename_i r2 heq
      rw [heq] at hq
      simp at hq
  | cons d ds ih =>
    intro r term rest fuel hds hterm hend hi hrd hfuel
    obtain ⟨f, rfl⟩ : ∃ f, fuel = f + 1 := ⟨fuel - 1, by omega⟩
    have hd := hds d (List.mem_cons_self _ _)
    have hstep := ReadNextSegment_segment cp r d (ds.flatten ++ term ++ rest)
      (by have := hd.1.1; omega) hd.1.2 hi (by simpa using hrd)
    rw [segTypeOf_data cp d hd] at hstep
    unfold Response.readLoop
    rw [hstep]
    simp only [route_data]
    have := ih ({ r.advance (ds.flatten ++ term ++ rest) with
        data := (r.advance (ds.flatten ++ term ++ rest)).data ++ [d] }) term rest f
      (fun s hs => hds s (List.mem_cons_of_mem _ hs)) hterm
      hend hi rfl (by simpa using hfuel)
    rw [this]
    simp [Response.advance]

theorem length_le_flatten (ds : List (List Byte)) (h : ∀ s ∈ ds, 1 ≤ s.length) :
    ds.length ≤ ds.flatten.length := by
  induction ds with
  | nil => simp
  | cons d ds ih =>
    have hd := h d (List.mem_cons_self _ _)
    have := ih (fun s hs => h s (List.mem_cons_of_mem _ hs))
    simp only [List.length_cons, List.flatten_cons, List.length_append]
    omega

theorem readLoop_initial (cp : CodePage) (r : Response) (tl u : List Byte) (f : Nat)
    (hi : r.initial = true) (htl : tl.length = 4) (hrd : r.reader.unread = tl ++ u) :
    Response.readLoop cp (f + 1) r
      = Response.readLoop cp (f + 1)
          ({ r with initial := false, length := Uint32 tl,
                    reader := { r.reader with unread := u } } : Response) := by
  have h := ReadNextSegment_initial cp r tl u hi htl hrd
  rw [Response.readLoop, Response.readLoop, h]

/-- `readAllSegments` on a fresh response whose stream is a total length, data
segments and a closing segment of a terminating type. -/
theorem readAllSegments_stream (cp : CodePage) (c : Conn) (tl : List Byte)
    (ds : List (List Byte)) (term rest : List Byte)
    (htl : tl.length = 4) (hds : ∀ s ∈ ds, IsDataSegment cp s) (hterm : IsSegment term)
    (hend : ∀ q : Response, (q.route (segTypeOf cp term term.length) term).2 = true)
    (hrd : c.unread = tl ++ ds.flatten ++ term ++ rest) :
    (NewResponse c).readAllSegments cp
      = Run.ret (none,
          ((({ NewResponse c with initial := false, length := Uint32 tl, data := ds }
              : Response).advance rest).route (segTypeOf cp term term.length) term).1) := by
  unfold Response.readAllSegments
  have hrd2 : (NewResponse c).reader.unread = tl ++ (ds.flatten ++ term ++ rest) := by
    simp [NewResponse, hrd]
  rw [readLoop_initial cp (NewResponse c) tl _ _ rfl htl hrd2]
  have hfuel : ds.length < (NewResponse c).reader.unread.length + 1 := by
    have := length_le_flatten ds (fun s hs => by have := (hds s hs).1.1; omega)
    rw [hrd2]
    simp only [List.length_append]
    omega
  rw [readLoop_stream cp ds _ term rest _ hds hterm hend rfl rfl hfuel]
  simp [Response.advance, NewResponse]

theorem outLoop_true (cp : CodePage) (ds : List (List Byte)) (h : ∀ s ∈ ds, 4 ≤ s.length) :
    outLoop cp true ds = some (ds.map (fun s => E2A cp (s.drop 4))) := by
  induction ds with
  | nil => rfl
  | cons d ds ih =>
    have hd := h d (List.mem_cons_self _ _)
    have hn : ¬ d.length < 4 := by omega
    simp [outLoop, hn, ih (fun s hs => h s (List.mem_cons_of_mem _ hs))]

theorem outLoop_false (cp : CodePage) (ds : List (List Byte)) (h : ∀ s ∈ ds, 8 ≤ s.length) :
    outLoop cp false ds = some (ds.map (fun s => List.replicate (s.length - 8) 0)) := by
  induction ds with
  | nil => rfl
  | cons d ds ih =>
    have hd := h d (List.mem_cons_self _ _)
    have hn : ¬ d.length < 4 := by omega
    have hn2 : ¬ d.length - 4 < 4 := by omega
    have he : d.length - 4 - 4 = d.length - 8 := by omega
    simp [outLoop, hn, hn2, he, ih (fun s hs => h s (List.mem_cons_of_mem _ hs)),
      List.drop_replicate]

theorem outLoop_false_short (cp : CodePage) (ds : List (List Byte))
    (h : ∃ s ∈ ds, s.length < 8) : outLoop cp false ds = none := by
  induction ds with
  | nil => simp at h
  | cons d ds ih =>
    by_cases hd : d.length < 8
    · by_cases h4 : d.length < 4
      · simp [outLoop, h4]
      · have : d.length - 4 < 4 := by omega
        simp [outLoop, h4, this]
    · obtain ⟨s, hs, hlt⟩ := h
      rcases List.mem_cons.mp hs with rfl | hs2
      · exact absurd hlt hd
      · have := ih ⟨s, hs2, hlt⟩
        have hn : ¬ d.length < 4 := by omega
        have hn2 : ¬ d.length - 4 < 4 := by omega
        simp [outLoop, hn, hn2, this]

/-- C6. Framing then parsing is the identity on payloads: when the segment that
`AddSegment(p)` builds, for a payload of at most 32760 bytes, is next on the
stream of a response past its total-length read, `ReadNextSegment` returns no
error and that segment, whose bytes 4.. are `p` and whose bytes 0..2 are the
big-endian value `|p| + 4`. -/
theorem AddSegment_ReadNextSegment (cp : CodePage) (q : Request) (r : Response)
    (p seg rest : List Byte) (hp : p.length ≤ 32760)
    (hseg : (q.AddSegment p).segments = q.segments ++ [seg])
    (hi : r.initial = false) (hrd : r.reader.unread = seg ++ rest) :
    ∃ (t : RespSegType) (d : List Byte) (r1 : Response),
      r.ReadNextSegment cp = some ((t, d, none), r1) ∧
      d.drop 4 = p ∧ d.take 2 = PutUint16 (p.length + 4) ∧ Uint16 d = p.length + 4 ∧
      d = seg ∧ r1.reader.unread = rest := by
  have hs : seg = mkSegment p := by
    have h : q.segments ++ [mkSegment p] = q.segments ++ [seg] := by
      rw [← hseg]; simp [Request.AddSegment]
    have := List.append_cancel_left h
    simpa using this.symm
  have hw : seg = wireSegment p := by
    rw [hs, mkSegment_eq, Nat.min_eq_left (by omega), List.take_length, wireSegment]
  have hlen : seg.length = p.length + 4 := by
    rw [hw]; simp [wireSegment, PutUint16]
  have hU : Uint16 seg = p.length + 4 := by
    rw [hw]
    simp only [wireSegment, PutUint16, Uint16, List.cons_append, List.nil_append,
      List.getD_cons_zero, List.getD_cons_succ]
    omega
  refine ⟨_, seg, _, ReadNextSegment_segment cp r seg rest (by omega) (by rw [hU, hlen]) hi hrd,
    ?_, ?_, hU, rfl, rfl⟩
  · rw [hw]; simp [wireSegment, PutUint16]
  · rw [hw]; simp [wireSegment, PutUint16]

/-- C6, instantiated at the payload "PING" in EBCDIC. -/
theorem AddSegment_ReadNextSegment_witness :
    [0xD7, 0xC9, 0xD5, 0xC7].length ≤ 32760 ∧
    ((NewRequest sampleHeader).AddSegment [0xD7, 0xC9, 0xD5, 0xC7]).segments
      = (NewRequest sampleHeader).segments
        ++ [[0x00, 0x08, 0x00, 0x00, 0xD7, 0xC9, 0xD5, 0xC7]] ∧
    ∃ (t : RespSegType) (d : List Byte) (r1 : Response),
      ({ NewResponse (Conn.receiving ([0x00, 0x08, 0x00, 0x00, 0xD7, 0xC9, 0xD5, 0xC7]
            ++ csmSegment)) with initial := false } : Response).ReadNextSegment samplePage
        = some ((t, d, none), r1) ∧
      d.drop 4 = [0xD7, 0xC9, 0xD5, 0xC7] ∧
      d.take 2 = PutUint16 ([0xD7, 0xC9, 0xD5, 0xC7].length + 4) ∧
      Uint16 d = [0xD7, 0xC9, 0xD5, 0xC7].length + 4 ∧
      d = [0x00, 0x08, 0x00, 0x00, 0xD7, 0xC9, 0xD5, 0xC7] ∧ r1.reader.unread = csmSegment :=
  ⟨by decide, by decide,
    AddSegment_ReadNextSegment samplePage (NewRequest sampleHeader)
      { NewResponse (Conn.receiving ([0x00, 0x08, 0x00, 0x00, 0xD7, 0xC9, 0xD5, 0xC7]
          ++ csmSegment)) with initial := false }
      [0xD7, 0xC9, 0xD5, 0xC7] [0x00, 0x08, 0x00, 0x00, 0xD7, 0xC9, 0xD5, 0xC7] csmSegment
      (by decide) (by decide) rfl rfl⟩

/-- C7. On a fresh response whose stream is a 4-byte total length, then data
segments, then a `*CSMOKY*` segment, `Out(true)` returns no error and one element
per data segment, in arrival order: `E2A` of bytes 4..end of the segment. With no
data segment the list is empty. -/
theorem Out_ascii_stream (cp : CodePage) (c : Conn) (tl : List Byte)
    (ds : List (List Byte)) (csm rest : List Byte)
    (htl : tl.length = 4) (hds : ∀ s ∈ ds, IsDataSegment cp s)
    (hcsm : IsTokenSegment cp (ascii "*CSMOKY*") csm)
    (hrd : c.unread = tl ++ ds.flatten ++ csm ++ rest) :
    ∃ r1 : Response,
      (NewResponse c).Out cp true
        = Run.ret ((ds.map (fun s => E2A cp (s.drop 4)), none), r1) ∧
      (ds.map (fun s => E2A cp (s.drop 4))).length = ds.length ∧
      (ds = [] → (NewResponse c).Out cp true = Run.ret (([], none), r1)) := by
  have hall := readAllSegments_stream cp c tl ds csm rest htl hds hcsm.1
    (by intro q; rw [segTypeOf_CSM cp csm hcsm, route_CSM]) hrd
  rw [segTypeOf_CSM cp csm hcsm, route_CSM] at hall
  have hout : ∃ r1 : Response, (NewResponse c).Out cp true
      = Run.ret ((ds.map (fun s => E2A cp (s.drop 4)), none), r1) := by
    unfold Response.Out
    rw [hall]
    by_cases hnil : ds = []
    · subst hnil
      exact ⟨{ NewResponse { c with unread := rest } with
          initial := false, length := Uint32 tl, csm := some csm, data := [] },
        by simp [Response.advance, NewResponse]⟩
    · have ho := outLoop_true cp ds (fun s hs => (hds s hs).1.1)
      exact ⟨{ NewResponse { c with unread := rest } with
          initial := false, length := Uint32 tl, csm := some csm, data := ds },
        by simp [Response.advance, NewResponse, hnil, ho]⟩
  obtain ⟨r1, h1⟩ := hout
  refine ⟨r1, h1, by simp, ?_⟩
  intro hnil
  rw [h1, hnil]
  rfl

/-- C7, instantiated at the stream `00 00 00 18`, "PONG", `*CSMOKY*`. -/
theorem Out_ascii_stream_witness :
    (∀ s ∈ [pongSegment], IsDataSegment samplePage s) ∧
    IsTokenSegment samplePage (ascii "*CSMOKY*") csmSegment ∧
    ∃ r1 : Response,
      (NewResponse (Conn.receiving ([0x00, 0x00, 0x00, 0x18] ++ [pongSegment].flatten
          ++ csmSegment ++ []))).Out samplePage true
        = Run.ret (([ascii "PONG"], none), r1) := by
  have hds : ∀ s ∈ [pongSegment], IsDataSegment samplePage s := by decide
  have hcsm : IsTokenSegment samplePage (ascii "*CSMOKY*") csmSegment := by decide
  obtain ⟨r1, h1, _⟩ := Out_ascii_stream samplePage
    (Conn.receiving ([0x00, 0x00, 0x00, 0x18] ++ [pongSegment].flatten ++ csmSegment ++ []))
    [0x00, 0x00, 0x00, 0x18] [pongSegment] csmSegment [] rfl hds hcsm rfl
  exact ⟨hds, hcsm, r1, h1⟩

theorem copy_full (dst src : List Byte) (h : dst.length = src.length) : copy dst src = src := by
  simp [copy, h]

theorem length_slice (l : List Byte) (a b : Nat) (hb : b ≤ l.length) :
    (slice l a b).length = b - a := by
  simp only [slice, List.length_drop, List.length_take]
  omega

theorem UnmarshalBinary_RSM (d : List Byte) (h : 20 ≤ d.length) :
    (RespRSM.zero.UnmarshalBinary d).1.RetCode.val = slice d 12 16 ∧
    (RespRSM.zero.UnmarshalBinary d).1.RsnCode.val = slice d 16 20 ∧
    (RespRSM.zero.UnmarshalBinary d).2 = none := by
  have h1 := length_slice d 12 16 (by omega)
  have h2 := length_slice d 16 20 (by omega)
  have hge : d.length ≥ 20 := h
  simp only [RespRSM.UnmarshalBinary, hge, if_true, Bytes.copy, RespRSM.zero, Bytes.zero]
  refine ⟨copy_full _ _ ?_, copy_full _ _ ?_, trivial⟩
  · rw [length_slice _ _ _ (by omega)]; rfl
  · rw [length_slice _ _ _ (by omega)]; rfl

/-- C9. On a fresh response whose stream is a 4-byte total length, then any
number of data segments, then a `*REQSTS*` segment of at least 20 bytes, `Out`
returns no data, for either value of its flag, and fails with the error that
carries the big-endian values of bytes 12..16 and 16..20 of that segment; the
data segments stay in the response and are not returned. -/
theorem Out_RSM_stream (cp : CodePage) (c : Conn) (tl : List Byte)
    (ds : List (List Byte)) (rsm rest : List Byte) (asc : Bool)
    (htl : tl.length = 4) (hds : ∀ s ∈ ds, IsDataSegment cp s)
    (hrsm : IsTokenSegment cp (ascii "*REQSTS*") rsm) (h20 : 20 ≤ rsm.length)
    (hrd : c.unread = tl ++ ds.flatten ++ rsm ++ rest) :
    ∃ r1 : Response,
      (NewResponse c).Out cp asc
        = Run.ret (([], some (Err.ErrIMSConnect (Uint32 (slice rsm 12 16))
            (Uint32 (slice rsm 16 20)))), r1) ∧
      r1.data = ds ∧ r1.rsm = some rsm := by
  have hall := readAllSegments_stream cp c tl ds rsm rest htl hds hrsm.1
    (by intro q; rw [segTypeOf_REQSTS cp rsm hrsm, route_ERR]) hrd
  rw [segTypeOf_REQSTS cp rsm hrsm, route_ERR] at hall
  obtain ⟨e1, e2, _⟩ := UnmarshalBinary_RSM rsm h20
  rw [e1, e2] at hall
  refine ⟨{ NewResponse { c with unread := rest } with
      initial := false, length := Uint32 tl, rsm := some rsm, data := ds,
      retCode := Uint32 (slice rsm 12 16), rsnCode := Uint32 (slice rsm 16 20) }, ?_, rfl, rfl⟩
  unfold Response.Out
  rw [hall]
  simp [Response.advance, NewResponse]

/-- C9, instantiated at the stream `00 00 00 20`, "PONG", `*REQSTS*` with return
code 8 and reason code 36, read without conversion. -/
theorem Out_RSM_stream_witness :
    (∀ s ∈ [pongSegment], IsDataSegment samplePage s) ∧
    IsTokenSegment samplePage (ascii "*REQSTS*") rsmSegment ∧ 20 ≤ rsmSegment.length ∧
    ∃ r1 : Response,
      (NewResponse (Conn.receiving ([0x00, 0x00, 0x00, 0x20] ++ [pongSegment].flatten
          ++ rsmSegment ++ []))).Out samplePage false
        = Run.ret (([], some (Err.ErrIMSConnect 8 36)), r1) := by
  have hds : ∀ s ∈ [pongSegment], IsDataSegment samplePage s := by decide
  have hrsm : IsTokenSegment samplePage (ascii "*REQSTS*") rsmSegment := by decide
  obtain ⟨r1, h1, _⟩ := Out_RSM_stream samplePage
    (Conn.receiving ([0x00, 0x00, 0x00, 0x20] ++ [pongSegment].flatten ++ rsmSegment ++ []))
    [0x00, 0x00, 0x00, 0x20] [pongSegment] rsmSegment [] false rfl hds hrsm (by decide) rfl
  exact ⟨hds, hrsm, by decide, r1, h1⟩

/-- C8, as the code behaves. On a fresh response whose stream is a 4-byte total
length, then at least one data segment, then a `*CSMOKY*` segment, `Out(false)`
does not return the payloads: when every data segment has at least 8 bytes it
returns, for each, `len - 8` zero bytes (four fewer than the payload has, and
none of its content); when some data segment is shorter than 8 bytes the call
panics. -/
theorem Out_raw_stream (cp : CodePage) (c : Conn) (tl : List Byte)
    (ds : List (List Byte)) (csm rest : List Byte)
    (htl : tl.length = 4) (hds : ∀ s ∈ ds, IsDataSegment cp s) (hne : ds ≠ [])
    (hcsm : IsTokenSegment cp (ascii "*CSMOKY*") csm)
    (hrd : c.unread = tl ++ ds.flatten ++ csm ++ rest) :
    ((∀ s ∈ ds, 8 ≤ s.length) →
      ∃ r1 : Response, (NewResponse c).Out cp false
        = Run.ret ((ds.map (fun s => List.replicate (s.length - 8) 0), none), r1)) ∧
    ((∃ s ∈ ds, s.length < 8) → (NewResponse c).Out cp false = Run.panic) ∧
    ∀ r1 : Response, (NewResponse c).Out cp false
      ≠ Run.ret ((ds.map (fun s => s.drop 4), none), r1) := by
  have hall := readAllSegments_stream cp c tl ds csm rest htl hds hcsm.1
    (by intro q; rw [segTypeOf_CSM cp csm hcsm, route_CSM]) hrd
  rw [segTypeOf_CSM cp csm hcsm, route_CSM] at hall
  have hlong : (∀ s ∈ ds, 8 ≤ s.length) →
      (NewResponse c).Out cp false
        = Run.ret ((ds.map (fun s => List.replicate (s.length - 8) 0), none),
            { NewResponse { c with unread := rest } with
              initial := false, length := Uint32 tl, csm := some csm, data := ds }) := by
    intro h8
    have ho := outLoop_false cp ds h8
    unfold Response.Out
    rw [hall]
    simp [Response.advance, NewResponse, hne, ho]
  have hshort : (∃ s ∈ ds, s.length < 8) → (NewResponse c).Out cp false = Run.panic := by
    intro hs
    have ho := outLoop_false_short cp ds hs
    unfold Response.Out
    rw [hall]
    simp [Response.advance, NewResponse, hne, ho]
  refine ⟨fun h8 => ⟨_, hlong h8⟩, hshort, ?_⟩
  intro r1 hr1
  by_cases h8 : ∀ s ∈ ds, 8 ≤ s.length
  · rw [hlong h8] at hr1
    have hmap : ds.map (fun s => List.replicate (s.length - 8) (0 : Byte))
        = ds.map (fun s => s.drop 4) := by
      injection hr1 with h
      exact (Prod.mk.inj (Prod.mk.inj h).1).1
    obtain ⟨d, rest2, rfl⟩ := List.exists_cons_of_ne_nil hne
    have hd := h8 d (List.mem_cons_self _ _)
    simp only [List.map_cons, List.cons.injEq] at hmap
    have := congrArg List.length hmap.1
    simp only [List.length_replicate, List.length_drop] at this
    omega
  · have hex : ∃ s ∈ ds, s.length < 8 := by
      by_contra hcon
      apply h8
      intro s hs
      by_contra hlt
      exact hcon ⟨s, hs, by omega⟩
    rw [hshort hex] at hr1
    cases hr1

/-- C8, at the stream `00 00 00 18`, "PONG", `*CSMOKY*`: `Out(false)` returns one
empty slice where the payload `D7 D6 D5 C7` is expected. -/
theorem Out_raw_stream_witness :
    (∀ s ∈ [pongSegment], IsDataSegment samplePage s) ∧
    IsTokenSegment samplePage (ascii "*CSMOKY*") csmSegment ∧
    (∀ s ∈ [pongSegment], 8 ≤ s.length) ∧
    [pongSegment].map (fun s => s.drop 4) = [[0xD7, 0xD6, 0xD5, 0xC7]] ∧
    ∃ r1 : Response,
      (NewResponse (Conn.receiving ([0x00, 0x00, 0x00, 0x18] ++ [pongSegment].flatten
          ++ csmSegment ++ []))).Out samplePage false
        = Run.ret (([[]], none), r1) := by
  have hds : ∀ s ∈ [pongSegment], IsDataSegment samplePage s := by decide
  have hcsm : IsTokenSegment samplePage (ascii "*CSMOKY*") csmSegment := by decide
  have h8 : ∀ s ∈ [pongSegment], 8 ≤ s.length := by decide
  obtain ⟨r1, h1⟩ := (Out_raw_stream samplePage
    (Conn.receiving ([0x00, 0x00, 0x00, 0x18] ++ [pongSegment].flatten ++ csmSegment ++ []))
    [0x00, 0x00, 0x00, 0x18] [pongSegment] csmSegment [] rfl hds (by decide) hcsm rfl).1 h8
  exact ⟨hds, hcsm, h8, by decide, r1, h1⟩

/-- C10, as the code behaves. A segment of at least 12 bytes whose bytes 4..12
read `*REQMOD*` through `E2A` is read without error and classified as
`RESPSEGERR`, the type of the `*REQSTS*` segment, not as `RESPSEGRMM`. -/
theorem ReadNextSegment_REQMOD (cp : CodePage) (r : Response) (s rest : List Byte)
    (hs : IsTokenSegment cp (ascii "*REQMOD*") s) (hi : r.initial = false)
    (hrd : r.reader.unread = s ++ rest) :
    r.ReadNextSegment cp = some ((RESPSEGERR, s, none), r.advance rest) ∧
    RESPSEGERR ≠ RESPSEGRMM := by
  have h := ReadNextSegment_segment cp r s rest (by have := hs.1.1; omega) hs.1.2 hi hrd
  rw [segTypeOf_REQMOD cp s hs] at h
  exact ⟨h, by decide⟩

/-- C10, at the segment `00 14 00 00`, `*REQMOD*`, "MODNAME1" (EBCDIC). -/
theorem ReadNextSegment_REQMOD_witness :
    IsTokenSegment samplePage (ascii "*REQMOD*") rmmSegment ∧
    ({ NewResponse (Conn.receiving (rmmSegment ++ csmSegment)) with initial := false }
        : Response).ReadNextSegment samplePage
      = some ((RESPSEGERR, rmmSegment, none),
          ({ NewResponse (Conn.receiving (rmmSegment ++ csmSegment)) with initial := false }
            : Response).advance csmSegment) ∧
    RESPSEGERR ≠ RESPSEGRMM :=
  ⟨by decide,
    ReadNextSegment_REQMOD samplePage
      { NewResponse (Conn.receiving (rmmSegment ++ csmSegment)) with initial := false }
      rmmSegment csmSegment (by decide) rfl rfl⟩

theorem ReadFull_ok_length (c c1 : Conn) (n : Nat) (got : List Byte)
    (h : c.ReadFull n = (got, none, c1)) : c1.unread.length + n = c.unread.length := by
  unfold Conn.ReadFull at h
  split at h
  · rename_i h0
    simp only [Prod.mk.injEq, true_and] at h
    rw [← h.2, h0]
    rfl
  · split at h
    · rename_i hle
      simp only [Prod.mk.injEq, true_and] at h
      rw [← h.2]
      simp only [List.length_drop]
      omega
    · split at h <;> simp at h

theorem readTotal_length (r r1 : Response) (h : r.readTotal = (r1, none)) :
    r1.reader.unread.length ≤ r.reader.unread.length := by
  unfold Response.readTotal at h
  split at h
  · split at h
    · simp at h
    · rename_i got c heq
      have := ReadFull_ok_length _ _ _ _ heq
      simp only [Prod.mk.injEq, and_true] at h
      rw [← h]
      simp only
      omega
  · simp only [Prod.mk.injEq, and_true] at h
    rw [h]

theorem ReadNextSegment_consumes (cp : CodePage) (r r1 : Response) (t : RespSegType)
    (d : List Byte) (h : r.ReadNextSegment cp = some ((t, d, none), r1)) :
    r1.reader.unread.length + 2 ≤ r.reader.unread.length := by
  unfold Response.ReadNextSegment at h
  split at h
  · simp at h
  · rename_i r0 hr0
    have h0 := readTotal_length r r0 hr0
    split at h
    · simp at h
    · rename_i got c hc
      have h2 := ReadFull_ok_length _ _ _ _ hc
      simp only at h
      split at h
      · simp at h
      · split at h
        · simp at h
        · rename_i got2 c2 hc2
          have h3 := ReadFull_ok_length _ _ _ _ hc2
          simp only [Option.some.injEq, Prod.mk.injEq] at h
          rw [← h.2]
          simp only
          omega

theorem route_reader (r : Response) (t : RespSegType) (d : List Byte) :
    (r.route t d).1.reader = r.reader := by
  unfold Response.route
  split_ifs <;> rfl

theorem readLoop_fuel (cp : CodePage) (fuel : Nat) :
    ∀ r : Response, r.reader.unread.length < fuel → Response.readLoop cp fuel r ≠ Run.fuelOut := by
  induction fuel with
  | zero => intro r h; omega
  | succ f ih =>
    intro r hlt
    unfold Response.readLoop
    split
    · simp
    · simp
    · rename_i t d r1 heq
      have hc := ReadNextSegment_consumes cp r r1 t d heq
      split
      · simp
      · rename_i r2 hr2
        apply ih
        have := route_reader r1 t d
        rw [hr2] at this
        simp only at this
        rw [this]
        omega

/-- The fuel that `readAllSegments` gives its loop is never spent: on every
response the call returns or panics. -/
theorem readAllSegments_total (cp : CodePage) (r : Response) :
    r.readAllSegments cp ≠ Run.fuelOut :=
  readLoop_fuel cp _ r (Nat.lt_succ_self _)

/-! ## The response getters -/

/-- What `readAllSegments` and `Out` do on a fresh response whose first segment
carries `*REQMOD*`: reading ends there, with the segment in the RSM slot. -/
theorem Out_after_REQMOD (cp : CodePage) (c : Conn) (tl rmm rest : List Byte) (asc : Bool)
    (htl : tl.length = 4) (hrmm : IsTokenSegment cp (ascii "*REQMOD*") rmm)
    (hrd : c.unread = tl ++ rmm ++ rest) :
    (NewResponse c).Out cp asc
      = Run.ret (([], some (Err.ErrIMSConnect
            (Uint32 (RespRSM.zero.UnmarshalBinary rmm).1.RetCode.val)
            (Uint32 (RespRSM.zero.UnmarshalBinary rmm).1.RsnCode.val))),
          { NewResponse { c with unread := rest } with
            initial := false, length := Uint32 tl, rsm := some rmm,
            retCode := Uint32 (RespRSM.zero.UnmarshalBinary rmm).1.RetCode.val,
            rsnCode := Uint32 (RespRSM.zero.UnmarshalBinary rmm).1.RsnCode.val }) := by
  have hall := readAllSegments_stream cp c tl [] rmm rest htl (by simp) hrmm.1
    (by intro q; rw [segTypeOf_REQMOD cp rmm hrmm, route_ERR]) (by simpa using hrd)
  rw [segTypeOf_REQMOD cp rmm hrmm, route_ERR] at hall
  unfold Response.Out
  rw [hall]
  simp [Response.advance, NewResponse]

/-- C11, as the code behaves. On a fresh response whose stream is a 4-byte total
length, a `*REQMOD*` segment of at least 20 bytes, data segments and a `*CSMOKY*`
segment, `Out` stops at the `*REQMOD*` segment and returns no data and the error
built from bytes 12..16 and 16..20 of that segment (the first and second half of
the mod name); the RMM slot stays empty, so that `ModName` then returns the empty
string and `ErrSegmentNotPresent`. -/
theorem Out_ModName_REQMOD (cp : CodePage) (c : Conn) (tl rmm : List Byte)
    (ds : List (List Byte)) (csm rest : List Byte) (asc : Bool)
    (htl : tl.length = 4) (hrmm : IsTokenSegment cp (ascii "*REQMOD*") rmm)
    (h20 : 20 ≤ rmm.length)
    (hrd : c.unread = tl ++ rmm ++ ds.flatten ++ csm ++ rest) :
    ∃ r1 : Response,
      (NewResponse c).Out cp asc
        = Run.ret (([], some (Err.ErrIMSConnect (Uint32 (slice rmm 12 16))
            (Uint32 (slice rmm 16 20)))), r1) ∧
      r1.rmm = none ∧ r1.rsm = some rmm ∧ r1.data = [] ∧
      r1.ModName cp = ([], some Err.ErrSegmentNotPresent) := by
  have h := Out_after_REQMOD cp c tl rmm (ds.flatten ++ csm ++ rest) asc htl hrmm
    (by simpa [List.append_assoc] using hrd)
  obtain ⟨e1, e2, _⟩ := UnmarshalBinary_RSM rmm h20
  rw [e1, e2] at h
  exact ⟨_, h, rfl, rfl, rfl, rfl⟩

/-- C11, at the stream `00 00 00 2C`, `*REQMOD*` with "MODNAME1", "PONG",
`*CSMOKY*`: the error carries the codes 0xD4D6C4D5 and 0xC1D4C5F1. -/
theorem Out_ModName_REQMOD_witness :
    IsTokenSegment samplePage (ascii "*REQMOD*") rmmSegment ∧ 20 ≤ rmmSegment.length ∧
    ∃ r1 : Response,
      (NewResponse (Conn.receiving ([0x00, 0x00, 0x00, 0x2C] ++ rmmSegment
          ++ [pongSegment].flatten ++ csmSegment ++ []))).Out samplePage true
        = Run.ret (([], some (Err.ErrIMSConnect 3570844885 3251946993)), r1) ∧
      r1.ModName samplePage = ([], some Err.ErrSegmentNotPresent) := by
  have hrmm : IsTokenSegment samplePage (ascii "*REQMOD*") rmmSegment := by decide
  obtain ⟨r1, h1, _, _, _, h5⟩ := Out_ModName_REQMOD samplePage
    (Conn.receiving ([0x00, 0x00, 0x00, 0x2C] ++ rmmSegment ++ [pongSegment].flatten
      ++ csmSegment ++ []))
    [0x00, 0x00, 0x00, 0x2C] rmmSegment [pongSegment] csmSegment [] true rfl hrmm
    (by decide) rfl
  exact ⟨hrmm, by decide, r1, h1, h5⟩

theorem route_advance (r : Response) (u : List Byte) (t : RespSegType) (d : List Byte) :
    (r.advance u).route t d = ((r.route t d).1.advance u, (r.route t d).2) := by
  unfold Response.route Response.advance
  split_ifs <;> rfl

theorem advance_advance (r : Response) (u v : List Byte) :
    (r.advance u).advance v = r.advance v := rfl

theorem absorb_advance (cp : CodePage) (ss : List (List Byte)) :
    ∀ (q : Response) (u : List Byte),
      (q.advance u).absorb cp ss = (q.absorb cp ss).advance u := by
  induction ss with
  | nil => intro q u; rfl
  | cons x ss ihs =>
    intro q u
    simp only [Response.absorb, List.foldl_cons]
    rw [route_advance]
    exact ihs _ u

/-- The loop of `readAllSegments` on a stream of segments at which reading goes
on, closed by a segment of a terminating type. -/
theorem readLoop_passing (cp : CodePage) (segs : List (List Byte)) :
    ∀ (r : Response) (term rest : List Byte) (fuel : Nat),
      (∀ s ∈ segs, IsSegment s ∧
        ∀ q : Response, (q.route (segTypeOf cp s s.length) s).2 = false) →
      IsSegment term →
      (∀ q : Response, (q.route (segTypeOf cp term term.length) term).2 = true) →
      r.initial = false → r.reader.unread = segs.flatten ++ term ++ rest →
      segs.length < fuel →
      Response.readLoop cp fuel r
        = Run.ret (none,
            (((r.absorb cp segs).advance rest).route
              (segTypeOf cp term term.length) term).1) := by
  induction segs with
  | nil =>
    intro r term rest fuel _ hterm hend hi hrd hfuel
    obtain ⟨f, rfl⟩ : ∃ f, fuel = f + 1 := ⟨fuel - 1, by omega⟩
    have hstep := ReadNextSegment_segment cp r term rest (by have := hterm.1; omega) hterm.2 hi
      (by simpa using hrd)
    have hq := hend (r.advance rest)
    unfold Response.readLoop
    rw [hstep]
    simp only [Response.absorb, List.foldl_nil]
    split
    · rename_i r2 heq
      rw [heq]
    · rename_i r2 heq
      rw [heq] at hq
      simp at hq
  | cons d segs ih =>
    intro r term rest fuel hsegs hterm hend hi hrd hfuel
    obtain ⟨f, rfl⟩ : ∃ f, fuel = f + 1 := ⟨fuel - 1, by omega⟩
    have hd := hsegs d (List.mem_cons_self _ _)
    have hstep := ReadNextSegment_segment cp r d (segs.flatten ++ term ++ rest)
      (by have := hd.1.1; omega) hd.1.2 hi (by simpa using hrd)
    have hgo := hd.2 (r.advance (segs.flatten ++ term ++ rest))
    have hinit : ∀ (q : Response) (t : RespSegType) (x : List Byte),
        (q.route t x).1.initial = q.initial := by
      intro q t x
      unfold Response.route
      split_ifs <;> rfl
    unfold Response.readLoop
    rw [hstep]
    simp only
    split
    · rename_i r2 heq
      rw [heq] at hgo
      simp at hgo
    · rename_i r2 heq
      have hr2 : r2 = ((r.route (segTypeOf cp d d.length) d).1).advance
          (segs.flatten ++ term ++ rest) := by
        have := route_advance r (segs.flatten ++ term ++ rest) (segTypeOf cp d d.length) d
        rw [heq] at this
        exact (Prod.mk.inj this).1
      have := ih r2 term rest f (fun s hs => hsegs s (List.mem_cons_of_mem _ hs)) hterm hend
        (by rw [hr2]; simp only [Response.advance]; rw [hinit]; exact hi)
        (by rw [hr2]; rfl) (by simpa using hfuel)
      rw [this, hr2]
      rw [absorb_advance, advance_advance]
      rfl

/-- `readAllSegments` on a fresh response whose stream is a total length,
segments at which reading goes on and a closing segment of a terminating type. -/
theorem readAllSegments_passing (cp : CodePage) (c : Conn) (tl : List Byte)
    (segs : List (List Byte)) (term rest : List Byte)
    (htl : tl.length = 4)
    (hsegs : ∀ s ∈ segs, IsSegment s ∧
      ∀ q : Response, (q.route (segTypeOf cp s s.length) s).2 = false)
    (hterm : IsSegment term)
    (hend : ∀ q : Response, (q.route (segTypeOf cp term term.length) term).2 = true)
    (hrd : c.unread = tl ++ segs.flatten ++ term ++ rest) :
    (NewResponse c).readAllSegments cp
      = Run.ret (none,
          (((({ NewResponse c with initial := false, length := Uint32 tl }
              : Response).absorb cp segs).advance rest).route
            (segTypeOf cp term term.length) term).1) := by
  unfold Response.readAllSegments
  have hrd2 : (NewResponse c).reader.unread = tl ++ (segs.flatten ++ term ++ rest) := by
    simp [NewResponse, hrd]
  rw [readLoop_initial cp (NewResponse c) tl _ _ rfl htl hrd2]
  have hfuel : segs.length < (NewResponse c).reader.unread.length + 1 := by
    have := length_le_flatten segs (fun s hs => by have := (hsegs s hs).1.1; omega)
    rw [hrd2]
    simp only [List.length_append]
    omega
  rw [readLoop_passing cp segs _ term rest _ hsegs hterm hend rfl rfl hfuel]
  show Run.ret (none,
      ((((({ NewResponse c with initial := false, length := Uint32 tl } : Response).advance
          (segs.flatten ++ term ++ rest)).absorb cp segs).advance rest).route
        (segTypeOf cp term term.length) term).1) = _
  rw [absorb_advance, advance_advance]

theorem segTypeOf_GENCID (cp : CodePage) (s : List Byte)
    (h : IsTokenSegment cp (ascii "*GENCID*") s) : segTypeOf cp s s.length = RESPSEGCID := by
  rw [segTypeOf_token cp _ s h]
  obtain ⟨_, h2, h3, _⟩ := tokens_distinct
  simp [h2, h3]

theorem route_CID (r : Response) (d : List Byte) :
    r.route RESPSEGCID d = ({ r with cid := some d }, false) := by
  simp [Response.route, RESPSEGERR, RESPSEGCT, RESPSEGRMM, RESPSEGCID]

theorem absorb_data (cp : CodePage) (ds : List (List Byte)) :
    ∀ r : Response, (∀ s ∈ ds, IsDataSegment cp s) →
      r.absorb cp ds = { r with data := r.data ++ ds } := by
  induction ds with
  | nil => intro r _; simp [Response.absorb]
  | cons d ds ih =>
    intro r h
    have hd := h d (List.mem_cons_self _ _)
    have := ih ({ r with data := r.data ++ [d] }) (fun s hs => h s (List.mem_cons_of_mem _ hs))
    simp only [Response.absorb, List.foldl_cons, segTypeOf_data cp d hd, route_data] at this ⊢
    rw [this]
    simp

theorem passing_data (cp : CodePage) (s : List Byte) (h : IsDataSegment cp s) :
    IsSegment s ∧ ∀ q : Response, (q.route (segTypeOf cp s s.length) s).2 = false :=
  ⟨h.1, fun q => by rw [segTypeOf_data cp s h, route_data]⟩

theorem passing_GENCID (cp : CodePage) (s : List Byte)
    (h : IsTokenSegment cp (ascii "*GENCID*") s) :
    IsSegment s ∧ ∀ q : Response, (q.route (segTypeOf cp s s.length) s).2 = false :=
  ⟨h.1, fun q => by rw [segTypeOf_GENCID cp s h, route_CID]⟩

theorem UnmarshalBinary_CID (d : List Byte) (h : 20 ≤ d.length) :
    (RespCID.zero.UnmarshalBinary d).1.ClientID.val = slice d 12 20 ∧
    (RespCID.zero.UnmarshalBinary d).2 = none := by
  have hge : d.length ≥ 20 := h
  simp only [RespCID.UnmarshalBinary, hge, if_true, Bytes.copy, RespCID.zero, Bytes.zero]
  refine ⟨copy_full _ _ ?_, trivial⟩
  rw [length_slice _ _ _ (by omega)]; rfl

/-- The client id after a read that meets no `*REQMOD*` segment. On a fresh
response whose stream is a total length, data segments, a `*GENCID*` segment of
at least 20 bytes, data segments and a `*CSMOKY*` segment, `readAllSegments`
returns no error and `ClientID` then returns `E2A` of bytes 12..20 of the
`*GENCID*` segment; without the `*GENCID*` segment it returns the empty string
and `ErrSegmentNotPresent`. -/
theorem ClientID_after_read (cp : CodePage) (c : Conn) (tl : List Byte)
    (pre post : List (List Byte)) (cid csm rest : List Byte)
    (htl : tl.length = 4) (hpre : ∀ s ∈ pre, IsDataSegment cp s)
    (hpost : ∀ s ∈ post, IsDataSegment cp s)
    (hcid : IsTokenSegment cp (ascii "*GENCID*") cid) (h20 : 20 ≤ cid.length)
    (hcsm : IsTokenSegment cp (ascii "*CSMOKY*") csm) :
    (c.unread = tl ++ (pre ++ [cid] ++ post).flatten ++ csm ++ rest →
      ∃ r1 : Response, (NewResponse c).readAllSegments cp = Run.ret (none, r1) ∧
        r1.ClientID cp = (E2A cp (slice cid 12 20), none)) ∧
    (c.unread = tl ++ (pre ++ post).flatten ++ csm ++ rest →
      ∃ r1 : Response, (NewResponse c).readAllSegments cp = Run.ret (none, r1) ∧
        r1.ClientID cp = ([], some Err.ErrSegmentNotPresent)) := by
  have hend : ∀ q : Response, (q.route (segTypeOf cp csm csm.length) csm).2 = true := by
    intro q; rw [segTypeOf_CSM cp csm hcsm, route_CSM]
  constructor
  · intro hrd
    have hsegs : ∀ s ∈ pre ++ [cid] ++ post, IsSegment s ∧
        ∀ q : Response, (q.route (segTypeOf cp s s.length) s).2 = false := by
      intro s hs
      simp only [List.mem_append, List.mem_singleton] at hs
      rcases hs with (h | h) | h
      · exact passing_data cp s (hpre s h)
      · subst h; exact passing_GENCID cp s hcid
      · exact passing_data cp s (hpost s h)
    have hall := readAllSegments_passing cp c tl _ csm rest htl hsegs hcsm.1 hend hrd
    refine ⟨_, hall, ?_⟩
    rw [segTypeOf_CSM cp csm hcsm, route_CSM]
    simp only [Response.absorb, List.foldl_append, List.foldl_cons, List.foldl_nil,
      segTypeOf_GENCID cp cid hcid, route_CID]
    have e1 := absorb_data cp pre
      ({ NewResponse c with initial := false, length := Uint32 tl } : Response) hpre
    simp only [Response.absorb] at e1
    rw [e1]
    have e2 := absorb_data cp post
      ({ ({ ({ NewResponse c with initial := false, length := Uint32 tl } : Response) with
          data := ({ NewResponse c with initial := false, length := Uint32 tl }
            : Response).data ++ pre } : Response) with cid := some cid }) hpost
    simp only [Response.absorb] at e2
    rw [e2]
    simp [Response.ClientID, Response.advance, (UnmarshalBinary_CID cid h20).1]
  · intro hrd
    have hsegs : ∀ s ∈ pre ++ post, IsSegment s ∧
        ∀ q : Response, (q.route (segTypeOf cp s s.length) s).2 = false := by
      intro s hs
      rcases List.mem_append.mp hs with h | h
      · exact passing_data cp s (hpre s h)
      · exact passing_data cp s (hpost s h)
    have hall := readAllSegments_passing cp c tl _ csm rest htl hsegs hcsm.1 hend hrd
    refine ⟨_, hall, ?_⟩
    rw [segTypeOf_CSM cp csm hcsm, route_CSM]
    have e1 := absorb_data cp (pre ++ post)
      ({ NewResponse c with initial := false, length := Uint32 tl } : Response)
      (by
        intro s hs
        rcases List.mem_append.mp hs with h | h
        · exact hpre s h
        · exact hpost s h)
    rw [e1]
    simp [Response.ClientID, Response.advance, NewResponse]

/-- C12, as the code behaves. On a fresh response whose stream is a 4-byte total
length, a `*REQMOD*` segment, a `*GENCID*` segment of at least 20 bytes, data
segments and a `*CSMOKY*` segment, `Out` stops at the `*REQMOD*` segment: the
`*GENCID*` segment is never read, the CID slot stays empty and `ClientID` returns
the empty string and `ErrSegmentNotPresent` instead of `E2A` of bytes 12..20 of
the `*GENCID*` segment. -/
theorem ClientID_after_REQMOD (cp : CodePage) (c : Conn) (tl rmm cid : List Byte)
    (ds : List (List Byte)) (csm rest : List Byte) (asc : Bool)
    (htl : tl.length = 4) (hrmm : IsTokenSegment cp (ascii "*REQMOD*") rmm)
    (hcid : IsTokenSegment cp (ascii "*GENCID*") cid) (h20 : 20 ≤ cid.length)
    (hrd : c.unread = tl ++ rmm ++ cid ++ ds.flatten ++ csm ++ rest) :
    ∃ (res : List (List Byte) × Option Err) (r1 : Response),
      (NewResponse c).Out cp asc = Run.ret (res, r1) ∧
      r1.cid = none ∧ r1.reader.unread = cid ++ ds.flatten ++ csm ++ rest ∧
      r1.ClientID cp = ([], some Err.ErrSegmentNotPresent) := by
  have h := Out_after_REQMOD cp c tl rmm (cid ++ ds.flatten ++ csm ++ rest) asc htl hrmm
    (by simpa [List.append_assoc] using hrd)
  exact ⟨_, _, h, rfl, rfl, rfl⟩

/-- C12, at the stream `00 00 00 40`, `*REQMOD*`, `*GENCID*` with "CLIENT01",
"PONG", `*CSMOKY*`. -/
theorem ClientID_after_REQMOD_witness :
    IsTokenSegment samplePage (ascii "*REQMOD*") rmmSegment ∧
    IsTokenSegment samplePage (ascii "*GENCID*") cidSegment ∧ 20 ≤ cidSegment.length ∧
    E2A samplePage (slice cidSegment 12 20) = ascii "CLIENT01" ∧
    ∃ (res : List (List Byte) × Option Err) (r1 : Response),
      (NewResponse (Conn.receiving ([0x00, 0x00, 0x00, 0x40] ++ rmmSegment ++ cidSegment
          ++ [pongSegment].flatten ++ csmSegment ++ []))).Out samplePage true
        = Run.ret (res, r1) ∧
      r1.ClientID samplePage = ([], some Err.ErrSegmentNotPresent) := by
  have hrmm : IsTokenSegment samplePage (ascii "*REQMOD*") rmmSegment := by decide
  have hcid : IsTokenSegment samplePage (ascii "*GENCID*") cidSegment := by decide
  obtain ⟨res, r1, h1, _, _, h4⟩ := ClientID_after_REQMOD samplePage
    (Conn.receiving ([0x00, 0x00, 0x00, 0x40] ++ rmmSegment ++ cidSegment
      ++ [pongSegment].flatten ++ csmSegment ++ []))
    [0x00, 0x00, 0x00, 0x40] rmmSegment cidSegment [pongSegment] csmSegment [] true rfl hrmm
    hcid (by decide) rfl
  exact ⟨hrmm, hcid, by decide, by decide, res, r1, h1, h4⟩

/-! ## Contexts and mode facades -/

theorem sendSegments_false (cp : CodePage) (segs : List (List Byte)) (r : Request) :
    sendSegments cp false r segs = r := by
  induction segs generalizing r with
  | nil => rfl
  | cons s segs ih => simp [sendSegments, ih]

theorem sendSegments_true (cp : CodePage) (segs : List (List Byte)) (r : Request) :
    sendSegments cp true r segs = (segs.map (A2E cp)).foldl Request.AddSegment r := by
  induction segs generalizing r with
  | nil => rfl
  | cons s segs ih => simp [sendSegments, ih]

theorem send_some (cp : CodePage) (ctx : Context) (P : IRMHeader) (c : Conn)
    (segs : List (List Byte)) (asc : Bool)
    (hirm : ctx.irm = some P) (hconn : ctx.session.conn = some c) :
    send cp ctx segs asc
      = some ({ ctx with session := { ctx.session with
                  conn := some ((sendSegments cp asc (NewRequest P) segs).Write c).1 } },
              ((sendSegments cp asc (NewRequest P) segs).Write c).2) := by
  unfold send
  rw [hirm, hconn]

theorem header_restore_nak (P Q : IRMHeader)
    (h : ∀ a b d, ({ Q with F0 := a, NakRsn := b, F4 := d } : IRMHeader)
      = ({ P with F0 := a, NakRsn := b, F4 := d } : IRMHeader)) :
    ({ Q with F0 := P.F0, NakRsn := P.NakRsn, F4 := P.F4 } : IRMHeader) = P := by
  rw [h]

/-- What `ack` returns on a context with a prefix and a connection. -/
theorem ack_some (cp : CodePage) (ctx : Context) (P : IRMHeader) (c : Conn)
    (hirm : ctx.irm = some P) (hconn : ctx.session.conn = some c) :
    ack cp ctx
      = some ({ ctx with
                session := { ctx.session with
                  conn := some ((NewRequest { P with F4 := IRMF4ACK }).Write c).1 } },
              ((NewRequest { P with F4 := IRMF4ACK }).Write c).2) := by
  unfold ack
  rw [hirm]
  simp only
  have hs := send_some cp { ctx with irm := some { P with F4 := IRMF4ACK } }
    { P with F4 := IRMF4ACK } c [] false rfl hconn
  rw [hs]
  simp only [sendSegments, Option.map_some']

theorem nak_header (P : IRMHeader) (reason : Nat) (retainMsg : Bool) :
    (if reason ≠ 0 then
      ({ (if retainMsg then ({ ({ P with F4 := IRMF4NACK } : IRMHeader) with
                F0 := IRMF0SYNCNAK } : IRMHeader)
            else ({ P with F4 := IRMF4NACK } : IRMHeader)) with
          F0 := (if retainMsg then ({ ({ P with F4 := IRMF4NACK } : IRMHeader) with
                F0 := IRMF0SYNCNAK } : IRMHeader)
            else ({ P with F4 := IRMF4NACK } : IRMHeader)).F0 ||| IRMF0NAKRSN,
          NakRsn := (if retainMsg then ({ ({ P with F4 := IRMF4NACK } : IRMHeader) with
                F0 := IRMF0SYNCNAK } : IRMHeader)
            else ({ P with F4 := IRMF4NACK } : IRMHeader)).NakRsn.copy (PutUint16 reason) }
        : IRMHeader)
     else (if retainMsg then ({ ({ P with F4 := IRMF4NACK } : IRMHeader) with
                F0 := IRMF0SYNCNAK } : IRMHeader)
            else ({ P with F4 := IRMF4NACK } : IRMHeader)))
      = nakHeader P reason retainMsg := by
  unfold nakHeader
  cases retainMsg <;> by_cases h : reason = 0 <;> simp [h]

/-- What `nak` returns on a context with a prefix and a connection. -/
theorem nak_some (cp : CodePage) (ctx : Context) (P : IRMHeader) (c : Conn)
    (reason : Nat) (retainMsg : Bool)
    (hirm : ctx.irm = some P) (hconn : ctx.session.conn = some c) :
    nak cp ctx reason retainMsg
      = some ({ ctx with
                session := { ctx.session with
                  conn := some ((NewRequest (nakHeader P reason retainMsg)).Write c).1 } },
              ((NewRequest (nakHeader P reason retainMsg)).Write c).2) := by
  unfold nak
  rw [hirm]
  simp only
  rw [nak_header]
  have hs := send_some cp { ctx with irm := some (nakHeader P reason retainMsg) }
    (nakHeader P reason retainMsg) c [] false rfl hconn
  rw [hs]
  simp only [sendSegments, Option.map_some']
  have hr : ({ nakHeader P reason retainMsg with F0 := P.F0, NakRsn := P.NakRsn, F4 := P.F4 }
      : IRMHeader) = P := by
    apply header_restore_nak
    intro a b d
    unfold nakHeader
    rfl
  rw [hr]

theorem MarshalBinary_getElem? (irm : IRMHeader) (hL : Uint16 irm.Length.val ≤ 120)
    (e : Nat × List Byte) (he : e ∈ irm.layout) (i : Nat) (hi : i < e.2.length)
    (hlt : e.1 + i < Uint16 irm.Length.val + 4) :
    irm.MarshalBinary.1[e.1 + i]? = e.2[i]? := by
  rw [MarshalBinary_eq irm hL]
  simp only
  rw [List.getElem?_take_of_lt hlt]
  have := getElem?_tableBytes irm.layout 0 (placed_layout irm) e he i hi
  simpa using this

theorem length_MarshalBinary (irm : IRMHeader) (hL : Uint16 irm.Length.val ≤ 120) :
    irm.MarshalBinary.1.length = Uint16 irm.Length.val + 4 := by
  rw [MarshalBinary_eq irm hL]
  simp only [List.length_take, length_tableBytes_layout]
  omega

theorem frame_getElem? (t : Nat) (M rest : List Byte) (k : Nat) (hk : 4 ≤ k)
    (hM : k < M.length) :
    ((PutUint32 t ++ M.drop 4) ++ rest)[k]? = M[k]? := by
  have h4 : (PutUint32 t).length = 4 := rfl
  rw [List.getElem?_append_left (by simp only [List.length_append, List.length_drop, h4]; omega)]
  rw [List.getElem?_append_right (by omega), h4, List.getElem?_drop]
  congr 1
  omega

theorem slice_of_getElem? (l src : List Byte) (a : Nat)
    (h : ∀ i, i < src.length → l[a + i]? = src[i]?) : slice l a (a + src.length) = src := by
  apply List.ext_getElem?
  intro i
  simp only [slice, List.getElem?_drop]
  by_cases hi : i < src.length
  · rw [List.getElem?_take_of_lt (by omega), h i hi]
  · have h1 : (List.take (a + src.length) l)[a + i]? = none := by
      apply List.getElem?_eq_none
      simp only [List.length_take]
      omega
    have h2 : src[i]? = none := List.getElem?_eq_none (by omega)
    rw [h1, h2]

/-- A request without segments written on a connection on which no write
fails: no error, and the bytes sent are the prefix, with the total length in its
first four bytes, and the trailer. -/
theorem NewRequest_Write (P : IRMHeader) (c : Conn) (hL : Uint16 P.Length.val ≤ 120)
    (hc : c.faults = []) :
    ((NewRequest P).Write c).2 = none ∧
    ((NewRequest P).Write c).1.sent
      = c.sent ++ ((PutUint32 (4 + Uint16 P.Length.val + 4) ++ P.MarshalBinary.1.drop 4)
          ++ [0x00, 0x04, 0x00, 0x00]) := by
  have hok := requestWrite_noFaults (NewRequest P) c hc
  have hh := (header_eq (NewRequest P) hL).1
  have hlen : (NewRequest P).length = 4 + Uint16 P.Length.val + 4 := by
    simp only [NewRequest]
    omega
  refine ⟨hok, ?_⟩
  rw [requestWrite_ok _ _ hok, hh, hlen]
  simp [NewRequest, RequestTrailer]

/-- C13. `ack` and `nak` leave the prefix as it was: on every context whose prefix
is `P`, for every state of the connection (so whether the write succeeds or
fails), every reason and every `retainMsg`, both calls return and the prefix of
the context is `P` afterwards, in every field; the same holds through the
facades of the send-receive and receive-only modes. -/
theorem ack_nak_restore (cp : CodePage) (ctx : Context) (P : IRMHeader) (c : Conn)
    (reason : Nat) (retainMsg : Bool)
    (hirm : ctx.irm = some P) (hconn : ctx.session.conn = some c) :
    (∃ (ctx1 : Context) (err : Option Err), ack cp ctx = some (ctx1, err) ∧
      ctx1.irm = some P ∧ err = ((NewRequest { P with F4 := IRMF4ACK }).Write c).2) ∧
    (∃ (ctx1 : Context) (err : Option Err), nak cp ctx reason retainMsg = some (ctx1, err) ∧
      ctx1.irm = some P ∧ err = ((NewRequest (nakHeader P reason retainMsg)).Write c).2) ∧
    (∀ b : Bool, ∃ (s1 : ctxSendRecv) (err : Option Err),
      ctxSendRecv.Ack cp ⟨ctx, b⟩ = some (s1, err) ∧ s1.ctx.irm = some P) ∧
    (∀ b : Bool, ∃ (s1 : ctxSendRecv) (err : Option Err),
      ctxSendRecv.Nak cp ⟨ctx, b⟩ reason retainMsg = some (s1, err) ∧ s1.ctx.irm = some P) ∧
    (∀ b : Bool, ∃ (s1 : ctxRecvOnly) (err : Option Err),
      ctxRecvOnly.Ack cp ⟨ctx, b⟩ = some (s1, err) ∧ s1.ctx.irm = some P) ∧
    (∀ b : Bool, ∃ (s1 : ctxRecvOnly) (err : Option Err),
      ctxRecvOnly.Nak cp ⟨ctx, b⟩ reason retainMsg = some (s1, err) ∧ s1.ctx.irm = some P) := by
  have ha := ack_some cp ctx P c hirm hconn
  have hn := nak_some cp ctx P c reason retainMsg hirm hconn
  refine ⟨⟨_, _, ha, hirm, rfl⟩, ⟨_, _, hn, hirm, rfl⟩, ?_, ?_, ?_, ?_⟩
  · intro b
    exact ⟨_, _, by simp only [ctxSendRecv.Ack, ha]; rfl, hirm⟩
  · intro b
    exact ⟨_, _, by simp only [ctxSendRecv.Nak, hn]; rfl, hirm⟩
  · intro b
    exact ⟨_, _, by simp only [ctxRecvOnly.Ack, ha]; rfl, hirm⟩
  · intro b
    exact ⟨_, _, by simp only [ctxRecvOnly.Nak, hn]; rfl, hirm⟩

/-- C13, on a context whose connection fails at the next write. -/
theorem ack_nak_restore_witness :
    (Context.holding sampleHeader Conn.failing).irm = some sampleHeader ∧
    (Context.holding sampleHeader Conn.failing).session.conn = some Conn.failing ∧
    (∃ (ctx1 : Context) (err : Option Err),
      ack samplePage (Context.holding sampleHeader Conn.failing) = some (ctx1, err) ∧
      ctx1.irm = some sampleHeader) ∧
    (∃ (ctx1 : Context) (err : Option Err),
      nak samplePage (Context.holding sampleHeader Conn.failing) 42 true = some (ctx1, err) ∧
      ctx1.irm = some sampleHeader) := by
  obtain ⟨⟨a, e, h1, h2, _⟩, ⟨b, f, h3, h4, _⟩, _⟩ :=
    ack_nak_restore samplePage (Context.holding sampleHeader Conn.failing) sampleHeader
      Conn.failing 42 true rfl rfl
  exact ⟨rfl, rfl, ⟨a, e, h1, h2⟩, ⟨b, f, h3, h4⟩⟩

theorem nakHeader_Length (P : IRMHeader) (reason : Nat) (retainMsg : Bool) :
    (nakHeader P reason retainMsg).Length = P.Length := rfl

/-- What `nak` writes, for any prefix. On a context whose prefix is `P` (Length 80 or 96)
and whose connection accepts the write, `nak(reason, retainMsg)` transmits the
prefix followed directly by the trailer. In that prefix F4 (offset 35) is 0xD5
and NakRsn (offsets 16..17) is the reason big-endian when the reason is not
zero and `P.NakRsn` otherwise; F0 (offset 7) is `P.F0` only when `retainMsg` is
false: when `retainMsg` is true F0 is SYNCNAK itself (0x20), the bits of `P.F0`
being dropped; in both cases NAKRSN (0x10) is OR-ed in when the reason is not
zero. Every other byte is the byte of `P`, the prefix being the encoding of `P`
with these three fields replaced. -/
theorem nak_written (cp : CodePage) (ctx : Context) (P : IRMHeader) (c : Conn)
    (reason : Nat) (retainMsg : Bool)
    (hirm : ctx.irm = some P) (hconn : ctx.session.conn = some c) (hc : c.faults = [])
    (hL : Uint16 P.Length.val = 80 ∨ Uint16 P.Length.val = 96) (hr : reason < 65536) :
    ∃ (ctx1 : Context) (c1 : Conn) (pfx : List Byte),
      nak cp ctx reason retainMsg = some (ctx1, none) ∧
      ctx1.session.conn = some c1 ∧
      c1.sent = c.sent ++ (pfx ++ [0x00, 0x04, 0x00, 0x00]) ∧
      pfx = PutUint32 (4 + Uint16 P.Length.val + 4)
        ++ (nakHeader P reason retainMsg).MarshalBinary.1.drop 4 ∧
      pfx.length = 4 + Uint16 P.Length.val ∧
      pfx[35]? = some 0xD5 ∧
      pfx[7]? = some (if reason ≠ 0
        then (if retainMsg then IRMF0SYNCNAK else P.F0) ||| IRMF0NAKRSN
        else (if retainMsg then IRMF0SYNCNAK else P.F0)) ∧
      slice pfx 16 18 = (if reason ≠ 0 then PutUint16 reason else P.NakRsn.val) ∧
      (reason = 42 → retainMsg = true →
        pfx[7]? = some (IRMF0SYNCNAK ||| IRMF0NAKRSN) ∧ slice pfx 16 18 = [0x00, 0x2A]) := by
  have hL2 : Uint16 (nakHeader P reason retainMsg).Length.val ≤ 120 := by
    rw [nakHeader_Length]; omega
  have hn := nak_some cp ctx P c reason retainMsg hirm hconn
  obtain ⟨hok, hsent⟩ := NewRequest_Write (nakHeader P reason retainMsg) c hL2 hc
  rw [nakHeader_Length] at hsent
  have hlenM := length_MarshalBinary (nakHeader P reason retainMsg) hL2
  rw [nakHeader_Length] at hlenM
  have hget : ∀ (e : Nat × List Byte), e ∈ (nakHeader P reason retainMsg).layout →
      ∀ i, i < e.2.length → 4 ≤ e.1 + i → e.1 + i < Uint16 P.Length.val + 4 →
      (PutUint32 (4 + Uint16 P.Length.val + 4)
        ++ (nakHeader P reason retainMsg).MarshalBinary.1.drop 4)[e.1 + i]? = e.2[i]? := by
    intro e he i hi h4 hlt
    have h1 := frame_getElem? (4 + Uint16 P.Length.val + 4)
      (nakHeader P reason retainMsg).MarshalBinary.1 [] (e.1 + i) h4 (by omega)
    rw [List.append_nil] at h1
    rw [h1]
    exact MarshalBinary_getElem? _ hL2 e he i hi (by rw [nakHeader_Length]; exact hlt)
  have h35 := hget (35, [(nakHeader P reason retainMsg).F4])
    (by simp [IRMHeader.layout]) 0 (by simp) (by simp) (by simp only; omega)
  have h7 := hget (7, [(nakHeader P reason retainMsg).F0])
    (by simp [IRMHeader.layout]) 0 (by simp) (by simp) (by simp only; omega)
  have h16 : slice (PutUint32 (4 + Uint16 P.Length.val + 4)
        ++ (nakHeader P reason retainMsg).MarshalBinary.1.drop 4) 16 18
      = (nakHeader P reason retainMsg).NakRsn.val := by
    have hl := (nakHeader P reason retainMsg).NakRsn.property
    have := slice_of_getElem? (PutUint32 (4 + Uint16 P.Length.val + 4)
        ++ (nakHeader P reason retainMsg).MarshalBinary.1.drop 4)
      (nakHeader P reason retainMsg).NakRsn.val 16
      (by
        intro i hi
        exact hget (16, (nakHeader P reason retainMsg).NakRsn.val)
          (by simp [IRMHeader.layout]) i hi (by simp only; omega) (by simp only; omega))
    rw [hl] at this
    exact this
  have hF4 : (nakHeader P reason retainMsg).F4 = 0xD5 := rfl
  have hF0 : (nakHeader P reason retainMsg).F0 = (if reason ≠ 0
      then (if retainMsg then IRMF0SYNCNAK else P.F0) ||| IRMF0NAKRSN
      else (if retainMsg then IRMF0SYNCNAK else P.F0)) := rfl
  have hNak : (nakHeader P reason retainMsg).NakRsn.val
      = (if reason ≠ 0 then PutUint16 reason else P.NakRsn.val) := by
    have hp := P.NakRsn.property
    unfold nakHeader
    by_cases h0 : reason = 0
    · simp [h0]
    · simp only [ne_eq, h0, not_false_eq_true, if_true, Bytes.copy]
      exact copy_full _ _ (by rw [hp]; rfl)
  simp only [List.getElem?_cons_zero, Nat.add_zero] at h35 h7
  rw [hF4] at h35
  rw [hF0] at h7
  rw [hNak] at h16
  rw [hok] at hn
  refine ⟨_, _, _, hn, rfl, hsent, rfl, ?_, h35, h7, h16, ?_⟩
  · simp only [List.length_append, List.length_drop, hlenM]
    have : (PutUint32 (4 + Uint16 P.Length.val + 4)).length = 4 := rfl
    omega
  · intro h42 hret
    subst h42 hret
    refine ⟨by simpa using h7, ?_⟩
    rw [h16]
    simp [PutUint16]

theorem modeHeader_fields (cp : CodePage) (ctx : Context) :
    Uint16 (modeHeader cp ctx).Length.val = 80 ∧
    (modeHeader cp ctx).F0 = 0 ∧ (modeHeader cp ctx).F1 = 0 ∧ (modeHeader cp ctx).F2 = 0 ∧
    (modeHeader cp ctx).F3 = IRMF3CANCID ∧ (modeHeader cp ctx).F4 = 0 ∧
    (modeHeader cp ctx).F5 = IRMF5NTRNSL ∧
    (modeHeader cp ctx).DestID = (Bytes.zero 8).copy (A2E cp ctx.session.DataStore) := by
  refine ⟨?_, rfl, rfl, rfl, rfl, rfl, rfl, rfl⟩
  simp [modeHeader, IRMHeader.init, Uint16]

/-- The prefix after `WithSendRecv`, as a record over the mode header. -/
theorem WithSendRecv_irm (cp : CodePage) (ctx : Context) (checkAck withTpipe purge : Bool) :
    (ctx.WithSendRecv cp checkAck withTpipe purge).ctx.irm
      = some { modeHeader cp ctx with
          F1 := IRMF1CIDREQ ||| IRMF1MFSREQ
          F2 := if withTpipe then IRMF2CM0 else IRMF2CM1
          F3 := ((IRMF3CANCID ||| (if withTpipe then IRMF3IPURG ||| IRMF3SYNCNF else 0))
                  ||| (if checkAck then IRMF3SYNCNF else 0))
                  ||| (if purge then IRMF3PURGE else 0)
          F4 := IRMF4SENDRECV } ∧
    (ctx.WithSendRecv cp checkAck withTpipe purge).ctx.session = ctx.session := by
  refine ⟨?_, rfl⟩
  cases checkAck <;> cases withTpipe <;> cases purge <;>
    simp [Context.WithSendRecv, (modeHeader_fields cp ctx).2.2.2.2.1, Nat.lor_assoc]

/-- The prefix and the latch after `WithSendOnly`. -/
theorem WithSendOnly_irm (cp : CodePage) (ctx : Context) (ackRequired serial : Bool) :
    (ctx.WithSendOnly cp ackRequired serial).ctx.irm
      = some { modeHeader cp ctx with
          F2 := IRMF2CM0
          F3 := IRMF3CANCID ||| (if serial then IRMF3ORDER else 0)
          F4 := if ackRequired then IRMF4SENDONLY ||| IRMF4SNDONLYA else IRMF4SENDONLY } ∧
    (ctx.WithSendOnly cp ackRequired serial).ackRequired = ackRequired ∧
    (ctx.WithSendOnly cp ackRequired serial).ctx.session = ctx.session := by
  cases ackRequired <;> cases serial <;>
    simp [Context.WithSendOnly, (modeHeader_fields cp ctx).2.2.2.2.1]

/-- The prefix after `WithRecvOnly`. -/
theorem WithRecvOnly_irm (cp : CodePage) (ctx : Context) (singleMsg flow wait : Bool) :
    (ctx.WithRecvOnly cp singleMsg flow wait).ctx.irm
      = some { modeHeader cp ctx with
          F2 := IRMF2CM0
          F4 := IRMF4RESTPIPE
          F5 := IRMF5NTRNSL |||
            (if singleMsg && wait then IRMF5SNGLWT
             else if singleMsg && !wait then IRMF5SNGLNWT
             else if flow && wait then IRMF5AUTOFLOW
             else if flow && !wait then IRMF5NAUTFLOW
             else 0) } ∧
    (ctx.WithRecvOnly cp singleMsg flow wait).ctx.session = ctx.session := by
  refine ⟨?_, rfl⟩
  have h4 : (0 : Byte) ||| IRMF4RESTPIPE = IRMF4RESTPIPE := by decide
  cases singleMsg <;> cases flow <;> cases wait <;>
    simp [Context.WithRecvOnly, (modeHeader_fields cp ctx).2.2.2.2.2.1,
      (modeHeader_fields cp ctx).2.2.2.2.2.2.1, h4]

/-- C19. After `WithSendRecv(checkAck, withTpipe, purgeUndelivered)` the prefix
has F1 = CIDREQ|MFSREQ (0x60), F2 = CM0 (0x40) if `withTpipe` and CM1 (0x20)
otherwise, F4 = 0x40, and F3 = CANCID (0x80) OR-ed with IPURG|SYNCNF (0x21) iff
`withTpipe`, with SYNCNF (0x01) iff `checkAck` and with PURGE (0x04) iff
`purgeUndelivered`, and no other bit. -/
theorem WithSendRecv_flags (cp : CodePage) (ctx : Context)
    (checkAck withTpipe purgeUndelivered : Bool) :
    ∃ H : IRMHeader,
      (ctx.WithSendRecv cp checkAck withTpipe purgeUndelivered).ctx.irm = some H ∧
      H.F1 = IRMF1CIDREQ ||| IRMF1MFSREQ ∧ H.F1 = 0x60 ∧
      H.F2 = (if withTpipe then IRMF2CM0 else IRMF2CM1) ∧
      H.F2 = (if withTpipe then 0x40 else 0x20) ∧
      H.F4 = 0x40 ∧
      H.F3 = ((IRMF3CANCID ||| (if withTpipe then IRMF3IPURG ||| IRMF3SYNCNF else 0))
                ||| (if checkAck then IRMF3SYNCNF else 0))
                ||| (if purgeUndelivered then IRMF3PURGE else 0) ∧
      H.F3 = ((0x80 ||| (if withTpipe then 0x21 else 0))
                ||| (if checkAck then 0x01 else 0))
                ||| (if purgeUndelivered then 0x04 else 0) := by
  refine ⟨_, (WithSendRecv_irm cp ctx checkAck withTpipe purgeUndelivered).1, rfl, ?_, rfl, ?_,
    rfl, rfl, ?_⟩
  · dsimp only
    decide
  · cases withTpipe <;> rfl
  · cases withTpipe <;> cases checkAck <;> cases purgeUndelivered <;> dsimp only <;> decide

/-- C20. After `WithSendOnly(ackRequired, serialDelivery)` the prefix has F2 = CM0
(0x40), the ORDER bit (0x10) of F3 set if and only if `serialDelivery`, and F4 =
0xE2 when `ackRequired` is false and 0xE2 OR 0xD2 when it is true; the latch
`ackRequired` of the facade equals the argument. -/
theorem WithSendOnly_flags (cp : CodePage) (ctx : Context) (ackRequired serialDelivery : Bool) :
    ∃ H : IRMHeader,
      (ctx.WithSendOnly cp ackRequired serialDelivery).ctx.irm = some H ∧
      H.F2 = IRMF2CM0 ∧ H.F2 = 0x40 ∧
      (H.F3 &&& IRMF3ORDER = IRMF3ORDER ↔ serialDelivery = true) ∧ IRMF3ORDER = 0x10 ∧
      H.F3 = IRMF3CANCID ||| (if serialDelivery then IRMF3ORDER else 0) ∧
      H.F4 = (if ackRequired then 0xE2 ||| 0xD2 else 0xE2) ∧
      (ctx.WithSendOnly cp ackRequired serialDelivery).ackRequired = ackRequired := by
  obtain ⟨h1, h2, _⟩ := WithSendOnly_irm cp ctx ackRequired serialDelivery
  refine ⟨_, h1, rfl, rfl, ?_, rfl, rfl, ?_, h2⟩
  · cases serialDelivery <;> dsimp only <;> decide
  · cases ackRequired <;> rfl

theorem DestID_copy_short (cp : CodePage) (name : List Byte) (h : name.length ≤ 8) :
    ((Bytes.zero 8).copy (A2E cp name)).val
      = A2E cp name ++ List.replicate (8 - name.length) 0 := by
  simp only [Bytes.copy, Bytes.zero, copy, A2E, List.length_replicate, List.length_map,
    List.drop_replicate]
  rw [List.take_of_length_le (by simpa using h)]

theorem DestID_copy_long (cp : CodePage) (name : List Byte) (h : 8 ≤ name.length) :
    (Bytes.zero 8).copy (A2E cp name) = (Bytes.zero 8).copy (A2E cp (name.take 8)) ∧
    ((Bytes.zero 8).copy (A2E cp name)).val = A2E cp (name.take 8) := by
  have h1 : ((Bytes.zero 8).copy (A2E cp name)).val = A2E cp (name.take 8) := by
    simp only [Bytes.copy, Bytes.zero, copy, A2E, List.length_replicate, List.length_map,
      List.drop_replicate, List.map_take]
    have : 8 - name.length = 0 := by omega
    simp [this]
  have h2 : ((Bytes.zero 8).copy (A2E cp (name.take 8))).val = A2E cp (name.take 8) := by
    simp only [Bytes.copy, Bytes.zero, copy, A2E, List.length_replicate, List.length_map,
      List.drop_replicate, List.map_take, List.length_take]
    have : 8 - min 8 name.length = 0 := by omega
    simp [this]
  exact ⟨Subtype.ext (by rw [h1, h2]), h1⟩

theorem modeHeader_long (cp : CodePage) (ctx : Context) (h : 8 ≤ ctx.session.DataStore.length) :
    modeHeader cp ctx
      = modeHeader cp { ctx with session := { ctx.session with
          DataStore := ctx.session.DataStore.take 8 } } := by
  have hz : (IRMHeader.zero.init cp).DestID = Bytes.zero 8 := rfl
  simp only [modeHeader, hz]
  rw [(DestID_copy_long cp ctx.session.DataStore h).1]

/-- The DestID slot after each of the three mode selections. -/
theorem DestID_after_mode (cp : CodePage) (ctx : Context) :
    (∀ a b p : Bool, ∃ H : IRMHeader, (ctx.WithSendRecv cp a b p).ctx.irm = some H ∧
      H.DestID = (Bytes.zero 8).copy (A2E cp ctx.session.DataStore)) ∧
    (∀ a s : Bool, ∃ H : IRMHeader, (ctx.WithSendOnly cp a s).ctx.irm = some H ∧
      H.DestID = (Bytes.zero 8).copy (A2E cp ctx.session.DataStore)) ∧
    (∀ s f w : Bool, ∃ H : IRMHeader, (ctx.WithRecvOnly cp s f w).ctx.irm = some H ∧
      H.DestID = (Bytes.zero 8).copy (A2E cp ctx.session.DataStore)) :=
  ⟨fun a b p => ⟨_, (WithSendRecv_irm cp ctx a b p).1, rfl⟩,
   fun a s => ⟨_, (WithSendOnly_irm cp ctx a s).1, rfl⟩,
   fun s f w => ⟨_, (WithRecvOnly_irm cp ctx s f w).1, rfl⟩⟩

/-- C17 (amended). For every datastore name of at most 8 bytes, after selecting any
mode the DestID slot of the prefix holds the EBCDIC translation of the name
followed by zero bytes up to 8 bytes; for the datastore "IMSA" it holds
`A2E("IMSA")` followed by `00 00 00 00`. -/
theorem DestID_zero_padded (cp : CodePage) (ctx : Context)
    (hlen : ctx.session.DataStore.length ≤ 8) :
    (∀ a b p : Bool, ∃ H : IRMHeader, (ctx.WithSendRecv cp a b p).ctx.irm = some H ∧
      H.DestID.val = A2E cp ctx.session.DataStore
        ++ List.replicate (8 - ctx.session.DataStore.length) 0) ∧
    (∀ a s : Bool, ∃ H : IRMHeader, (ctx.WithSendOnly cp a s).ctx.irm = some H ∧
      H.DestID.val = A2E cp ctx.session.DataStore
        ++ List.replicate (8 - ctx.session.DataStore.length) 0) ∧
    (∀ s f w : Bool, ∃ H : IRMHeader, (ctx.WithRecvOnly cp s f w).ctx.irm = some H ∧
      H.DestID.val = A2E cp ctx.session.DataStore
        ++ List.replicate (8 - ctx.session.DataStore.length) 0) ∧
    (ctx.session.DataStore = ascii "IMSA" →
      A2E cp ctx.session.DataStore ++ List.replicate (8 - ctx.session.DataStore.length) 0
        = A2E cp (ascii "IMSA") ++ [0x00, 0x00, 0x00, 0x00]) := by
  obtain ⟨h1, h2, h3⟩ := DestID_after_mode cp ctx
  have hs := DestID_copy_short cp ctx.session.DataStore hlen
  refine ⟨?_, ?_, ?_, ?_⟩
  · intro a b p
    obtain ⟨H, e1, e2⟩ := h1 a b p
    exact ⟨H, e1, by rw [e2, hs]⟩
  · intro a s
    obtain ⟨H, e1, e2⟩ := h2 a s
    exact ⟨H, e1, by rw [e2, hs]⟩
  · intro s f w
    obtain ⟨H, e1, e2⟩ := h3 s f w
    exact ⟨H, e1, by rw [e2, hs]⟩
  · intro hname
    rw [hname]
    rfl

/-- C17 (amended), at the datastore "IMSA" on the sample code page. -/
theorem DestID_zero_padded_witness :
    (NewContext (Session.started (ascii "IMSA") Conn.idle)).session.DataStore.length ≤ 8 ∧
    ∃ H : IRMHeader,
      ((NewContext (Session.started (ascii "IMSA") Conn.idle)).WithRecvOnly samplePage
        true false true).ctx.irm = some H ∧
      H.DestID.val = A2E samplePage (ascii "IMSA") ++ List.replicate (8 - 4) 0 :=
  ⟨by decide,
    (DestID_zero_padded samplePage (NewContext (Session.started (ascii "IMSA") Conn.idle))
      (by decide)).2.2.1 true false true⟩

/-- C17 fails as stated: with the datastore "IMSA", after
`WithSendRecv(false, false, false)`, the DestID slot is `C9 D4 E2 C1 00 00 00 00`,
while `A2E("IMSA    ")` is `C9 D4 E2 C1 40 40 40 40`. -/
theorem DestID_not_space_padded :
    (ascii "IMSA").length ≤ 8 ∧
    A2E samplePage (ascii "IMSA    ") = [0xC9, 0xD4, 0xE2, 0xC1, 0x40, 0x40, 0x40, 0x40] ∧
    ∃ H : IRMHeader,
      ((NewContext (Session.started (ascii "IMSA") Conn.idle)).WithSendRecv samplePage
        false false false).ctx.irm = some H ∧
      H.DestID.val = [0xC9, 0xD4, 0xE2, 0xC1, 0x00, 0x00, 0x00, 0x00] ∧
      H.DestID.val ≠ A2E samplePage (ascii "IMSA    ") := by
  obtain ⟨H, e1, e2⟩ := (DestID_after_mode samplePage
    (NewContext (Session.started (ascii "IMSA") Conn.idle))).1 false false false
  have hv : H.DestID.val = [0xC9, 0xD4, 0xE2, 0xC1, 0x00, 0x00, 0x00, 0x00] := by
    rw [e2]
    decide
  refine ⟨by decide, by decide, H, e1, hv, ?_⟩
  rw [hv]
  decide

/-- C18. For every datastore name longer than 8 bytes, after selecting any mode the
DestID slot holds `A2E` of the first 8 bytes of the name, and the whole prefix
is the prefix that the same selection gives for the name cut to its first 8
bytes: the excess bytes affect no field. -/
theorem DestID_truncated (cp : CodePage) (ctx : Context)
    (hlen : 8 < ctx.session.DataStore.length) :
    (∀ a b p : Bool, ∃ H : IRMHeader, (ctx.WithSendRecv cp a b p).ctx.irm = some H ∧
      H.DestID.val = A2E cp (ctx.session.DataStore.take 8) ∧
      (ctx.WithSendRecv cp a b p).ctx.irm
        = (Context.WithSendRecv cp { ctx with session := { ctx.session with
            DataStore := ctx.session.DataStore.take 8 } } a b p).ctx.irm) ∧
    (∀ a s : Bool, ∃ H : IRMHeader, (ctx.WithSendOnly cp a s).ctx.irm = some H ∧
      H.DestID.val = A2E cp (ctx.session.DataStore.take 8) ∧
      (ctx.WithSendOnly cp a s).ctx.irm
        = (Context.WithSendOnly cp { ctx with session := { ctx.session with
            DataStore := ctx.session.DataStore.take 8 } } a s).ctx.irm) ∧
    (∀ s f w : Bool, ∃ H : IRMHeader, (ctx.WithRecvOnly cp s f w).ctx.irm = some H ∧
      H.DestID.val = A2E cp (ctx.session.DataStore.take 8) ∧
      (ctx.WithRecvOnly cp s f w).ctx.irm
        = (Context.WithRecvOnly cp { ctx with session := { ctx.session with
            DataStore := ctx.session.DataStore.take 8 } } s f w).ctx.irm) := by
  obtain ⟨h1, h2, h3⟩ := DestID_after_mode cp ctx
  have hl := (DestID_copy_long cp ctx.session.DataStore (by omega)).2
  have hm := modeHeader_long cp ctx (by omega)
  refine ⟨?_, ?_, ?_⟩
  · intro a b p
    obtain ⟨H, e1, e2⟩ := h1 a b p
    refine ⟨H, e1, by rw [e2, hl], ?_⟩
    rw [(WithSendRecv_irm cp ctx a b p).1, (WithSendRecv_irm cp _ a b p).1, ← hm]
  · intro a s
    obtain ⟨H, e1, e2⟩ := h2 a s
    refine ⟨H, e1, by rw [e2, hl], ?_⟩
    rw [(WithSendOnly_irm cp ctx a s).1, (WithSendOnly_irm cp _ a s).1, ← hm]
  · intro s f w
    obtain ⟨H, e1, e2⟩ := h3 s f w
    refine ⟨H, e1, by rw [e2, hl], ?_⟩
    rw [(WithRecvOnly_irm cp ctx s f w).1, (WithRecvOnly_irm cp _ s f w).1, ← hm]

/-- C18, at the datastore name "PRODIMSA1" of nine bytes. -/
theorem DestID_truncated_witness :
    8 < (NewContext (Session.started (ascii "PRODIMSA1") Conn.idle)).session.DataStore.length ∧
    ∃ H : IRMHeader,
      ((NewContext (Session.started (ascii "PRODIMSA1") Conn.idle)).WithSendOnly samplePage
        false false).ctx.irm = some H ∧
      H.DestID.val = A2E samplePage ((ascii "PRODIMSA1").take 8) := by
  obtain ⟨H, e1, e2, _⟩ := (DestID_truncated samplePage
    (NewContext (Session.started (ascii "PRODIMSA1") Conn.idle)) (by decide)).2.1 false false
  exact ⟨by decide, H, e1, e2⟩

/-- C15, as the code behaves. With `ascii` false the loop of `send` adds no segment:
whatever list of segments is supplied, `Send` on a facade does what it does for
the empty list and, on a connection that accepts the write, transmits the prefix
followed directly by the trailer, with no wire segment at all. -/
theorem Send_raw_drops (cp : CodePage) (ctx : Context) (P : IRMHeader) (c : Conn)
    (segments : List (List Byte))
    (hirm : ctx.irm = some P) (hconn : ctx.session.conn = some c) (hc : c.faults = [])
    (hL : Uint16 P.Length.val = 80 ∨ Uint16 P.Length.val = 96) :
    send cp ctx segments false = send cp ctx [] false ∧
    (∀ b : Bool, ctxSendRecv.Send cp ⟨ctx, b⟩ segments false
      = ctxSendRecv.Send cp ⟨ctx, b⟩ [] false) ∧
    (∀ b : Bool, ctxSendOnly.Send cp ⟨ctx, b⟩ segments false
      = ctxSendOnly.Send cp ⟨ctx, b⟩ [] false) ∧
    ∃ (ctx1 : Context) (c1 : Conn),
      send cp ctx segments false = some (ctx1, none) ∧
      (∀ b : Bool, ctxSendRecv.Send cp ⟨ctx, b⟩ segments false = some (⟨ctx1, b⟩, none)) ∧
      (∀ b : Bool, ctxSendOnly.Send cp ⟨ctx, b⟩ segments false = some (⟨ctx1, b⟩, none)) ∧
      ctx1.session.conn = some c1 ∧
      c1.sent = c.sent ++ ((PutUint32 (4 + Uint16 P.Length.val + 4)
          ++ P.MarshalBinary.1.drop 4) ++ [0x00, 0x04, 0x00, 0x00]) := by
  have hs := send_some cp ctx P c segments false hirm hconn
  have h0 := send_some cp ctx P c [] false hirm hconn
  rw [sendSegments_false] at hs h0
  obtain ⟨hok, hsent⟩ := NewRequest_Write P c (by omega) hc
  rw [hok] at hs
  have heq : send cp ctx segments false = send cp ctx [] false := by rw [hs, h0, hok]
  refine ⟨heq, ?_, ?_, _, _, hs, ?_, ?_, rfl, hsent⟩
  · intro b; simp only [ctxSendRecv.Send, heq]
  · intro b; simp only [ctxSendOnly.Send, heq]
  · intro b; simp only [ctxSendRecv.Send, hs]
  · intro b; simp only [ctxSendOnly.Send, hs]

/-- C15, at the segment `D7 C9 D5 C7` sent with `ascii` false: 88 bytes are
written, the prefix and the trailer. -/
theorem Send_raw_drops_witness :
    (Uint16 sampleHeader.Length.val = 80 ∨ Uint16 sampleHeader.Length.val = 96) ∧
    ∃ (ctx1 : Context) (c1 : Conn),
      ctxSendRecv.Send samplePage ⟨Context.holding sampleHeader Conn.idle, false⟩
        [[0xD7, 0xC9, 0xD5, 0xC7]] false = some (⟨ctx1, false⟩, none) ∧
      ctx1.session.conn = some c1 ∧
      c1.sent = Conn.idle.sent ++ ((PutUint32 (4 + Uint16 sampleHeader.Length.val + 4)
          ++ sampleHeader.MarshalBinary.1.drop 4) ++ [0x00, 0x04, 0x00, 0x00]) := by
  have hL : Uint16 sampleHeader.Length.val = 80 ∨ Uint16 sampleHeader.Length.val = 96 :=
    Or.inl (init_Length samplePage IRMHeader.zero)
  obtain ⟨_, _, _, ctx1, c1, _, h2, _, h4, h5⟩ :=
    Send_raw_drops samplePage (Context.holding sampleHeader Conn.idle) sampleHeader Conn.idle
      [[0xD7, 0xC9, 0xD5, 0xC7]] rfl rfl rfl hL
  exact ⟨hL, ctx1, c1, h2 false, h4, h5⟩

theorem slice_append_mid (a b d : List Byte) :
    slice ((a ++ b) ++ d) a.length (a.length + b.length) = b := by
  simp [slice, List.take_append_eq_append_take, List.drop_append_eq_append_drop]

theorem slice_append_last (a b d : List Byte) :
    slice ((a ++ b) ++ d) (a.length + b.length) (a.length + b.length + d.length) = d := by
  have h : ((a ++ b) ++ d).length = a.length + b.length + d.length := by
    simp [List.length_append, Nat.add_assoc]
  rw [slice, ← h, List.take_length]
  have : a.length + b.length = (a ++ b).length := by simp
  rw [this, List.drop_left]

/-- The bytes written by `Send` of the single segment "PING", translated, after
`WithSendRecv(false, false, false)`. -/
theorem Send_PING_written (cp : CodePage) (sess : Session) (c : Conn)
    (hname : sess.DataStore = ascii "IMSA") (hconn : sess.conn = some c) (hc : c.faults = [])
    (hping : A2E cp (ascii "PING") = [0xD7, 0xC9, 0xD5, 0xC7]) :
    ∃ (s1 : ctxSendRecv) (c1 : Conn) (written : List Byte),
      ((NewContext sess).WithSendRecv cp false false false).Send cp [ascii "PING"] true
        = some (s1, none) ∧
      s1.ctx.session.conn = some c1 ∧ c1.sent = c.sent ++ written ∧
      written.length = 96 ∧ written.take 4 = [0x00, 0x00, 0x00, 0x60] ∧
      written[33]? = some 0x20 ∧ written[35]? = some 0x40 ∧
      slice written 44 52 = A2E cp (ascii "IMSA") ++ [0x00, 0x00, 0x00, 0x00] ∧
      slice written 84 92 = [0x00, 0x08, 0x00, 0x00, 0xD7, 0xC9, 0xD5, 0xC7] ∧
      slice written 92 96 = [0x00, 0x04, 0x00, 0x00] := by
  obtain ⟨hH, hsess⟩ := WithSendRecv_irm cp (NewContext sess) false false false
  generalize hHdef : ({ modeHeader cp (NewContext sess) with
      F1 := IRMF1CIDREQ ||| IRMF1MFSREQ
      F2 := if false then IRMF2CM0 else IRMF2CM1
      F3 := ((IRMF3CANCID ||| (if false then IRMF3IPURG ||| IRMF3SYNCNF else 0))
              ||| (if false then IRMF3SYNCNF else 0)) ||| (if false then IRMF3PURGE else 0)
      F4 := IRMF4SENDRECV } : IRMHeader) = H at hH
  have hL : Uint16 H.Length.val = 80 := by
    rw [← hHdef]; exact (modeHeader_fields cp (NewContext sess)).1
  have hF2 : H.F2 = 0x20 := by rw [← hHdef]; rfl
  have hF4 : H.F4 = 0x40 := by rw [← hHdef]; rfl
  have hDest : H.DestID.val = A2E cp (ascii "IMSA") ++ [0x00, 0x00, 0x00, 0x00] := by
    rw [← hHdef]
    show (modeHeader cp (NewContext sess)).DestID.val = _
    rw [(modeHeader_fields cp (NewContext sess)).2.2.2.2.2.2.2]
    show ((Bytes.zero 8).copy (A2E cp sess.DataStore)).val = _
    rw [hname, DestID_copy_short cp (ascii "IMSA") (by decide)]
    rfl
  have hconn2 : ((NewContext sess).WithSendRecv cp false false false).ctx.session.conn
      = some c := by rw [hsess]; exact hconn
  have hs := send_some cp _ H c [ascii "PING"] true hH hconn2
  rw [sendSegments_true] at hs
  simp only [List.map_cons, List.map_nil, hping] at hs
  have hb : List.foldl Request.AddSegment (NewRequest H) [[0xD7, 0xC9, 0xD5, 0xC7]]
      = Request.build H [[0xD7, 0xC9, 0xD5, 0xC7]] := rfl
  rw [hb] at hs
  have hok := requestWrite_noFaults (Request.build H [[0xD7, 0xC9, 0xD5, 0xC7]]) c hc
  obtain ⟨w1, w2, w3⟩ := build_Write H [[0xD7, 0xC9, 0xD5, 0xC7]] c (by omega) (by decide) hok
  rw [hL] at w1 w2 w3
  have hft : frameTotal 80 [[0xD7, 0xC9, 0xD5, 0xC7]] = 96 := by decide
  rw [hft] at w1 w2 w3
  have hseg : (List.map wireSegment [[0xD7, 0xC9, 0xD5, 0xC7]]).flatten
      = [0x00, 0x08, 0x00, 0x00, 0xD7, 0xC9, 0xD5, 0xC7] := by decide
  rw [hseg] at w1 w3
  have hM := length_MarshalBinary H (by omega)
  rw [hL] at hM
  have hget : ∀ (e : Nat × List Byte), e ∈ H.layout → ∀ i, i < e.2.length → 4 ≤ e.1 + i →
      e.1 + i < 84 →
      (((PutUint32 96 ++ H.MarshalBinary.1.drop 4)
        ++ [0x00, 0x08, 0x00, 0x00, 0xD7, 0xC9, 0xD5, 0xC7]) ++ [0x00, 0x04, 0x00, 0x00])[e.1 + i]?
        = e.2[i]? := by
    intro e he i hi h4 hlt
    rw [List.getElem?_append_left (by
      simp only [List.length_append, w2, List.length_cons, List.length_nil]; omega)]
    rw [frame_getElem? 96 H.MarshalBinary.1 _ (e.1 + i) h4 (by omega)]
    exact MarshalBinary_getElem? H (by omega) e he i hi (by omega)
  have h33 := hget (33, [H.F2]) (by simp [IRMHeader.layout]) 0 (by simp) (by simp) (by simp)
  have h35 := hget (35, [H.F4]) (by simp [IRMHeader.layout]) 0 (by simp) (by simp) (by simp)
  simp only [List.getElem?_cons_zero, Nat.add_zero, hF2, hF4] at h33 h35
  have h44 : slice (((PutUint32 96 ++ H.MarshalBinary.1.drop 4)
        ++ [0x00, 0x08, 0x00, 0x00, 0xD7, 0xC9, 0xD5, 0xC7]) ++ [0x00, 0x04, 0x00, 0x00]) 44 52
      = H.DestID.val := by
    have hl := H.DestID.property
    have := slice_of_getElem? (((PutUint32 96 ++ H.MarshalBinary.1.drop 4)
        ++ [0x00, 0x08, 0x00, 0x00, 0xD7, 0xC9, 0xD5, 0xC7]) ++ [0x00, 0x04, 0x00, 0x00])
      H.DestID.val 44
      (by
        intro i hi
        exact hget (44, H.DestID.val) (by simp [IRMHeader.layout]) i hi (by simp only; omega)
          (by simp only; omega))
    rw [hl] at this
    exact this
  rw [hDest] at h44
  have hmid := slice_append_mid (PutUint32 96 ++ H.MarshalBinary.1.drop 4)
    [0x00, 0x08, 0x00, 0x00, 0xD7, 0xC9, 0xD5, 0xC7] [0x00, 0x04, 0x00, 0x00]
  have hlast := slice_append_last (PutUint32 96 ++ H.MarshalBinary.1.drop 4)
    [0x00, 0x08, 0x00, 0x00, 0xD7, 0xC9, 0xD5, 0xC7] [0x00, 0x04, 0x00, 0x00]
  rw [w2] at hmid hlast
  have hsend : ((NewContext sess).WithSendRecv cp false false false).Send cp [ascii "PING"] true
      = some ({ ((NewContext sess).WithSendRecv cp false false false) with
          ctx := { ((NewContext sess).WithSendRecv cp false false false).ctx with
            session := { ((NewContext sess).WithSendRecv cp false false false).ctx.session with
              conn := some ((Request.build H [[0xD7, 0xC9, 0xD5, 0xC7]]).Write c).1 } } },
        none) := by
    simp only [ctxSendRecv.Send, hs, hok]
  refine ⟨_, ((Request.build H [[0xD7, 0xC9, 0xD5, 0xC7]]).Write c).1, _, hsend, rfl, w1, w3,
    ?_, h33, h35, h44, hmid, hlast⟩
  simp [PutUint32]

/-- C16 (amended). With the session datastore "IMSA", after
`WithSendRecv(false, false, false)` and `Send` of the single segment "PING" with
`ascii` true, on a code page that maps "PING" to `D7 C9 D5 C7`, 96 bytes are
written: they start with the total length `00 00 00 60`, carry F2 = 0x20 at
offset 33 and F4 = 0x40 at offset 35, and the 84-byte prefix is followed by the
segment `00 08 00 00 D7 C9 D5 C7` and then the trailer `00 04 00 00`. -/
theorem Send_PING_frame (cp : CodePage) (sess : Session) (c : Conn)
    (hname : sess.DataStore = ascii "IMSA") (hconn : sess.conn = some c) (hc : c.faults = [])
    (hping : A2E cp (ascii "PING") = [0xD7, 0xC9, 0xD5, 0xC7]) :
    ∃ (s1 : ctxSendRecv) (c1 : Conn) (written : List Byte),
      ((NewContext sess).WithSendRecv cp false false false).Send cp [ascii "PING"] true
        = some (s1, none) ∧
      s1.ctx.session.conn = some c1 ∧ c1.sent = c.sent ++ written ∧
      written.length = 96 ∧ written.take 4 = [0x00, 0x00, 0x00, 0x60] ∧
      written[33]? = some 0x20 ∧ written[35]? = some 0x40 ∧
      slice written 84 92 = [0x00, 0x08, 0x00, 0x00, 0xD7, 0xC9, 0xD5, 0xC7] ∧
      slice written 92 96 = [0x00, 0x04, 0x00, 0x00] := by
  obtain ⟨s1, c1, w, h1, h2, h3, h4, h5, h6, h7, _, h9, h10⟩ :=
    Send_PING_written cp sess c hname hconn hc hping
  exact ⟨s1, c1, w, h1, h2, h3, h4, h5, h6, h7, h9, h10⟩

/-- C16 (amended), on the sample code page and an idle connection. -/
theorem Send_PING_frame_witness :
    (Session.started (ascii "IMSA") Conn.idle).DataStore = ascii "IMSA" ∧
    A2E samplePage (ascii "PING") = [0xD7, 0xC9, 0xD5, 0xC7] ∧
    ∃ (s1 : ctxSendRecv) (c1 : Conn) (written : List Byte),
      ((NewContext (Session.started (ascii "IMSA") Conn.idle)).WithSendRecv samplePage
        false false false).Send samplePage [ascii "PING"] true = some (s1, none) ∧
      s1.ctx.session.conn = some c1 ∧ c1.sent = Conn.idle.sent ++ written ∧
      written.length = 96 ∧ written.take 4 = [0x00, 0x00, 0x00, 0x60] ∧
      written[33]? = some 0x20 ∧ written[35]? = some 0x40 ∧
      slice written 84 92 = [0x00, 0x08, 0x00, 0x00, 0xD7, 0xC9, 0xD5, 0xC7] ∧
      slice written 92 96 = [0x00, 0x04, 0x00, 0x00] :=
  ⟨rfl, by decide,
    Send_PING_frame samplePage (Session.started (ascii "IMSA") Conn.idle) Conn.idle rfl rfl rfl
      (by decide)⟩

/-- C16 fails as stated: in the scenario of the claim, on the sample code page
and an idle connection, the first four bytes written are `00 00 00 60` (96 bytes
are written), not `00 00 00 70`. -/
theorem Send_PING_total :
    ∃ (s1 : ctxSendRecv) (c1 : Conn) (written : List Byte),
      ((NewContext (Session.started (ascii "IMSA") Conn.idle)).WithSendRecv samplePage
        false false false).Send samplePage [ascii "PING"] true = some (s1, none) ∧
      s1.ctx.session.conn = some c1 ∧ c1.sent = Conn.idle.sent ++ written ∧
      written.length = 96 ∧ written.take 4 = [0x00, 0x00, 0x00, 0x60] ∧
      written.take 4 ≠ [0x00, 0x00, 0x00, 0x70] := by
  obtain ⟨s1, c1, w, h1, h2, h3, h4, h5, _⟩ :=
    Send_PING_written samplePage (Session.started (ascii "IMSA") Conn.idle) Conn.idle rfl rfl rfl
      (by decide)
  refine ⟨s1, c1, w, h1, h2, h3, h4, h5, ?_⟩
  rw [h5]
  decide

/-- C21. After `WithRecvOnly(singleMsg, flow, wait)` the prefix has F2 = CM0
(0x40), F4 = RESTPIPE (0xD9) and F5 = NTRNSL (0x40) OR-ed with one mode bit, by
the truth table: SNGLWT (0x10) when `singleMsg` and `wait`, SNGLNWT (0x01) when
`singleMsg` and not `wait`, AUTOFLOW (0x02) when not `singleMsg`, `flow` and
`wait`, NAUTFLOW (0x04) when not `singleMsg`, `flow` and not `wait`; when neither
`singleMsg` nor `flow` is set F5 is NTRNSL alone. The latch of the receiver is
unset. -/
theorem WithRecvOnly_flags (cp : CodePage) (ctx : Context) (singleMsg flow wait : Bool) :
    ∃ H : IRMHeader,
      (ctx.WithRecvOnly cp singleMsg flow wait).ctx.irm = some H ∧
      H.F2 = IRMF2CM0 ∧ H.F2 = 0x40 ∧ H.F4 = IRMF4RESTPIPE ∧ H.F4 = 0xD9 ∧
      H.F5 = IRMF5NTRNSL |||
        (if singleMsg then (if wait then IRMF5SNGLWT else IRMF5SNGLNWT)
         else if flow then (if wait then IRMF5AUTOFLOW else IRMF5NAUTFLOW)
         else 0) ∧
      H.F5 = 0x40 |||
        (if singleMsg then (if wait then 0x10 else 0x01)
         else if flow then (if wait then 0x02 else 0x04)
         else 0) ∧
      (singleMsg = false → flow = false → H.F5 = 0x40) ∧
      (ctx.WithRecvOnly cp singleMsg flow wait).initial = false := by
  refine ⟨_, (WithRecvOnly_irm cp ctx singleMsg flow wait).1, rfl, rfl, rfl, rfl, ?_, ?_, ?_, rfl⟩
  · cases singleMsg <;> cases flow <;> cases wait <;> rfl
  · cases singleMsg <;> cases flow <;> cases wait <;> dsimp only <;> decide
  · intro h1 h2
    subst h1 h2
    cases wait <;> dsimp only <;> decide

/-- C22, as the code behaves. `NewContext` leaves the prefix pointer nil, and
every configuration call on such a context goes through that pointer: `SetTranCode`,
`SetCredentials`, `SetClientID`, `SetReroute`, `SetLterm` and `SetModName` fail at
run time, for every session and every value, and so does the chain
`SetClientID(..).SetReroute(..)` of the package documentation. -/
theorem setters_before_mode (cp : CodePage) (session : Session)
    (v userid grpid passwd : List Byte) :
    (NewContext session).irm = none ∧
    (NewContext session).SetTranCode cp v = none ∧
    (NewContext session).SetCredentials cp userid grpid passwd = none ∧
    (NewContext session).SetClientID cp v = none ∧
    (NewContext session).SetReroute cp v = none ∧
    (NewContext session).SetLterm cp v = none ∧
    (NewContext session).SetModName cp v = none ∧
    ((NewContext session).SetClientID cp (ascii "CLIENT01")).bind
      (fun ctx1 => ctx1.SetReroute cp (ascii "CLNDLQ01")) = none := by
  refine ⟨rfl, ?_, ?_, ?_, ?_, ?_, ?_, ?_⟩
  · simp [Context.SetTranCode, NewContext]
  · simp [Context.SetCredentials, NewContext]
  · simp [Context.SetClientID, NewContext]
  · simp [Context.SetReroute, NewContext]
  · simp [Context.SetLterm, NewContext]
  · simp [Context.SetModName, NewContext]
  · simp [Context.SetClientID, NewContext]

/-- The prefix after a mode selection does not depend on the prefix before it. -/
theorem mode_irm_fresh (cp : CodePage) (ctx : Context) (P : Option IRMHeader) (a b c : Bool) :
    (({ ctx with irm := P } : Context).WithSendRecv cp a b c).ctx.irm
      = (ctx.WithSendRecv cp a b c).ctx.irm ∧
    (({ ctx with irm := P } : Context).WithSendOnly cp a b).ctx.irm
      = (ctx.WithSendOnly cp a b).ctx.irm ∧
    (({ ctx with irm := P } : Context).WithRecvOnly cp a b c).ctx.irm
      = (ctx.WithRecvOnly cp a b c).ctx.irm := by
  refine ⟨?_, ?_, ?_⟩
  · rw [(WithSendRecv_irm cp _ a b c).1, (WithSendRecv_irm cp ctx a b c).1]; rfl
  · rw [(WithSendOnly_irm cp _ a b).1, (WithSendOnly_irm cp ctx a b).1]; rfl
  · rw [(WithRecvOnly_irm cp _ a b c).1, (WithRecvOnly_irm cp ctx a b c).1]; rfl

/-- C29. Selecting a mode resets the prefix. For every context, whatever its
prefix holds, the prefix after `WithSendRecv`, `WithSendOnly` or `WithRecvOnly`
is the one obtained from the same context without a prefix, and it agrees with a
freshly initialised header in every field other than DestID, F1, F2, F3, F4 and
F5: Length is `00 50`, Arch and F0 are 0, and NakRsn, ClientID, TranCode, Lterm,
Userid, Grpid, Passwd, RerouteName and ModName are all zero. -/
theorem mode_resets (cp : CodePage) (ctx : Context) (a b c : Bool) :
    ∃ H1 H2 H3 : IRMHeader,
      (ctx.WithSendRecv cp a b c).ctx.irm = some H1 ∧
      (ctx.WithSendOnly cp a b).ctx.irm = some H2 ∧
      (ctx.WithRecvOnly cp a b c).ctx.irm = some H3 ∧
      (({ ctx with irm := none } : Context).WithSendRecv cp a b c).ctx.irm = some H1 ∧
      (({ ctx with irm := none } : Context).WithSendOnly cp a b).ctx.irm = some H2 ∧
      (({ ctx with irm := none } : Context).WithRecvOnly cp a b c).ctx.irm = some H3 ∧
      ∀ H ∈ [H1, H2, H3],
        ({ H with DestID := Bytes.zero 8, F1 := 0, F2 := 0, F3 := IRMF3CANCID, F4 := 0,
                  F5 := IRMF5NTRNSL } : IRMHeader) = IRMHeader.zero.init cp ∧
        H.Length.val = [0x00, 0x50] ∧ H.Arch = 0 ∧ H.F0 = 0 ∧ H.NakRsn.val = [0, 0] ∧
        H.ClientID = Bytes.zero 8 ∧ H.TranCode = Bytes.zero 8 ∧ H.Lterm = Bytes.zero 8 ∧
        H.Userid = Bytes.zero 8 ∧ H.Grpid = Bytes.zero 8 ∧ H.Passwd = Bytes.zero 8 ∧
        H.RerouteName = Bytes.zero 8 ∧ H.ModName = Bytes.zero 8 := by
  obtain ⟨f1, f2, f3⟩ := mode_irm_fresh cp ctx none a b c
  refine ⟨_, _, _, (WithSendRecv_irm cp ctx a b c).1, (WithSendOnly_irm cp ctx a b).1,
    (WithRecvOnly_irm cp ctx a b c).1, ?_, ?_, ?_, ?_⟩
  · rw [f1]; exact (WithSendRecv_irm cp ctx a b c).1
  · rw [f2]; exact (WithSendOnly_irm cp ctx a b).1
  · rw [f3]; exact (WithRecvOnly_irm cp ctx a b c).1
  · intro H hH
    simp only [List.mem_cons, List.mem_singleton, List.not_mem_nil, or_false] at hH
    rcases hH with rfl | rfl | rfl <;>
      exact ⟨rfl, rfl, rfl, rfl, rfl, rfl, rfl, rfl, rfl, rfl, rfl, rfl, rfl⟩

/-- The statement `copy(slot[:], src)` on an 8-byte slot: the first
`min (len src) 8` bytes of `src`, then the bytes of the slot from there on. -/
theorem copy_slot (slot : Bytes 8) (src : List Byte) :
    (slot.copy src).val = src.take (min src.length 8) ++ slot.val.drop (min src.length 8) := by
  have h := slot.property
  show src.take slot.val.length ++ slot.val.drop src.length = _
  rw [h]
  rcases Nat.lt_or_ge src.length 8 with hlt | hge
  · rw [Nat.min_eq_left (Nat.le_of_lt hlt), List.take_of_length_le (Nat.le_of_lt hlt),
      List.take_of_length_le (Nat.le_refl _)]
  · rw [Nat.min_eq_right hge, List.drop_of_length_le (by omega),
      List.drop_of_length_le (by omega)]

/-- The slot after a setter: `A2E` of the first `min (len s) 8` bytes of the
value, then the bytes the slot held from there on. -/
theorem copy_slot_A2E (cp : CodePage) (slot : Bytes 8) (s : List Byte) :
    (slot.copy (A2E cp s)).val
      = A2E cp (s.take (min s.length 8)) ++ slot.val.drop (min s.length 8) := by
  rw [copy_slot]
  simp [A2E, List.map_take]

/-- C30. On a context with a selected mode, whose prefix is `P`, `SetClientID(s)`
overwrites the first `min (len s) 8` bytes of the ClientID slot with `A2E` of the
first `min (len s) 8` bytes of `s`, leaves the remaining bytes of the slot as
they were and leaves every other field of the prefix, and the session,
unchanged; the same holds for `SetTranCode`, `SetLterm` and `SetModName` with
their slots and for `SetCredentials` with the Userid, Grpid and Passwd slots. -/
theorem setters_frame (cp : CodePage) (ctx : Context) (P : IRMHeader)
    (s userid grpid passwd : List Byte) (hirm : ctx.irm = some P) :
    (∃ X : Bytes 8,
      X.val = A2E cp (s.take (min s.length 8)) ++ P.ClientID.val.drop (min s.length 8) ∧
      ctx.SetClientID cp s = some { ctx with irm := some { P with ClientID := X } }) ∧
    (∃ X : Bytes 8,
      X.val = A2E cp (s.take (min s.length 8)) ++ P.TranCode.val.drop (min s.length 8) ∧
      ctx.SetTranCode cp s = some { ctx with irm := some { P with TranCode := X } }) ∧
    (∃ X : Bytes 8,
      X.val = A2E cp (s.take (min s.length 8)) ++ P.Lterm.val.drop (min s.length 8) ∧
      ctx.SetLterm cp s = some { ctx with irm := some { P with Lterm := X } }) ∧
    (∃ X : Bytes 8,
      X.val = A2E cp (s.take (min s.length 8)) ++ P.ModName.val.drop (min s.length 8) ∧
      ctx.SetModName cp s = some { ctx with irm := some { P with ModName := X } }) ∧
    (∃ U G W : Bytes 8,
      U.val = A2E cp (userid.take (min userid.length 8))
                ++ P.Userid.val.drop (min userid.length 8) ∧
      G.val = A2E cp (grpid.take (min grpid.length 8))
                ++ P.Grpid.val.drop (min grpid.length 8) ∧
      W.val = A2E cp (passwd.take (min passwd.length 8))
                ++ P.Passwd.val.drop (min passwd.length 8) ∧
      ctx.SetCredentials cp userid grpid passwd
        = some { ctx with irm := some { P with Userid := U, Grpid := G, Passwd := W } }) := by
  refine ⟨⟨_, copy_slot_A2E cp P.ClientID s, ?_⟩, ⟨_, copy_slot_A2E cp P.TranCode s, ?_⟩,
    ⟨_, copy_slot_A2E cp P.Lterm s, ?_⟩, ⟨_, copy_slot_A2E cp P.ModName s, ?_⟩,
    ⟨_, _, _, copy_slot_A2E cp P.Userid userid, copy_slot_A2E cp P.Grpid grpid,
      copy_slot_A2E cp P.Passwd passwd, ?_⟩⟩
  · simp only [Context.SetClientID, hirm]
  · simp only [Context.SetTranCode, hirm]
  · simp only [Context.SetLterm, hirm]
  · simp only [Context.SetModName, hirm]
  · simp only [Context.SetCredentials, hirm]

/-- C30, on the sample code page: on a prefix whose ClientID slot holds "CLIENT01"
in EBCDIC, `SetClientID("AB")` leaves `C1 C2 C9 C5 D5 E3 F0 F1` in the slot, the
two new bytes followed by the last six of the earlier value. -/
theorem setters_frame_witness :
    ∃ X : Bytes 8,
      X.val = [0xC1, 0xC2, 0xC9, 0xC5, 0xD5, 0xE3, 0xF0, 0xF1] ∧
      (Context.holding { sampleHeader with
          ClientID := ⟨[0xC3, 0xD3, 0xC9, 0xC5, 0xD5, 0xE3, 0xF0, 0xF1], rfl⟩ }
        Conn.idle).SetClientID samplePage (ascii "AB")
        = some (Context.holding { sampleHeader with ClientID := X } Conn.idle) := by
  obtain ⟨⟨X, hX, h⟩, _⟩ := setters_frame samplePage
    (Context.holding { sampleHeader with
      ClientID := ⟨[0xC3, 0xD3, 0xC9, 0xC5, 0xD5, 0xE3, 0xF0, 0xF1], rfl⟩ } Conn.idle)
    { sampleHeader with ClientID := ⟨[0xC3, 0xD3, 0xC9, 0xC5, 0xD5, 0xE3, 0xF0, 0xF1], rfl⟩ }
    (ascii "AB") [] [] [] rfl
  refine ⟨X, ?_, ?_⟩
  · rw [hX]; decide
  · rw [h]; rfl

/-- The ModName slot is the last entry of the layout table; the 116 bytes before
it do not depend on it. -/
theorem tableBytes_ModName (P : IRMHeader) (X : Bytes 8) :
    ∃ front : List Byte, front.length = 116 ∧
      tableBytes P.layout = front ++ P.ModName.val ∧
      tableBytes ({ P with ModName := X } : IRMHeader).layout = front ++ X.val := by
  refine ⟨tableBytes (P.layout.take 26), ?_, ?_, ?_⟩
  · simp [tableBytes, IRMHeader.layout, P.Length.property, P.IrmID.property,
      P.NakRsn.property, P.res1.property, P.ClientID.property, P.TranCode.property,
      P.DestID.property, P.Lterm.property, P.Userid.property, P.Grpid.property,
      P.Passwd.property, P.AppName.property, P.RerouteName.property,
      P.TagAdapt.property, P.TagMap.property]
  · simp [tableBytes, IRMHeader.layout]
  · simp [tableBytes, IRMHeader.layout]

/-- A prefix whose Length field is at most 112 marshals to the same bytes
whatever its ModName slot holds. -/
theorem MarshalBinary_ModName (P : IRMHeader) (X : Bytes 8) (hL : Uint16 P.Length.val ≤ 112) :
    ({ P with ModName := X } : IRMHeader).MarshalBinary = P.MarshalBinary := by
  obtain ⟨front, hf, h1, h2⟩ := tableBytes_ModName P X
  have hL2 : Uint16 ({ P with ModName := X } : IRMHeader).Length.val ≤ 120 := by
    show Uint16 P.Length.val ≤ 120
    omega
  rw [MarshalBinary_eq _ hL2, MarshalBinary_eq P (by omega), h1, h2]
  show ((front ++ X.val).take (Uint16 P.Length.val + 4), (none : Option Err)) = _
  rw [List.take_append_of_le_length (by omega), List.take_append_of_le_length (by omega)]

theorem AddSegment_irmHeader (r : Request) (H : IRMHeader) (x : List Byte) :
    ({ r with irmHeader := H } : Request).AddSegment x
      = { r.AddSegment x with irmHeader := H } := by
  simp only [Request.AddSegment]

theorem sendSegments_irmHeader (cp : CodePage) (asc : Bool) (H : IRMHeader)
    (segs : List (List Byte)) :
    ∀ r : Request, sendSegments cp asc { r with irmHeader := H } segs
      = { sendSegments cp asc r segs with irmHeader := H } := by
  induction segs with
  | nil => intro r; simp only [sendSegments]
  | cons s segs ih =>
    intro r
    cases asc
    · simp only [sendSegments, Bool.false_eq_true, if_false]
      exact ih r
    · simp only [sendSegments, if_true, AddSegment_irmHeader]
      exact ih (r.AddSegment (A2E cp s))

theorem sendSegments_header (cp : CodePage) (asc : Bool) (segs : List (List Byte)) :
    ∀ r : Request, (sendSegments cp asc r segs).irmHeader = r.irmHeader := by
  induction segs with
  | nil => intro r; simp only [sendSegments]
  | cons s segs ih =>
    intro r
    cases asc
    · simp only [sendSegments, Bool.false_eq_true, if_false]
      exact ih r
    · simp only [sendSegments, if_true]
      rw [ih (r.AddSegment (A2E cp s))]
      simp only [Request.AddSegment]

/-- What `send` writes does not depend on the ModName slot of the prefix. -/
theorem Write_ModName (cp : CodePage) (P : IRMHeader) (X : Bytes 8)
    (segs : List (List Byte)) (asc : Bool) (c : Conn) (hL : Uint16 P.Length.val ≤ 112) :
    (sendSegments cp asc (NewRequest { P with ModName := X }) segs).Write c
      = (sendSegments cp asc (NewRequest P) segs).Write c := by
  have e : NewRequest ({ P with ModName := X } : IRMHeader)
      = { NewRequest P with irmHeader := { P with ModName := X } } := rfl
  rw [e, sendSegments_irmHeader]
  have hh : ({ sendSegments cp asc (NewRequest P) segs with
        irmHeader := { P with ModName := X } } : Request).header
      = (sendSegments cp asc (NewRequest P) segs).header := by
    have hP : (sendSegments cp asc (NewRequest P) segs).irmHeader = P :=
      sendSegments_header cp asc segs (NewRequest P)
    rw [(header_eq _ (by show Uint16 P.Length.val ≤ 120; omega)).1,
      (header_eq (sendSegments cp asc (NewRequest P) segs) (by rw [hP]; omega)).1, hP]
    show _ ++ (({ P with ModName := X } : IRMHeader).MarshalBinary).1.drop 4 = _
    rw [MarshalBinary_ModName P X hL]
  unfold Request.Write
  rw [hh]

/-- C23, as the code behaves. On a context whose prefix `P` has the Length 80 or
96 (the only values the package sets), `SetModName(m)` stores `A2E(m)` in the
ModName slot, but the slot lies at offsets 116..124 of the buffer and
`MarshalBinary` hands out its first 84 or 100 bytes only: `send`, and `Send` on
the facades, write exactly the bytes and return exactly the error they do without
the call, and the prefix transmitted has fewer than 116 bytes. -/
theorem SetModName_not_sent (cp : CodePage) (ctx : Context) (P : IRMHeader) (c : Conn)
    (m : List Byte) (segs : List (List Byte)) (asc : Bool)
    (hirm : ctx.irm = some P) (hconn : ctx.session.conn = some c)
    (hL : Uint16 P.Length.val = 80 ∨ Uint16 P.Length.val = 96) :
    ∃ (ctx1 : Context) (c1 : Conn) (err : Option Err),
      ctx.SetModName cp m = some ctx1 ∧
      ctx1.irm = some { P with ModName := P.ModName.copy (A2E cp m) } ∧
      ctx1.session = ctx.session ∧
      send cp ctx1 segs asc
        = some ({ ctx1 with session := { ctx.session with conn := some c1 } }, err) ∧
      send cp ctx segs asc
        = some ({ ctx with session := { ctx.session with conn := some c1 } }, err) ∧
      (∀ b : Bool, ctxSendRecv.Send cp ⟨ctx1, b⟩ segs asc
        = some (⟨{ ctx1 with session := { ctx.session with conn := some c1 } }, b⟩, err)) ∧
      (∀ b : Bool, ctxSendRecv.Send cp ⟨ctx, b⟩ segs asc
        = some (⟨{ ctx with session := { ctx.session with conn := some c1 } }, b⟩, err)) ∧
      (∀ b : Bool, ctxSendOnly.Send cp ⟨ctx1, b⟩ segs asc
        = some (⟨{ ctx1 with session := { ctx.session with conn := some c1 } }, b⟩, err)) ∧
      (∀ b : Bool, ctxSendOnly.Send cp ⟨ctx, b⟩ segs asc
        = some (⟨{ ctx with session := { ctx.session with conn := some c1 } }, b⟩, err)) ∧
      ({ P with ModName := P.ModName.copy (A2E cp m) } : IRMHeader).MarshalBinary
        = P.MarshalBinary ∧
      P.MarshalBinary.1.length = Uint16 P.Length.val + 4 ∧
      P.MarshalBinary.1.length < 116 := by
  have hL112 : Uint16 P.Length.val ≤ 112 := by omega
  have hset : ctx.SetModName cp m
      = some { ctx with irm := some { P with ModName := P.ModName.copy (A2E cp m) } } := by
    simp only [Context.SetModName, hirm]
  have hs1 := send_some cp
    { ctx with irm := some { P with ModName := P.ModName.copy (A2E cp m) } }
    { P with ModName := P.ModName.copy (A2E cp m) } c segs asc rfl hconn
  rw [Write_ModName cp P _ segs asc c hL112] at hs1
  have hs0 := send_some cp ctx P c segs asc hirm hconn
  have hlen := length_MarshalBinary P (by omega)
  refine ⟨_, ((sendSegments cp asc (NewRequest P) segs).Write c).1,
    ((sendSegments cp asc (NewRequest P) segs).Write c).2, hset, rfl, rfl, hs1, hs0,
    ?_, ?_, ?_, ?_, MarshalBinary_ModName P _ hL112, hlen, by omega⟩
  · intro b
    simp only [ctxSendRecv.Send, hs1]
  · intro b
    simp only [ctxSendRecv.Send, hs0]
  · intro b
    simp only [ctxSendOnly.Send, hs1]
    cases ((sendSegments cp asc (NewRequest P) segs).Write c).2 <;> rfl
  · intro b
    simp only [ctxSendOnly.Send, hs0]
    cases ((sendSegments cp asc (NewRequest P) segs).Write c).2 <;> rfl

/-- C23, on the sample code page: after `SetModName("MODNAME1")` on the
initialised prefix, `Send` of the segment "PING" with `ascii` true writes what it
writes without the call. -/
theorem SetModName_not_sent_witness :
    (Uint16 sampleHeader.Length.val = 80 ∨ Uint16 sampleHeader.Length.val = 96) ∧
    ∃ (ctx1 : Context) (c1 : Conn) (err : Option Err),
      (Context.holding sampleHeader Conn.idle).SetModName samplePage (ascii "MODNAME1")
        = some ctx1 ∧
      ctx1.irm = some { sampleHeader with
        ModName := sampleHeader.ModName.copy (A2E samplePage (ascii "MODNAME1")) } ∧
      (sampleHeader.ModName.copy (A2E samplePage (ascii "MODNAME1"))).val
        = [0xD4, 0xD6, 0xC4, 0xD5, 0xC1, 0xD4, 0xC5, 0xF1] ∧
      ctxSendRecv.Send samplePage ⟨ctx1, false⟩ [ascii "PING"] true
        = some (⟨{ ctx1 with session :=
            { (Context.holding sampleHeader Conn.idle).session with conn := some c1 } },
            false⟩, err) ∧
      ctxSendRecv.Send samplePage ⟨Context.holding sampleHeader Conn.idle, false⟩
          [ascii "PING"] true
        = some (⟨{ Context.holding sampleHeader Conn.idle with session :=
            { (Context.holding sampleHeader Conn.idle).session with conn := some c1 } },
            false⟩, err) := by
  have hL : Uint16 sampleHeader.Length.val = 80 ∨ Uint16 sampleHeader.Length.val = 96 :=
    Or.inl (init_Length samplePage IRMHeader.zero)
  obtain ⟨ctx1, c1, err, h1, h2, _, _, _, h6, h7, _⟩ :=
    SetModName_not_sent samplePage (Context.holding sampleHeader Conn.idle) sampleHeader
      Conn.idle (ascii "MODNAME1") [ascii "PING"] true rfl rfl hL
  exact ⟨hL, ctx1, c1, err, h1, h2, by decide, h6 false, h7 false⟩

/-- What a successful `Write` of a request without segments puts on the
connection. -/
theorem NewRequest_Write_sent (P : IRMHeader) (c : Conn) (hL : Uint16 P.Length.val ≤ 120)
    (hok : ((NewRequest P).Write c).2 = none) :
    ((NewRequest P).Write c).1.sent
      = c.sent ++ ((PutUint32 (4 + Uint16 P.Length.val + 4) ++ P.MarshalBinary.1.drop 4)
          ++ [0x00, 0x04, 0x00, 0x00]) ∧
    ((PutUint32 (4 + Uint16 P.Length.val + 4) ++ P.MarshalBinary.1.drop 4)
          ++ [0x00, 0x04, 0x00, 0x00]).length = 4 + Uint16 P.Length.val + 4 := by
  have hh := (header_eq (NewRequest P) hL).1
  have hlen : (NewRequest P).length = 4 + Uint16 P.Length.val + 4 := by
    simp only [NewRequest]
    omega
  have hm := length_MarshalBinary P hL
  constructor
  · rw [requestWrite_ok _ _ hok, hh, hlen]
    simp [NewRequest, RequestTrailer]
  · simp only [List.length_append, List.length_drop, hm, PutUint32, List.length_cons,
      List.length_nil]
    omega

/-- `Recv` on a receiver whose latch is unset: the request without segments is
written; a failed write is returned with no response and the latch stays unset,
a successful one sets the latch and a response on the connection is returned. -/
theorem Recv_first (cp : CodePage) (r : ctxRecvOnly) (P : IRMHeader) (c : Conn)
    (hini : r.initial = false) (hirm : r.ctx.irm = some P)
    (hconn : r.ctx.session.conn = some c) :
    (∀ e : Err, ((NewRequest P).Write c).2 = some e →
      r.Recv cp = some ((none, some e),
        { ctx := { r.ctx with session := { r.ctx.session with
                    conn := some ((NewRequest P).Write c).1 } },
          initial := false })) ∧
    (((NewRequest P).Write c).2 = none →
      r.Recv cp = some ((some (NewResponse ((NewRequest P).Write c).1), none),
        { ctx := { r.ctx with session := { r.ctx.session with
                    conn := some ((NewRequest P).Write c).1 } },
          initial := true })) := by
  have hs := send_some cp r.ctx P c [] false hirm hconn
  rw [sendSegments_false] at hs
  constructor
  · intro e he
    rw [he] at hs
    simp only [ctxRecvOnly.Recv, hini, hs, Bool.not_false, if_true]
  · intro hok
    rw [hok] at hs
    simp only [ctxRecvOnly.Recv, hini, hs, Bool.not_false, if_true, recv]

/-- `Recv` on a receiver whose latch is set: nothing is written and the state of
the receiver does not change. -/
theorem Recv_later (cp : CodePage) (r : ctxRecvOnly) (c : Conn)
    (hini : r.initial = true) (hconn : r.ctx.session.conn = some c) :
    r.Recv cp = some ((some (NewResponse c), none), r) := by
  simp only [ctxRecvOnly.Recv, hini, Bool.not_true, Bool.false_eq_true, if_false, recv, hconn]

/-- The latch discipline of `Recv`, on any receiver whose latch is unset and
whose prefix `H` has the Length 80. -/
theorem Recv_unset (cp : CodePage) (r0 : ctxRecvOnly) (H : IRMHeader) (c : Conn)
    (hini : r0.initial = false) (hirm : r0.ctx.irm = some H)
    (hconn : r0.ctx.session.conn = some c) (hL : Uint16 H.Length.val = 80) :
    (((NewRequest H).Write c).2 = none →
      ∃ (r1 : ctxRecvOnly) (c1 : Conn),
        r0.Recv cp = some ((some (NewResponse c1), none), r1) ∧
        r1.initial = true ∧ r1.ctx.irm = some H ∧ r1.ctx.session.conn = some c1 ∧
        c1.sent = c.sent ++ ((PutUint32 88 ++ H.MarshalBinary.1.drop 4)
          ++ [0x00, 0x04, 0x00, 0x00]) ∧
        ((PutUint32 88 ++ H.MarshalBinary.1.drop 4) ++ [0x00, 0x04, 0x00, 0x00]).length = 88 ∧
        r1.Recv cp = some ((some (NewResponse c1), none), r1)) ∧
    (∀ e : Err, ((NewRequest H).Write c).2 = some e →
      ∃ (r1 : ctxRecvOnly) (c1 : Conn),
        r0.Recv cp = some ((none, some e), r1) ∧
        r1.initial = false ∧ r1.ctx.irm = some H ∧ r1.ctx.session.conn = some c1 ∧
        c1 = ((NewRequest H).Write c).1 ∧
        (((NewRequest H).Write c1).2 = none →
          ∃ (r2 : ctxRecvOnly) (c2 : Conn),
            r1.Recv cp = some ((some (NewResponse c2), none), r2) ∧
            r2.initial = true ∧ r2.ctx.session.conn = some c2 ∧
            c2.sent = c1.sent ++ ((PutUint32 88 ++ H.MarshalBinary.1.drop 4)
              ++ [0x00, 0x04, 0x00, 0x00]))) := by
  have h88 : 4 + Uint16 H.Length.val + 4 = 88 := by omega
  constructor
  · intro hok
    obtain ⟨hsent, hlen⟩ := NewRequest_Write_sent H c (by omega) hok
    rw [h88] at hsent hlen
    refine ⟨_, _, (Recv_first cp r0 H c hini hirm hconn).2 hok, rfl, hirm, rfl, hsent, hlen, ?_⟩
    exact Recv_later cp _ _ rfl rfl
  · intro e he
    refine ⟨_, _, (Recv_first cp r0 H c hini hirm hconn).1 e he, rfl, hirm, rfl, rfl, ?_⟩
    intro hok
    obtain ⟨hsent, _⟩ := NewRequest_Write_sent H ((NewRequest H).Write c).1 (by omega) hok
    rw [h88] at hsent
    have hfirst := (Recv_first cp
      { ctx := { r0.ctx with session := { r0.ctx.session with
                  conn := some ((NewRequest H).Write c).1 } },
        initial := false } H ((NewRequest H).Write c).1 rfl hirm rfl).2 hok
    exact ⟨_, _, hfirst, rfl, rfl, hsent⟩

/-- C28. On the receiver returned by `WithRecvOnly`, over a session with a
connection, the latch is unset and the prefix has the Length 80. If the write of
the first `Recv` succeeds (as it does on a connection without faults), `Recv`
returns a response with no error, the latch is set, and exactly one message was
written: the prefix followed directly by the trailer, 88 bytes. Every `Recv` on a
receiver whose latch is set returns a response and leaves the receiver, and with
it the bytes written, unchanged. If the write fails, `Recv` returns that error
with no response, the latch stays unset, and the next `Recv` writes the message
again. -/
theorem Recv_latch (cp : CodePage) (ctx : Context) (c : Conn) (singleMsg flow wait : Bool)
    (hconn : ctx.session.conn = some c) :
    ∃ H : IRMHeader,
      (ctx.WithRecvOnly cp singleMsg flow wait).ctx.irm = some H ∧
      (ctx.WithRecvOnly cp singleMsg flow wait).initial = false ∧
      Uint16 H.Length.val = 80 ∧
      (((NewRequest H).Write c).2 = none →
        ∃ (r1 : ctxRecvOnly) (c1 : Conn),
          (ctx.WithRecvOnly cp singleMsg flow wait).Recv cp
            = some ((some (NewResponse c1), none), r1) ∧
          r1.initial = true ∧ r1.ctx.irm = some H ∧ r1.ctx.session.conn = some c1 ∧
          c1.sent = c.sent ++ ((PutUint32 88 ++ H.MarshalBinary.1.drop 4)
            ++ [0x00, 0x04, 0x00, 0x00]) ∧
          ((PutUint32 88 ++ H.MarshalBinary.1.drop 4) ++ [0x00, 0x04, 0x00, 0x00]).length = 88 ∧
          r1.Recv cp = some ((some (NewResponse c1), none), r1)) ∧
      (c.faults = [] → ((NewRequest H).Write c).2 = none) ∧
      (∀ (r : ctxRecvOnly) (c2 : Conn), r.initial = true → r.ctx.session.conn = some c2 →
        r.Recv cp = some ((some (NewResponse c2), none), r)) ∧
      (∀ e : Err, ((NewRequest H).Write c).2 = some e →
        ∃ (r1 : ctxRecvOnly) (c1 : Conn),
          (ctx.WithRecvOnly cp singleMsg flow wait).Recv cp = some ((none, some e), r1) ∧
          r1.initial = false ∧ r1.ctx.irm = some H ∧ r1.ctx.session.conn = some c1 ∧
          c1 = ((NewRequest H).Write c).1 ∧
          (((NewRequest H).Write c1).2 = none →
            ∃ (r2 : ctxRecvOnly) (c2 : Conn),
              r1.Recv cp = some ((some (NewResponse c2), none), r2) ∧
              r2.initial = true ∧ r2.ctx.session.conn = some c2 ∧
              c2.sent = c1.sent ++ ((PutUint32 88 ++ H.MarshalBinary.1.drop 4)
                ++ [0x00, 0x04, 0x00, 0x00]))) := by
  obtain ⟨hirm, hsess⟩ := WithRecvOnly_irm cp ctx singleMsg flow wait
  have hconn0 : (ctx.WithRecvOnly cp singleMsg flow wait).ctx.session.conn = some c := by
    rw [hsess, hconn]
  have hL : Uint16 (modeHeader cp ctx).Length.val = 80 := (modeHeader_fields cp ctx).1
  obtain ⟨hA, hB⟩ := Recv_unset cp (ctx.WithRecvOnly cp singleMsg flow wait) _ c rfl hirm
    hconn0 hL
  exact ⟨_, hirm, rfl, hL, hA, fun hc => requestWrite_noFaults _ c hc,
    fun r c2 hini hc2 => Recv_later cp r c2 hini hc2, hB⟩

/-- C28, on the sample code page: on an idle connection the first `Recv` writes 88
bytes and sets the latch; on a connection whose next write fails it returns the
error of the write and leaves the latch unset. -/
theorem Recv_latch_witness :
    (∃ (r1 : ctxRecvOnly) (c1 : Conn) (resp : Response),
      ((NewContext (Session.started (ascii "IMSA") Conn.idle)).WithRecvOnly samplePage
          true false true).Recv samplePage = some ((some resp, none), r1) ∧
      r1.initial = true ∧ r1.ctx.session.conn = some c1 ∧ c1.sent.length = 88 ∧
      r1.Recv samplePage = some ((some resp, none), r1)) ∧
    (∃ r1 : ctxRecvOnly,
      ((NewContext (Session.started (ascii "IMSA") Conn.failing)).WithRecvOnly samplePage
          true false true).Recv samplePage = some ((none, some Err.ErrWrite), r1) ∧
      r1.initial = false) := by
  obtain ⟨H, _, _, _, hA, hB, _, _⟩ := Recv_latch samplePage
    (NewContext (Session.started (ascii "IMSA") Conn.idle)) Conn.idle true false true rfl
  obtain ⟨r1, c1, h1, h2, _, h4, h5, h6, h7⟩ := hA (hB rfl)
  obtain ⟨H2, _, _, _, _, _, _, hD⟩ := Recv_latch samplePage
    (NewContext (Session.started (ascii "IMSA") Conn.failing)) Conn.failing true false true rfl
  obtain ⟨r2, _, g1, g2, _⟩ := hD Err.ErrWrite (by
    simp [Request.Write, Conn.Write, Conn.failing])
  refine ⟨⟨r1, c1, _, h1, h2, h4, ?_, h7⟩, ⟨r2, g1, g2⟩⟩
  rw [h5]
  simpa [Conn.idle] using h6

/-! ## Segments with a short or wrongly populated length -/

theorem UnmarshalBinary_RSM_short (d : List Byte) (h : d.length < 20) :
    RespRSM.zero.UnmarshalBinary d = (RespRSM.zero, some Err.ErrInvalidUnmarshal) := by
  have hn : ¬ d.length ≥ 20 := by omega
  simp only [RespRSM.UnmarshalBinary, hn, if_false]

theorem UnmarshalBinary_CID_short (d : List Byte) (h : d.length < 20) :
    RespCID.zero.UnmarshalBinary d = (RespCID.zero, some Err.ErrInvalidUnmarshal) := by
  have hn : ¬ d.length ≥ 20 := by omega
  simp only [RespCID.UnmarshalBinary, hn, if_false]

/-- `Out(true)` after a read that ended on a `*CSMOKY*` segment, with no status
segment and data segments of at least four bytes. -/
theorem Out_of_readAll (cp : CodePage) (r r1 : Response)
    (h : r.readAllSegments cp = Run.ret (none, r1)) (hrsm : r1.rsm = none)
    (hcsm : r1.csm ≠ none) (hd : ∀ s ∈ r1.data, 4 ≤ s.length) :
    ∃ out : List (List Byte), r.Out cp true = Run.ret ((out, none), r1) := by
  unfold Response.Out
  rw [h]
  by_cases hnil : r1.data = []
  · exact ⟨[], by simp [hrsm, hcsm, hnil]⟩
  · have ho := outLoop_true cp r1.data hd
    exact ⟨r1.data.map (fun s => E2A cp (s.drop 4)), by simp [hrsm, hcsm, hnil, ho]⟩

/-- C26, as the code behaves. A segment too short for its kind raises no error.
On a fresh response whose stream is a total length, data segments and a
`*REQSTS*` segment of fewer than 20 bytes, `Out` returns the peer error with the
codes 0 and 0, although `UnmarshalBinary` reports `ErrInvalidUnmarshal` for the
segment. On a stream with a `*GENCID*` segment of fewer than 20 bytes among the
data segments before `*CSMOKY*`, `Out(true)` returns no error and `ClientID` then
returns `E2A` of eight zero bytes and no error. -/
theorem short_segment_no_error (cp : CodePage) (c : Conn) (tl : List Byte)
    (ds pre post : List (List Byte)) (rsm cid csm rest : List Byte) (asc : Bool)
    (htl : tl.length = 4) (hds : ∀ s ∈ ds, IsDataSegment cp s)
    (hpre : ∀ s ∈ pre, IsDataSegment cp s) (hpost : ∀ s ∈ post, IsDataSegment cp s)
    (hrsm : IsTokenSegment cp (ascii "*REQSTS*") rsm) (hrsm20 : rsm.length < 20)
    (hcid : IsTokenSegment cp (ascii "*GENCID*") cid) (hcid20 : cid.length < 20)
    (hcsm : IsTokenSegment cp (ascii "*CSMOKY*") csm) :
    (c.unread = tl ++ ds.flatten ++ rsm ++ rest →
      (RespRSM.zero.UnmarshalBinary rsm).2 = some Err.ErrInvalidUnmarshal ∧
      ∃ r1 : Response,
        (NewResponse c).Out cp asc = Run.ret (([], some (Err.ErrIMSConnect 0 0)), r1) ∧
        r1.rsm = some rsm) ∧
    (c.unread = tl ++ (pre ++ [cid] ++ post).flatten ++ csm ++ rest →
      (RespCID.zero.UnmarshalBinary cid).2 = some Err.ErrInvalidUnmarshal ∧
      ∃ (out : List (List Byte)) (r1 : Response),
        (NewResponse c).Out cp true = Run.ret ((out, none), r1) ∧
        r1.cid = some cid ∧
        r1.ClientID cp = (E2A cp (List.replicate 8 0), none)) := by
  constructor
  · intro hrd
    have hall := readAllSegments_stream cp c tl ds rsm rest htl hds hrsm.1
      (by intro q; rw [segTypeOf_REQSTS cp rsm hrsm, route_ERR]) hrd
    rw [segTypeOf_REQSTS cp rsm hrsm, route_ERR, UnmarshalBinary_RSM_short rsm hrsm20] at hall
    refine ⟨by rw [UnmarshalBinary_RSM_short rsm hrsm20], ?_⟩
    refine ⟨{ NewResponse { c with unread := rest } with
        initial := false, length := Uint32 tl, rsm := some rsm, data := ds,
        retCode := 0, rsnCode := 0 }, ?_, rfl⟩
    unfold Response.Out
    rw [hall]
    simp [Response.advance, NewResponse, RespRSM.zero, Bytes.zero, Uint32]
  · intro hrd
    refine ⟨by rw [UnmarshalBinary_CID_short cid hcid20], ?_⟩
    have hend : ∀ q : Response, (q.route (segTypeOf cp csm csm.length) csm).2 = true := by
      intro q; rw [segTypeOf_CSM cp csm hcsm, route_CSM]
    have hsegs : ∀ s ∈ pre ++ [cid] ++ post, IsSegment s ∧
        ∀ q : Response, (q.route (segTypeOf cp s s.length) s).2 = false := by
      intro s hs
      simp only [List.mem_append, List.mem_singleton] at hs
      rcases hs with (h | h) | h
      · exact passing_data cp s (hpre s h)
      · subst h; exact passing_GENCID cp s hcid
      · exact passing_data cp s (hpost s h)
    have hall := readAllSegments_passing cp c tl _ csm rest htl hsegs hcsm.1 hend hrd
    rw [segTypeOf_CSM cp csm hcsm, route_CSM] at hall
    simp only [Response.absorb, List.foldl_append, List.foldl_cons, List.foldl_nil,
      segTypeOf_GENCID cp cid hcid, route_CID] at hall
    have e1 := absorb_data cp pre
      ({ NewResponse c with initial := false, length := Uint32 tl } : Response) hpre
    simp only [Response.absorb] at e1
    rw [e1] at hall
    have e2 := absorb_data cp post
      ({ ({ ({ NewResponse c with initial := false, length := Uint32 tl } : Response) with
          data := ({ NewResponse c with initial := false, length := Uint32 tl }
            : Response).data ++ pre } : Response) with cid := some cid }) hpost
    simp only [Response.absorb] at e2
    rw [e2] at hall
    obtain ⟨out, hout⟩ := Out_of_readAll cp _ _ hall rfl (by simp [Response.advance])
      (by
        intro s hs
        simp only [Response.advance, NewResponse, List.nil_append, List.mem_append] at hs
        rcases hs with h | h
        · exact (hpre s h).1.1
        · exact (hpost s h).1.1)
    refine ⟨out, _, hout, rfl, ?_⟩
    show (E2A cp (RespCID.zero.UnmarshalBinary cid).1.ClientID.val, (none : Option Err)) = _
    rw [UnmarshalBinary_CID_short cid hcid20]
    rfl

/-- C26, at the streams `00 00 00 18`, "PONG", short `*REQSTS*` and
`00 00 00 24`, short `*GENCID*`, "PONG", `*CSMOKY*`. -/
theorem short_segment_no_error_witness :
    IsTokenSegment samplePage (ascii "*REQSTS*") rsmShort ∧ rsmShort.length < 20 ∧
    IsTokenSegment samplePage (ascii "*GENCID*") cidShort ∧ cidShort.length < 20 ∧
    (∃ r1 : Response,
      (NewResponse (Conn.receiving ([0x00, 0x00, 0x00, 0x18] ++ [pongSegment].flatten
          ++ rsmShort ++ []))).Out samplePage true
        = Run.ret (([], some (Err.ErrIMSConnect 0 0)), r1)) ∧
    (∃ (out : List (List Byte)) (r1 : Response),
      (NewResponse (Conn.receiving ([0x00, 0x00, 0x00, 0x24]
          ++ (([] : List (List Byte)) ++ [cidShort] ++ [pongSegment]).flatten ++ csmSegment ++ []))).Out
          samplePage true
        = Run.ret ((out, none), r1) ∧
      r1.ClientID samplePage = (E2A samplePage (List.replicate 8 0), none)) := by
  have hds : ∀ s ∈ [pongSegment], IsDataSegment samplePage s := by decide
  have hrsm : IsTokenSegment samplePage (ascii "*REQSTS*") rsmShort := by decide
  have hcid : IsTokenSegment samplePage (ascii "*GENCID*") cidShort := by decide
  have hcsm : IsTokenSegment samplePage (ascii "*CSMOKY*") csmSegment := by decide
  have h1 := (short_segment_no_error samplePage
    (Conn.receiving ([0x00, 0x00, 0x00, 0x18] ++ [pongSegment].flatten ++ rsmShort ++ []))
    [0x00, 0x00, 0x00, 0x18] [pongSegment] [] [pongSegment] rsmShort cidShort csmSegment []
    true rfl hds (by decide) hds hrsm (by decide) hcid (by decide) hcsm).1 rfl
  have h2 := (short_segment_no_error samplePage
    (Conn.receiving ([0x00, 0x00, 0x00, 0x24] ++ (([] : List (List Byte)) ++ [cidShort] ++ [pongSegment]).flatten
      ++ csmSegment ++ []))
    [0x00, 0x00, 0x00, 0x24] [pongSegment] [] [pongSegment] rsmShort cidShort csmSegment []
    true rfl hds (by decide) hds hrsm (by decide) hcid (by decide) hcsm).2 rfl
  obtain ⟨_, r1, e1, _⟩ := h1
  obtain ⟨_, out, r2, e2, _, e3⟩ := h2
  exact ⟨hrsm, by decide, hcid, by decide, ⟨r1, e1⟩, ⟨out, r2, e2, e3⟩⟩

/-- `ReadNextSegment` past the total length, on a stream whose next two bytes
give an `LL` below 2: the slice expression `segData[:2]` is out of range. -/
theorem ReadNextSegment_tiny (cp : CodePage) (r : Response) (b : Byte) (rest : List Byte)
    (hi : r.initial = false) (hb : b < 2) (hrd : r.reader.unread = [0, b] ++ rest) :
    r.ReadNextSegment cp = none := by
  have hf := ReadFull_enough r.reader [0, b] rest hrd
  have h2 : ([0, b] : List Byte).length = 2 := rfl
  rw [h2] at hf
  have hu : Uint16 (slice [0, b] 0 2) < 2 := by simpa [Uint16, slice] using hb
  simp only [Response.ReadNextSegment, Response.readTotal, hi, Bool.false_eq_true, if_false, hf,
    hu, if_true]

theorem segTypeOf_short (cp : CodePage) (s : List Byte) (h : s.length < 12) :
    segTypeOf cp s s.length = RESPSEGDATA := by
  have hn : ¬ s.length ≥ 12 := by omega
  simp only [segTypeOf, hn, if_false]

theorem outLoop_short (cp : CodePage) (asc : Bool) (s : List Byte) (rest : List (List Byte))
    (h : s.length < 4) : outLoop cp asc (s :: rest) = none := by
  cases asc <;> simp [outLoop, h]

/-- `Out` on a fresh response whose first segment has an `LL` of 2 or 3 and is
followed by `*CSMOKY*`: the segment is stored as a data segment and the slice
expression `seg[4:]`, or `make` with a negative length, fails. -/
theorem Out_short_data (cp : CodePage) (c : Conn) (tl s csm rest : List Byte) (asc : Bool)
    (htl : tl.length = 4) (hs2 : 2 ≤ s.length) (hs4 : s.length < 4) (hU : Uint16 s = s.length)
    (hcsm : IsTokenSegment cp (ascii "*CSMOKY*") csm)
    (hrd : c.unread = tl ++ s ++ csm ++ rest) :
    (NewResponse c).Out cp asc = Run.panic := by
  have hrd2 : (NewResponse c).reader.unread = tl ++ (s ++ (csm ++ rest)) := by
    simp [NewResponse, hrd]
  have hend : ∀ q : Response, (q.route (segTypeOf cp csm csm.length) csm).2 = true := by
    intro q; rw [segTypeOf_CSM cp csm hcsm, route_CSM]
  have hlen : (NewResponse c).reader.unread.length
      = (tl.length + s.length + csm.length + rest.length - 1) + 1 := by
    rw [hrd2]
    simp only [List.length_append]
    omega
  have hall : (NewResponse c).readAllSegments cp
      = Run.ret (none,
          { NewResponse { c with unread := rest } with
            initial := false, length := Uint32 tl, data := [s], csm := some csm }) := by
    unfold Response.readAllSegments
    rw [readLoop_initial cp (NewResponse c) tl _ _ rfl htl hrd2, hlen, Response.readLoop,
      ReadNextSegment_segment cp _ s (csm ++ rest) hs2 hU rfl rfl, segTypeOf_short cp s (by omega)]
    simp only [route_data]
    rw [readLoop_passing cp [] _ csm rest _ (by simp) hcsm.1 hend rfl
      (by simp [Response.advance]) (by simp only [List.length_nil]; omega)]
    rw [segTypeOf_CSM cp csm hcsm, route_CSM]
    simp [Response.absorb, Response.advance, NewResponse]
  unfold Response.Out
  rw [hall]
  simp [NewResponse, outLoop_short cp asc s [] hs4]

/-- C27, as the code behaves. Reading can fail at run time on a wrongly populated
length. When the two length bytes of a segment give an `LL` of 0 or 1,
`ReadNextSegment` panics, past the total length and on a fresh response alike,
and so does `Out`. When they give an `LL` of 2 or 3, `ReadNextSegment` returns
the bytes as a data segment with no error, and `Out` panics once the closing
`*CSMOKY*` segment has arrived. -/
theorem short_LL_panics (cp : CodePage) (c : Conn) (tl s csm rest : List Byte)
    (b : Byte) (asc : Bool) (htl : tl.length = 4) (hb : b < 2)
    (hs2 : 2 ≤ s.length) (hs4 : s.length < 4) (hU : Uint16 s = s.length)
    (hcsm : IsTokenSegment cp (ascii "*CSMOKY*") csm) :
    (∀ r : Response, r.initial = false → r.reader.unread = [0, b] ++ rest →
      r.ReadNextSegment cp = none) ∧
    (c.unread = tl ++ [0, b] ++ rest →
      (NewResponse c).ReadNextSegment cp = none ∧ (NewResponse c).Out cp asc = Run.panic) ∧
    (∀ r : Response, r.initial = false → r.reader.unread = s ++ rest →
      r.ReadNextSegment cp = some ((RESPSEGDATA, s, none), r.advance rest)) ∧
    (c.unread = tl ++ s ++ csm ++ rest → (NewResponse c).Out cp asc = Run.panic) := by
  refine ⟨fun r hi hrd => ReadNextSegment_tiny cp r b rest hi hb hrd, ?_, ?_,
    fun hrd => Out_short_data cp c tl s csm rest asc htl hs2 hs4 hU hcsm hrd⟩
  · intro hrd
    have hrd2 : (NewResponse c).reader.unread = tl ++ ([0, b] ++ rest) := by
      simp [NewResponse, hrd]
    have hnext : (NewResponse c).ReadNextSegment cp = none := by
      rw [ReadNextSegment_initial cp (NewResponse c) tl _ rfl htl hrd2]
      exact ReadNextSegment_tiny cp _ b rest rfl hb rfl
    refine ⟨hnext, ?_⟩
    unfold Response.Out Response.readAllSegments
    rw [Response.readLoop, hnext]
  · intro r hi hrd
    rw [ReadNextSegment_segment cp r s rest hs2 hU hi hrd, segTypeOf_short cp s (by omega)]

/-- C27, at the streams `00 00 00 06 | 00 00` and `00 00 00 12 | 00 02`,
`*CSMOKY*`. -/
theorem short_LL_panics_witness :
    IsTokenSegment samplePage (ascii "*CSMOKY*") csmSegment ∧
    (NewResponse (Conn.receiving ([0x00, 0x00, 0x00, 0x06] ++ [0, 0] ++ []))).ReadNextSegment
        samplePage = none ∧
    (NewResponse (Conn.receiving ([0x00, 0x00, 0x00, 0x06] ++ [0, 0] ++ []))).Out
        samplePage true = Run.panic ∧
    (NewResponse (Conn.receiving ([0x00, 0x00, 0x00, 0x12] ++ [0x00, 0x02] ++ csmSegment
        ++ []))).Out samplePage true = Run.panic := by
  have hcsm : IsTokenSegment samplePage (ascii "*CSMOKY*") csmSegment := by decide
  have h1 := (short_LL_panics samplePage
    (Conn.receiving ([0x00, 0x00, 0x00, 0x06] ++ [0, 0] ++ []))
    [0x00, 0x00, 0x00, 0x06] [0x00, 0x02] csmSegment [] 0 true rfl (by decide) (by decide)
    (by decide) (by decide) hcsm).2.1 rfl
  have h2 := (short_LL_panics samplePage
    (Conn.receiving ([0x00, 0x00, 0x00, 0x12] ++ [0x00, 0x02] ++ csmSegment ++ []))
    [0x00, 0x00, 0x00, 0x12] [0x00, 0x02] csmSegment [] 0 true rfl (by decide) (by decide)
    (by decide) (by decide) hcsm).2.2.2 rfl
  exact ⟨hcsm, h1.1, h1.2, h2⟩

/-! ## The error catalog -/

/-- A key that is not among the keys of a table is not found in it. -/
theorem lookup_absent (t : List (Int × String)) (n : Int) (h : n ∉ t.map Prod.fst) :
    t.lookup n = none := by
  induction t with
  | nil => rfl
  | cons e t ih =>
    simp only [List.map_cons, List.mem_cons, not_or] at h
    have hne : (n == e.1) = false := by simpa using h.1
    simp only [List.lookup, hne]
    exact ih h.2

/-- C25. `ReturnCode(n).String()` returns the description that the table
`returnCodes` holds for `n` when `n` is one of its keys (4, 8, .., 44), in
particular "Error detected by IMS Connect and the socket is disconnected for IMS"
for 8, and "Unknown: " followed by the decimal rendering of `n` for every other
`n`, as for 7 and for -7. -/
theorem ReturnCode_String :
    (∀ e ∈ returnCodes, ReturnCode.String e.1 = e.2) ∧
    returnCodes.map Prod.fst = [4, 8, 12, 16, 20, 24, 28, 32, 36, 40, 44] ∧
    (∀ n : Int, n ∉ returnCodes.map Prod.fst →
      ReturnCode.String n = "Unknown: " ++ Itoa n) ∧
    ReturnCode.String 8
      = "Error detected by IMS Connect and the socket is disconnected for IMS" ∧
    ReturnCode.String 7 = "Unknown: 7" ∧ ReturnCode.String (-7) = "Unknown: -7" := by
  refine ⟨by decide, by decide, ?_, by decide, by decide, by decide⟩
  intro n hn
  simp only [ReturnCode.String, lookup_absent returnCodes n hn]

/-- C24, as the code behaves. `ReasonCode(n).String()` consults the table of
return codes, not the table of reason codes: it equals `ReturnCode(n).String()`
for every `n`. For 36 it returns the description of return code 36 where the
table of reason codes holds "Protocol error", and for 5, a key of the table of
reason codes only, it returns "Unknown: 5"; for no key of the table of reason
codes does it return the description that table holds. For an `n` that is a key
of neither table it returns "Unknown: " followed by the decimal rendering. -/
theorem ReasonCode_String :
    (∀ n : Int, ReasonCode.String n = ReturnCode.String n) ∧
    reasonCodes.lookup 36 = some "Protocol error" ∧
    ReasonCode.String 36
      = "A default IRM_TIMER value expired and socket is disconnected by IMS Connect" ∧
    ReasonCode.String 36 ≠ "Protocol error" ∧
    reasonCodes.lookup 5 = some "Negative length value" ∧
    ReasonCode.String 5 = "Unknown: 5" ∧
    (∀ e ∈ reasonCodes, ReasonCode.String e.1 ≠ e.2) ∧
    (∀ n : Int, n ∉ returnCodes.map Prod.fst → n ∉ reasonCodes.map Prod.fst →
      ReasonCode.String n = "Unknown: " ++ Itoa n) := by
  refine ⟨fun _ => rfl, by decide, by decide, by decide, by decide, by decide, by decide, ?_⟩
  intro n hn _
  simp only [ReasonCode.String, lookup_absent returnCodes n hn]

/-! ## The shape of the prefix along sequences of operations -/

theorem lor_land_self (x b : Nat) : (x ||| b) &&& b = b := by
  apply Nat.eq_of_testBit_eq
  intro i
  simp only [Nat.testBit_land, Nat.testBit_lor]
  cases x.testBit i <;> cases b.testBit i <;> rfl

theorem send_irm (cp : CodePage) (ctx ctx1 : Context) (segs : List (List Byte)) (asc : Bool)
    (err : Option Err) (h : send cp ctx segs asc = some (ctx1, err)) : ctx1.irm = ctx.irm := by
  cases hi : ctx.irm with
  | none => simp [send, hi] at h
  | some P =>
    cases hc : ctx.session.conn with
    | none => simp [send, hi, hc] at h
    | some c =>
      rw [send_some cp ctx P c segs asc hi hc] at h
      injection h with h
      injection h with h1 _
      rw [← h1]
      exact hi

theorem ack_irm (cp : CodePage) (ctx ctx1 : Context) (err : Option Err)
    (h : ack cp ctx = some (ctx1, err)) : ctx1.irm = ctx.irm := by
  cases hi : ctx.irm with
  | none => simp [ack, hi] at h
  | some P =>
    cases hc : ctx.session.conn with
    | none => simp [ack, send, hi, hc] at h
    | some c =>
      rw [ack_some cp ctx P c hi hc] at h
      injection h with h
      injection h with h1 _
      rw [← h1]
      exact hi

theorem nak_irm (cp : CodePage) (ctx ctx1 : Context) (reason : Nat) (retainMsg : Bool)
    (err : Option Err) (h : nak cp ctx reason retainMsg = some (ctx1, err)) :
    ctx1.irm = ctx.irm := by
  cases hi : ctx.irm with
  | none => simp [nak, hi] at h
  | some P =>
    cases hc : ctx.session.conn with
    | none =>
      exfalso
      cases retainMsg <;> by_cases hr : reason = 0 <;> simp [nak, send, hi, hc, hr] at h
    | some c =>
      rw [nak_some cp ctx P c reason retainMsg hi hc] at h
      injection h with h
      injection h with h1 _
      rw [← h1]
      exact hi

theorem Recv_irm (cp : CodePage) (ctx : Context)
    (res : (Option Response × Option Err) × ctxRecvOnly)
    (h : ctxRecvOnly.Recv cp ⟨ctx, false⟩ = some res) : res.2.ctx.irm = ctx.irm := by
  simp only [ctxRecvOnly.Recv, Bool.not_false, if_true] at h
  cases hs : send cp ctx [] false with
  | none => simp [hs] at h
  | some x =>
    obtain ⟨ctx1, e⟩ := x
    have hirm := send_irm cp ctx ctx1 [] false e hs
    rw [hs] at h
    cases e with
    | some e1 =>
      simp only [Option.some.injEq] at h
      rw [← h]
      exact hirm
    | none =>
      simp only at h
      cases hr : recv ctx1 with
      | none => simp [hr] at h
      | some resp =>
        simp only [hr, Option.some.injEq] at h
        rw [← h]
        exact hirm

theorem modeHeader_IrmID (cp : CodePage) (ctx : Context) :
    (modeHeader cp ctx).IrmID.val = A2E cp (ascii "*SAMPL1*") := by
  show copy (List.replicate 8 0) (A2E cp (ascii "*SAMPL1*")) = _
  exact copy_full _ _ (by simp [A2E]; rfl)

/-- Every mode selection leaves a prefix of the required shape, whatever the
context held before. -/
theorem Shaped_mode (cp : CodePage) (ctx : Context) (a b c : Bool) :
    (∃ H : IRMHeader, (ctx.WithSendRecv cp a b c).ctx.irm = some H ∧ H.Shaped cp) ∧
    (∃ H : IRMHeader, (ctx.WithSendOnly cp a b).ctx.irm = some H ∧ H.Shaped cp) ∧
    (∃ H : IRMHeader, (ctx.WithRecvOnly cp a b c).ctx.irm = some H ∧ H.Shaped cp) := by
  have hid := modeHeader_IrmID cp ctx
  refine ⟨⟨_, (WithSendRecv_irm cp ctx a b c).1, ?_, hid, Or.inl ⟨rfl, rfl, ?_⟩⟩,
    ⟨_, (WithSendOnly_irm cp ctx a b).1, ?_, hid, Or.inl ⟨rfl, rfl, ?_⟩⟩,
    ⟨_, (WithRecvOnly_irm cp ctx a b c).1, ?_, hid, Or.inl ⟨rfl, rfl, ?_⟩⟩⟩
  · show IRMF5NTRNSL &&& 0x40 = 0x40
    decide
  · cases a <;> cases b <;> cases c <;> dsimp only <;> decide
  · show IRMF5NTRNSL &&& 0x40 = 0x40
    decide
  · cases b <;> dsimp only <;> decide
  · cases a <;> cases b <;> cases c <;> dsimp only <;> decide
  · show IRMF3CANCID &&& IRMF3REROUT = 0
    decide

/-- `SetReroute` takes a prefix of the required shape to one of the reroute
shape. -/
theorem Shaped_setReroute (cp : CodePage) (H : IRMHeader) (v : List Byte) (hH : H.Shaped cp) :
    (H.setReroute cp v).Shaped cp := by
  refine ⟨hH.1, hH.2.1, Or.inr ⟨?_, rfl, ?_⟩⟩
  · show copy H.Length.val (PutUint16 96) = _
    rw [copy_full _ _ (by rw [H.Length.property]; rfl)]
    rfl
  · show (H.F3 ||| IRMF3REROUT) &&& IRMF3REROUT = IRMF3REROUT
    exact lor_land_self _ _

/-- One operation keeps the required shape of the prefix. -/
theorem Shaped_step (cp : CodePage) (ctx ctx1 : Context) (H : IRMHeader) (op : Op)
    (hirm : ctx.irm = some H) (hH : H.Shaped cp) (hstep : ctx.step cp op = some ctx1) :
    ∃ H1 : IRMHeader, ctx1.irm = some H1 ∧ H1.Shaped cp := by
  have keep : ∀ c2 : Context, c2.irm = ctx.irm → ∃ H1 : IRMHeader, c2.irm = some H1 ∧ H1.Shaped cp :=
    fun c2 h2 => ⟨H, by rw [h2, hirm], hH⟩
  cases op with
  | WithSendRecv a b c =>
    simp only [Context.step, Option.some.injEq] at hstep
    rw [← hstep]
    exact (Shaped_mode cp ctx a b c).1
  | WithSendOnly a b =>
    simp only [Context.step, Option.some.injEq] at hstep
    rw [← hstep]
    exact (Shaped_mode cp ctx a b false).2.1
  | WithRecvOnly a b c =>
    simp only [Context.step, Option.some.injEq] at hstep
    rw [← hstep]
    exact (Shaped_mode cp ctx a b c).2.2
  | SetReroute v =>
    simp only [Context.step, Context.SetReroute, hirm, Option.some.injEq] at hstep
    rw [← hstep]
    exact ⟨_, rfl, Shaped_setReroute cp H v hH⟩
  | SetClientID v =>
    simp only [Context.step, Context.SetClientID, hirm, Option.some.injEq] at hstep
    rw [← hstep]
    exact ⟨_, rfl, hH⟩
  | SetTranCode v =>
    simp only [Context.step, Context.SetTranCode, hirm, Option.some.injEq] at hstep
    rw [← hstep]
    exact ⟨_, rfl, hH⟩
  | SetLterm v =>
    simp only [Context.step, Context.SetLterm, hirm, Option.some.injEq] at hstep
    rw [← hstep]
    exact ⟨_, rfl, hH⟩
  | SetModName v =>
    simp only [Context.step, Context.SetModName, hirm, Option.some.injEq] at hstep
    rw [← hstep]
    exact ⟨_, rfl, hH⟩
  | SetCredentials u g w =>
    simp only [Context.step, Context.SetCredentials, hirm, Option.some.injEq] at hstep
    rw [← hstep]
    exact ⟨_, rfl, hH⟩
  | sendRecvSend segs asc =>
    simp only [Context.step, ctxSendRecv.Send] at hstep
    cases hs : send cp ctx segs asc with
    | none => simp [hs] at hstep
    | some x =>
      simp only [hs, Option.map_some', Option.some.injEq] at hstep
      rw [← hstep]
      exact keep _ (send_irm cp ctx x.1 segs asc x.2 hs)
  | sendRecvRecv =>
    simp only [Context.step, Option.some.injEq] at hstep
    rw [← hstep]
    exact keep _ rfl
  | sendRecvAck =>
    simp only [Context.step, ctxSendRecv.Ack] at hstep
    cases hs : ack cp ctx with
    | none => simp [hs] at hstep
    | some x =>
      simp only [hs, Option.map_some', Option.some.injEq] at hstep
      rw [← hstep]
      exact keep _ (ack_irm cp ctx x.1 x.2 hs)
  | sendRecvNak reason retainMsg =>
    simp only [Context.step, ctxSendRecv.Nak] at hstep
    cases hs : nak cp ctx reason retainMsg with
    | none => simp [hs] at hstep
    | some x =>
      simp only [hs, Option.map_some', Option.some.injEq] at hstep
      rw [← hstep]
      exact keep _ (nak_irm cp ctx x.1 reason retainMsg x.2 hs)
  | sendOnlySend ackRequired segs asc =>
    simp only [Context.step, ctxSendOnly.Send] at hstep
    cases hs : send cp ctx segs asc with
    | none => simp [hs] at hstep
    | some x =>
      obtain ⟨c1, e⟩ := x
      have hk := keep _ (send_irm cp ctx c1 segs asc e hs)
      cases e <;>
        · simp only [hs, Option.map_some', Option.some.injEq] at hstep
          rw [← hstep]
          exact hk
  | recvOnlyRecv initial =>
    cases initial with
    | true =>
      simp only [Context.step, Option.some.injEq] at hstep
      rw [← hstep]
      exact keep _ rfl
    | false =>
      simp only [Context.step] at hstep
      cases hs : ctxRecvOnly.Recv cp ⟨ctx, false⟩ with
      | none => simp [hs] at hstep
      | some x =>
        simp only [hs, Option.map_some', Option.some.injEq] at hstep
        rw [← hstep]
        exact keep _ (Recv_irm cp ctx x hs)
  | recvOnlyAck =>
    simp only [Context.step, ctxRecvOnly.Ack] at hstep
    cases hs : ack cp ctx with
    | none => simp [hs] at hstep
    | some x =>
      simp only [hs, Option.map_some', Option.some.injEq] at hstep
      rw [← hstep]
      exact keep _ (ack_irm cp ctx x.1 x.2 hs)
  | recvOnlyNak reason retainMsg =>
    simp only [Context.step, ctxRecvOnly.Nak] at hstep
    cases hs : nak cp ctx reason retainMsg with
    | none => simp [hs] at hstep
    | some x =>
      simp only [hs, Option.map_some', Option.some.injEq] at hstep
      rw [← hstep]
      exact keep _ (nak_irm cp ctx x.1 reason retainMsg x.2 hs)
  | session s =>
    simp only [Context.step, Option.some.injEq] at hstep
    rw [← hstep]
    exact keep _ rfl

/-- A sequence of operations keeps the required shape of the prefix. -/
theorem Shaped_run (cp : CodePage) (ops : List Op) :
    ∀ (ctx ctx1 : Context) (H : IRMHeader), ctx.irm = some H → H.Shaped cp →
      ctx.run cp ops = some ctx1 → ∃ H1 : IRMHeader, ctx1.irm = some H1 ∧ H1.Shaped cp := by
  induction ops with
  | nil =>
    intro ctx ctx1 H hirm hH hrun
    simp only [Context.run, Option.some.injEq] at hrun
    rw [← hrun]
    exact ⟨H, hirm, hH⟩
  | cons op ops ih =>
    intro ctx ctx1 H hirm hH hrun
    simp only [Context.run] at hrun
    cases hs : ctx.step cp op with
    | none => simp [hs] at hrun
    | some c2 =>
      simp only [hs] at hrun
      obtain ⟨H2, h2, hS2⟩ := Shaped_step cp ctx c2 H op hirm hH hs
      exact ih c2 ctx1 H2 h2 hS2 hrun

/-- A mode selection as first operation always succeeds and leaves a prefix of
the required shape. -/
theorem Shaped_first (cp : CodePage) (ctx : Context) (m : Op) (hm : m.isMode = true) :
    ∃ (c1 : Context) (H : IRMHeader), ctx.step cp m = some c1 ∧ c1.irm = some H ∧
      H.Shaped cp := by
  cases m <;> simp only [Op.isMode, Bool.false_eq_true] at hm
  · rename_i a b c
    obtain ⟨H, h1, h2⟩ := (Shaped_mode cp ctx a b c).1
    exact ⟨_, H, rfl, h1, h2⟩
  · rename_i a b
    obtain ⟨H, h1, h2⟩ := (Shaped_mode cp ctx a b false).2.1
    exact ⟨_, H, rfl, h1, h2⟩
  · rename_i a b c
    obtain ⟨H, h1, h2⟩ := (Shaped_mode cp ctx a b c).2.2
    exact ⟨_, H, rfl, h1, h2⟩

/-- C31. Take any context, select a mode, and then run any sequence of public
operations (mode selections, setters, `SetReroute`, `Send`, `Recv`, `Ack`, `Nak`
on any facade, and changes of the session from outside). If the sequence does
not fail at run time, the prefix of the context it ends in has the
client-translates bit (0x40) of F5 set and the IrmID `*SAMPL1*` in EBCDIC, and
either Length `00 50`, Arch 0 and the reroute bit of F3 clear, or Length `00 60`,
Arch 2 and the reroute bit of F3 set; Arch is at most 2. -/
theorem prefix_shape (cp : CodePage) (ctx0 ctx : Context) (m : Op) (ops : List Op)
    (hm : m.isMode = true) (hrun : ctx0.run cp (m :: ops) = some ctx) :
    ∃ H : IRMHeader, ctx.irm = some H ∧
      H.F5 &&& 0x40 = 0x40 ∧ H.IrmID.val = A2E cp (ascii "*SAMPL1*") ∧
      ((H.Length.val = [0x00, 0x50] ∧ H.Arch = 0 ∧ H.F3 &&& 0x08 = 0) ∨
       (H.Length.val = [0x00, 0x60] ∧ H.Arch = 2 ∧ H.F3 &&& 0x08 = 0x08)) ∧
      H.Arch ≤ 2 := by
  obtain ⟨c1, H1, hs, h1, hS1⟩ := Shaped_first cp ctx0 m hm
  simp only [Context.run, hs] at hrun
  obtain ⟨H, hirm, hS⟩ := Shaped_run cp ops c1 ctx H1 h1 hS1 hrun
  refine ⟨H, hirm, hS.1, hS.2.1, hS.2.2, ?_⟩
  rcases hS.2.2 with ⟨_, ha, _⟩ | ⟨_, ha, _⟩
  · exact le_of_eq_of_le ha (by decide)
  · exact le_of_eq ha

/-- C31, on the sample code page, for the sequence `WithSendRecv(false, false,
false)`, `SetTranCode("ORDERTXN")`, `SetReroute("ALTCID01")`, `Send` of "PING",
`Recv`, `Nak(42, true)` on an idle connection: the sequence runs to its end and
the prefix has the required shape. -/
theorem prefix_shape_witness :
    ∃ ctx : Context,
      (NewContext (Session.started (ascii "IMSA") Conn.idle)).run samplePage
        [Op.WithSendRecv false false false, Op.SetTranCode (ascii "ORDERTXN"),
          Op.SetReroute (ascii "ALTCID01"), Op.sendRecvSend [ascii "PING"] true,
          Op.sendRecvRecv, Op.sendRecvNak 42 true] = some ctx ∧
      ∃ H : IRMHeader, ctx.irm = some H ∧
        H.F5 &&& 0x40 = 0x40 ∧ H.IrmID.val = A2E samplePage (ascii "*SAMPL1*") ∧
        ((H.Length.val = [0x00, 0x50] ∧ H.Arch = 0 ∧ H.F3 &&& 0x08 = 0) ∨
         (H.Length.val = [0x00, 0x60] ∧ H.Arch = 2 ∧ H.F3 &&& 0x08 = 0x08)) ∧
        H.Arch ≤ 2 := by
  have hsome : ((NewContext (Session.started (ascii "IMSA") Conn.idle)).run samplePage
      [Op.WithSendRecv false false false, Op.SetTranCode (ascii "ORDERTXN"),
        Op.SetReroute (ascii "ALTCID01"), Op.sendRecvSend [ascii "PING"] true,
        Op.sendRecvRecv, Op.sendRecvNak 42 true]).isSome = true := by
    rfl
  obtain ⟨ctx, hctx⟩ := Option.isSome_iff_exists.mp hsome
  exact ⟨ctx, hctx, prefix_shape samplePage
    (NewContext (Session.started (ascii "IMSA") Conn.idle)) ctx
    (Op.WithSendRecv false false false)
    [Op.SetTranCode (ascii "ORDERTXN"), Op.SetReroute (ascii "ALTCID01"),
      Op.sendRecvSend [ascii "PING"] true, Op.sendRecvRecv, Op.sendRecvNak 42 true]
    rfl hctx⟩

/-! ## The negative acknowledgement on reachable contexts -/

/-- One operation keeps F0 at zero: no operation other than `nak` writes F0, and
`nak` puts the earlier value back. -/
theorem F0_step (cp : CodePage) (ctx ctx1 : Context) (H : IRMHeader) (op : Op)
    (hirm : ctx.irm = some H) (hH : H.F0 = 0) (hstep : ctx.step cp op = some ctx1) :
    ∃ H1 : IRMHeader, ctx1.irm = some H1 ∧ H1.F0 = 0 := by
  have keep : ∀ c2 : Context, c2.irm = ctx.irm → ∃ H1 : IRMHeader, c2.irm = some H1 ∧ H1.F0 = 0 :=
    fun c2 h2 => ⟨H, by rw [h2, hirm], hH⟩
  cases op with
  | WithSendRecv a b c =>
    simp only [Context.step, Option.some.injEq] at hstep
    rw [← hstep]
    exact ⟨_, (WithSendRecv_irm cp ctx a b c).1, rfl⟩
  | WithSendOnly a b =>
    simp only [Context.step, Option.some.injEq] at hstep
    rw [← hstep]
    exact ⟨_, (WithSendOnly_irm cp ctx a b).1, rfl⟩
  | WithRecvOnly a b c =>
    simp only [Context.step, Option.some.injEq] at hstep
    rw [← hstep]
    exact ⟨_, (WithRecvOnly_irm cp ctx a b c).1, rfl⟩
  | SetReroute v =>
    simp only [Context.step, Context.SetReroute, hirm, Option.some.injEq] at hstep
    rw [← hstep]
    exact ⟨_, rfl, hH⟩
  | SetClientID v =>
    simp only [Context.step, Context.SetClientID, hirm, Option.some.injEq] at hstep
    rw [← hstep]
    exact ⟨_, rfl, hH⟩
  | SetTranCode v =>
    simp only [Context.step, Context.SetTranCode, hirm, Option.some.injEq] at hstep
    rw [← hstep]
    exact ⟨_, rfl, hH⟩
  | SetLterm v =>
    simp only [Context.step, Context.SetLterm, hirm, Option.some.injEq] at hstep
    rw [← hstep]
    exact ⟨_, rfl, hH⟩
  | SetModName v =>
    simp only [Context.step, Context.SetModName, hirm, Option.some.injEq] at hstep
    rw [← hstep]
    exact ⟨_, rfl, hH⟩
  | SetCredentials u g w =>
    simp only [Context.step, Context.SetCredentials, hirm, Option.some.injEq] at hstep
    rw [← hstep]
    exact ⟨_, rfl, hH⟩
  | sendRecvSend segs asc =>
    simp only [Context.step, ctxSendRecv.Send] at hstep
    cases hs : send cp ctx segs asc with
    | none => simp [hs] at hstep
    | some x =>
      simp only [hs, Option.map_some', Option.some.injEq] at hstep
      rw [← hstep]
      exact keep _ (send_irm cp ctx x.1 segs asc x.2 hs)
  | sendRecvRecv =>
    simp only [Context.step, Option.some.injEq] at hstep
    rw [← hstep]
    exact keep _ rfl
  | sendRecvAck =>
    simp only [Context.step, ctxSendRecv.Ack] at hstep
    cases hs : ack cp ctx with
    | none => simp [hs] at hstep
    | some x =>
      simp only [hs, Option.map_some', Option.some.injEq] at hstep
      rw [← hstep]
      exact keep _ (ack_irm cp ctx x.1 x.2 hs)
  | sendRecvNak reason retainMsg =>
    simp only [Context.step, ctxSendRecv.Nak] at hstep
    cases hs : nak cp ctx reason retainMsg with
    | none => simp [hs] at hstep
    | some x =>
      simp only [hs, Option.map_some', Option.some.injEq] at hstep
      rw [← hstep]
      exact keep _ (nak_irm cp ctx x.1 reason retainMsg x.2 hs)
  | sendOnlySend ackRequired segs asc =>
    simp only [Context.step, ctxSendOnly.Send] at hstep
    cases hs : send cp ctx segs asc with
    | none => simp [hs] at hstep
    | some x =>
      obtain ⟨c1, e⟩ := x
      have hk := keep _ (send_irm cp ctx c1 segs asc e hs)
      cases e <;>
        · simp only [hs, Option.map_some', Option.some.injEq] at hstep
          rw [← hstep]
          exact hk
  | recvOnlyRecv initial =>
    cases initial with
    | true =>
      simp only [Context.step, Option.some.injEq] at hstep
      rw [← hstep]
      exact keep _ rfl
    | false =>
      simp only [Context.step] at hstep
      cases hs : ctxRecvOnly.Recv cp ⟨ctx, false⟩ with
      | none => simp [hs] at hstep
      | some x =>
        simp only [hs, Option.map_some', Option.some.injEq] at hstep
        rw [← hstep]
        exact keep _ (Recv_irm cp ctx x hs)
  | recvOnlyAck =>
    simp only [Context.step, ctxRecvOnly.Ack] at hstep
    cases hs : ack cp ctx with
    | none => simp [hs] at hstep
    | some x =>
      simp only [hs, Option.map_some', Option.some.injEq] at hstep
      rw [← hstep]
      exact keep _ (ack_irm cp ctx x.1 x.2 hs)
  | recvOnlyNak reason retainMsg =>
    simp only [Context.step, ctxRecvOnly.Nak] at hstep
    cases hs : nak cp ctx reason retainMsg with
    | none => simp [hs] at hstep
    | some x =>
      simp only [hs, Option.map_some', Option.some.injEq] at hstep
      rw [← hstep]
      exact keep _ (nak_irm cp ctx x.1 reason retainMsg x.2 hs)
  | session s =>
    simp only [Context.step, Option.some.injEq] at hstep
    rw [← hstep]
    exact keep _ rfl

/-- A sequence of operations keeps F0 at zero. -/
theorem F0_run (cp : CodePage) (ops : List Op) :
    ∀ (ctx ctx1 : Context) (H : IRMHeader), ctx.irm = some H → H.F0 = 0 →
      ctx.run cp ops = some ctx1 → ∃ H1 : IRMHeader, ctx1.irm = some H1 ∧ H1.F0 = 0 := by
  induction ops with
  | nil =>
    intro ctx ctx1 H hirm hH hrun
    simp only [Context.run, Option.some.injEq] at hrun
    rw [← hrun]
    exact ⟨H, hirm, hH⟩
  | cons op ops ih =>
    intro ctx ctx1 H hirm hH hrun
    simp only [Context.run] at hrun
    cases hs : ctx.step cp op with
    | none => simp [hs] at hrun
    | some c2 =>
      simp only [hs] at hrun
      obtain ⟨H2, h2, hS2⟩ := F0_step cp ctx c2 H op hirm hH hs
      exact ih c2 ctx1 H2 h2 hS2 hrun

/-- In every context reached by a mode selection followed by public operations,
the prefix has F0 = 0 and the Length 80 or 96. -/
theorem reachable_prefix (cp : CodePage) (ctx0 ctx : Context) (m : Op) (ops : List Op)
    (hm : m.isMode = true) (hrun : ctx0.run cp (m :: ops) = some ctx) :
    ∃ P : IRMHeader, ctx.irm = some P ∧ P.F0 = 0 ∧
      (Uint16 P.Length.val = 80 ∨ Uint16 P.Length.val = 96) := by
  obtain ⟨c1, H1, hs, h1, hS1⟩ := Shaped_first cp ctx0 m hm
  have h01 : H1.F0 = 0 := by
    obtain ⟨H2, h2, h02⟩ : ∃ H2 : IRMHeader, c1.irm = some H2 ∧ H2.F0 = 0 := by
      cases m <;> simp only [Op.isMode, Bool.false_eq_true] at hm <;>
        simp only [Context.step, Option.some.injEq] at hs <;> rw [← hs]
      · exact ⟨_, (WithSendRecv_irm cp ctx0 _ _ _).1, rfl⟩
      · exact ⟨_, (WithSendOnly_irm cp ctx0 _ _).1, rfl⟩
      · exact ⟨_, (WithRecvOnly_irm cp ctx0 _ _ _).1, rfl⟩
    rw [h1] at h2
    rw [Option.some.inj h2]
    exact h02
  simp only [Context.run, hs] at hrun
  obtain ⟨P, hP, hS⟩ := Shaped_run cp ops c1 ctx H1 h1 hS1 hrun
  obtain ⟨P2, hP2, h0⟩ := F0_run cp ops c1 ctx H1 h1 h01 hrun
  rw [hP] at hP2
  rw [← Option.some.inj hP2] at h0
  refine ⟨P, hP, h0, ?_⟩
  rcases hS.2.2 with ⟨hl, _, _⟩ | ⟨hl, _, _⟩
  · left; rw [hl]; rfl
  · right; rw [hl]; rfl

/-- On a prefix whose F0 is zero, the header that `nak` hands to `send` is `P`
with F4 = NACK, F0 OR-ed with SYNCNAK when `retainMsg` is set and with NAKRSN when
the reason is not zero, and NakRsn holding the reason when it is not zero. -/
theorem nakHeader_of_F0 (P : IRMHeader) (reason : Nat) (retainMsg : Bool) (h0 : P.F0 = 0) :
    nakHeader P reason retainMsg
      = { P with
          F4 := IRMF4NACK
          F0 := (P.F0 ||| (if retainMsg then IRMF0SYNCNAK else 0))
                  ||| (if reason ≠ 0 then IRMF0NAKRSN else 0)
          NakRsn := if reason ≠ 0 then P.NakRsn.copy (PutUint16 reason) else P.NakRsn } := by
  have hF0 : (if reason ≠ 0 then (if retainMsg then IRMF0SYNCNAK else P.F0) ||| IRMF0NAKRSN
        else (if retainMsg then IRMF0SYNCNAK else P.F0))
      = (P.F0 ||| (if retainMsg then IRMF0SYNCNAK else 0))
          ||| (if reason ≠ 0 then IRMF0NAKRSN else 0) := by
    rw [h0]
    cases retainMsg <;> by_cases hr : reason = 0 <;> simp [hr]
  unfold nakHeader
  rw [hF0]

/-- C14. Take any context, select a mode and run any sequence of public
operations that does not fail at run time; let `P` be the prefix of the context
reached (its F0 is then 0). On a connection that accepts the write,
`nak(reason, retainMsg)`, also through the facades, transmits a prefix followed
directly by the trailer, with no segment. The prefix is the encoding of `P` with
three fields replaced, so every other byte is as in `P`: F4 (offset 35) is 0xD5,
F0 (offset 7) is `P.F0` OR-ed with SYNCNAK (0x20) when `retainMsg` is true and
with NAKRSN (0x10) when the reason is not zero, and NakRsn (offsets 16..17) is
the reason big-endian when it is not zero and `P.NakRsn` otherwise. For
`nak(42, true)` the transmitted F0 has both SYNCNAK and NAKRSN set and NakRsn is
`00 2A`. -/
theorem nak_transmits (cp : CodePage) (ctx0 ctx : Context) (m : Op) (ops : List Op)
    (c : Conn) (reason : Nat) (retainMsg : Bool)
    (hm : m.isMode = true) (hrun : ctx0.run cp (m :: ops) = some ctx)
    (hconn : ctx.session.conn = some c) (hc : c.faults = []) (hr : reason < 65536) :
    ∃ (P : IRMHeader) (ctx1 : Context) (c1 : Conn) (pfx : List Byte),
      ctx.irm = some P ∧ P.F0 = 0 ∧
      (Uint16 P.Length.val = 80 ∨ Uint16 P.Length.val = 96) ∧
      nak cp ctx reason retainMsg = some (ctx1, none) ∧
      (∀ b : Bool, ctxSendRecv.Nak cp ⟨ctx, b⟩ reason retainMsg = some (⟨ctx1, b⟩, none)) ∧
      (∀ b : Bool, ctxRecvOnly.Nak cp ⟨ctx, b⟩ reason retainMsg = some (⟨ctx1, b⟩, none)) ∧
      ctx1.session.conn = some c1 ∧
      c1.sent = c.sent ++ (pfx ++ [0x00, 0x04, 0x00, 0x00]) ∧
      pfx = PutUint32 (4 + Uint16 P.Length.val + 4)
        ++ ({ P with
              F4 := IRMF4NACK
              F0 := (P.F0 ||| (if retainMsg then IRMF0SYNCNAK else 0))
                      ||| (if reason ≠ 0 then IRMF0NAKRSN else 0)
              NakRsn := if reason ≠ 0 then P.NakRsn.copy (PutUint16 reason) else P.NakRsn }
            : IRMHeader).MarshalBinary.1.drop 4 ∧
      pfx.length = 4 + Uint16 P.Length.val ∧
      pfx[35]? = some 0xD5 ∧
      pfx[7]? = some ((P.F0 ||| (if retainMsg then 0x20 else 0))
                        ||| (if reason ≠ 0 then 0x10 else 0)) ∧
      slice pfx 16 18 = (if reason ≠ 0 then PutUint16 reason else P.NakRsn.val) ∧
      (reason = 42 → retainMsg = true →
        pfx[7]? = some 0x30 ∧ (0x30 : Byte) &&& 0x20 = 0x20 ∧ (0x30 : Byte) &&& 0x10 = 0x10 ∧
        slice pfx 16 18 = [0x00, 0x2A]) := by
  obtain ⟨P, hP, h0, hL⟩ := reachable_prefix cp ctx0 ctx m ops hm hrun
  obtain ⟨ctx1, c1, pfx, hn, hc1, hsent, hpfx, hlen, h35, h7, h16, _⟩ :=
    nak_written cp ctx P c reason retainMsg hP hconn hc hL hr
  have h7a : pfx[7]? = some ((P.F0 ||| (if retainMsg then 0x20 else 0))
      ||| (if reason ≠ 0 then 0x10 else 0)) := by
    rw [h7, h0]
    cases retainMsg <;> by_cases hz : reason = 0 <;> simp [hz, IRMF0SYNCNAK, IRMF0NAKRSN]
  refine ⟨P, ctx1, c1, pfx, hP, h0, hL, hn, ?_, ?_, hc1, hsent, ?_, hlen, h35, h7a, h16, ?_⟩
  · intro b
    simp only [ctxSendRecv.Nak, hn]
  · intro b
    simp only [ctxRecvOnly.Nak, hn]
  · rw [hpfx, nakHeader_of_F0 P reason retainMsg h0]
  · intro h42 hret
    subst h42 hret
    refine ⟨?_, by decide, by decide, ?_⟩
    · rw [h7a, h0]
      decide
    · rw [h16]
      simp [PutUint16]

/-- C14, on the sample code page: after `WithSendRecv(false, false, false)` and
`SetTranCode("ORDERTXN")` on an idle connection, `nak(42, true)` writes 88 bytes
with F4 = 0xD5 at offset 35, F0 = 0x30 at offset 7 and NakRsn = `00 2A` at offsets
16..17. -/
theorem nak_transmits_witness :
    ∃ (ctx ctx1 : Context) (c1 : Conn) (pfx : List Byte),
      (NewContext (Session.started (ascii "IMSA") Conn.idle)).run samplePage
        [Op.WithSendRecv false false false, Op.SetTranCode (ascii "ORDERTXN")] = some ctx ∧
      nak samplePage ctx 42 true = some (ctx1, none) ∧
      ctx1.session.conn = some c1 ∧
      c1.sent = Conn.idle.sent ++ (pfx ++ [0x00, 0x04, 0x00, 0x00]) ∧
      pfx.length = 84 ∧ pfx[35]? = some 0xD5 ∧ pfx[7]? = some 0x30 ∧
      slice pfx 16 18 = [0x00, 0x2A] := by
  have hsome : ((NewContext (Session.started (ascii "IMSA") Conn.idle)).run samplePage
      [Op.WithSendRecv false false false, Op.SetTranCode (ascii "ORDERTXN")]).isSome = true := by
    rfl
  obtain ⟨ctx, hctx⟩ := Option.isSome_iff_exists.mp hsome
  have hconn : ctx.session.conn = some Conn.idle := by
    have h := hctx
    simp only [Context.run, Context.step, Context.SetTranCode] at h
    have hi := (WithSendRecv_irm samplePage
      (NewContext (Session.started (ascii "IMSA") Conn.idle)) false false false).1
    rw [hi] at h
    simp only [Option.some.injEq] at h
    rw [← h]
    rfl
  obtain ⟨P, ctx1, c1, pfx, hP, _, hL, hn, _, _, hc1, hsent, _, hlen, h35, _, _, h42⟩ :=
    nak_transmits samplePage (NewContext (Session.started (ascii "IMSA") Conn.idle)) ctx
      (Op.WithSendRecv false false false) [Op.SetTranCode (ascii "ORDERTXN")] Conn.idle 42 true
      rfl hctx hconn rfl (by decide)
  obtain ⟨h7, _, _, h16⟩ := h42 rfl rfl
  have hL80 : Uint16 P.Length.val = 80 := by
    have h := hctx
    simp only [Context.run, Context.step, Context.SetTranCode] at h
    have hi := (WithSendRecv_irm samplePage
      (NewContext (Session.started (ascii "IMSA") Conn.idle)) false false false).1
    rw [hi] at h
    simp only [Option.some.injEq] at h
    rw [← h] at hP
    simp only [Option.some.injEq] at hP
    rw [← hP]
    exact (modeHeader_fields samplePage
      (NewContext (Session.started (ascii "IMSA") Conn.idle))).1
  refine ⟨ctx, ctx1, c1, pfx, hctx, hn, hc1, hsent, ?_, h35, h7, h16⟩
  rw [hlen, hL80]

end Imstm
